import Mathlib

/-!
Verification of the teleflux synchronization core.

This file gives a shallow embedding, in Lean 4, of the reconciliation logic of
the teleflux repository (src/teleflux/sync.py and the relevant parts of
src/teleflux/miniflux_client.py), and proves or refutes the frozen claims
about it.

Conventions of the embedding:
  - Python strings are Lean `String`s (lists of characters); `str.lower()` is
    modelled character-wise by `Char.toLower` (`pyLower`), which is what the
    program relies on for its case-insensitive URL identity.
  - Python dicts that are only used for key lookup are modelled as association
    lists in insertion order, looked up with last-binding-wins (`dlookup`),
    matching dict-comprehension overwrite semantics.  The planner's
    `channel_assignments` dict is built by inserting a key only when absent,
    so it is modelled as an insertion-ordered association list with
    first-match lookup (`alookup`); its keys are unique by construction.
  - Adapter mutation calls are modelled by their effect on a mirrored
    destination state (`ExecState`), with server-chosen values (fresh ids,
    auto-detected feed titles) supplied by an environment `MinifluxEnv`.
    Mutation calls are modelled as succeeding, which is the hypothesis the
    dry-run/live claims make explicit ("assuming no mutation call fails").
-/

namespace Teleflux

/-! ## Basic character and string helpers -/

/-- The space character, written via its code point. -/
def spaceChar : Char := Char.ofNat 32

/-- Test whether a code point lies in a closed interval. -/
def inRange (lo hi n : Nat) : Bool := decide (lo ≤ n ∧ n ≤ hi)

/-- Characters removed by the first regular expression of `remove_emojis`
(the emoji character class of sync.py, lines 67-86), by code point. -/
def isEmojiChar (c : Char) : Bool :=
  let n := c.toNat
  inRange 0x1f600 0x1f64f n ||  -- emoticons
  inRange 0x1f300 0x1f5ff n ||  -- symbols and pictographs
  inRange 0x1f680 0x1f6ff n ||  -- transport and map symbols
  inRange 0x1f1e0 0x1f1ff n ||  -- flags
  inRange 0x2702 0x27b0 n ||    -- dingbats
  inRange 0x24c2 0x1f251 n ||   -- enclosed characters
  inRange 0x1f900 0x1f9ff n ||  -- supplemental symbols and pictographs
  inRange 0x1fa70 0x1faff n ||  -- symbols and pictographs extended-a
  inRange 0x2600 0x26ff n ||    -- miscellaneous symbols
  inRange 0x2700 0x27bf n ||    -- dingbats
  inRange 0x2640 0x2642 n ||    -- gender symbols
  decide (n = 0x23cf) ||        -- eject symbol
  decide (n = 0x23e9) ||        -- fast forward
  decide (n = 0x231a) ||        -- watch
  decide (n = 0x3030)           -- wavy dash

/-- Characters removed by the second regular expression of `remove_emojis`
(the invisible-formatting character class of sync.py, lines 93-104). -/
def isInvisibleChar (c : Char) : Bool :=
  let n := c.toNat
  decide (n = 0x200d) ||  -- zero width joiner
  decide (n = 0xfe0f) ||  -- variation selector-16
  decide (n = 0x200c) ||  -- zero width non-joiner
  decide (n = 0x200b) ||  -- zero width space
  decide (n = 0x2060) ||  -- word joiner
  decide (n = 0xfeff) ||  -- zero width no-break space
  decide (n = 0x180e)     -- mongolian vowel separator

/-- The character class matched by Python's regex `\s` on `str` operands
(also the set stripped by `str.strip()`). -/
def isPySpace (c : Char) : Bool :=
  let n := c.toNat
  inRange 0x9 0xd n ||
  inRange 0x1c 0x1f n ||
  decide (n = 0x20) ||
  decide (n = 0x85) ||
  decide (n = 0xa0) ||
  decide (n = 0x1680) ||
  inRange 0x2000 0x200a n ||
  decide (n = 0x2028) ||
  decide (n = 0x2029) ||
  decide (n = 0x202f) ||
  decide (n = 0x205f) ||
  decide (n = 0x3000)

/-- `re.sub("[class]+", " ", -)` over a character list: each maximal run of
characters of the class is replaced by a single space.  The boolean flag
records whether the previous character belonged to the class (that is,
whether we are in the middle of a run whose space was already emitted). -/
def subRuns (p : Char → Bool) : Bool → List Char → List Char
  | _, [] => []
  | inRun, c :: cs =>
    if p c then
      if inRun then subRuns p true cs else spaceChar :: subRuns p true cs
    else c :: subRuns p false cs

/-- `str.strip()` over a character list. -/
def pyStrip (l : List Char) : List Char :=
  ((l.dropWhile isPySpace).reverse.dropWhile isPySpace).reverse

/-- Embedding of `remove_emojis` (sync.py, lines 36-112): replace runs of
emoji characters by a space, replace runs of invisible formatting characters
by a space, collapse whitespace runs to single spaces and strip. -/
def remove_emojis (text : String) : String :=
  if text = "" then text
  else
    let cleaned := subRuns isEmojiChar false text.data
    let cleaned := subRuns isInvisibleChar false cleaned
    String.mk (pyStrip (subRuns isPySpace false cleaned))

/-- Character-wise model of Python's `str.lower()`. -/
def pyLower (s : String) : String := String.mk (s.data.map Char.toLower)

/-- `p.isPrefixOf l` on character lists, written out to keep the development
self-contained. -/
def startsWithCh : List Char → List Char → Bool
  | [], _ => true
  | _ :: _, [] => false
  | p :: ps, c :: cs => p == c && startsWithCh ps cs

/-- Python's `pat in s` substring test on character lists. -/
def containsSubCh (pat : List Char) : List Char → Bool
  | [] => startsWithCh pat []
  | c :: cs => startsWithCh pat (c :: cs) || containsSubCh pat cs

/-- `s.startswith(p)` for strings. -/
def strStartsWith (s p : String) : Bool := startsWithCh p.data s.data

/-- `pat in s` for strings. -/
def strContainsSub (s pat : String) : Bool := containsSubCh pat.data s.data

/-- `s.rstrip("/")`: drop trailing slash characters. -/
def rstripSlash (s : String) : String :=
  String.mk ((s.data.reverse.dropWhile (fun c => c == Char.ofNat 47)).reverse)

/-- Python truthiness of an optional string (`None` and `""` are falsy). -/
def optStrTruthy : Option String → Bool
  | none => false
  | some s => !(s == "")

/-! ### urlencode / quote_plus

`_build_rss_url` appends `"?" + urlencode({"secret": hash})`, and
`urllib.parse.urlencode` percent-encodes key and value with `quote_plus`:
ASCII letters, digits and `_.-~` are kept, the space becomes `+`, every other
character is replaced by the uppercase percent-encoding of its UTF-8 bytes. -/

/-- Uppercase hexadecimal digit. -/
def hexDigitUpper (n : Nat) : Char :=
  if n < 10 then Char.ofNat (48 + n) else Char.ofNat (55 + n)

/-- Percent-encoding of one byte. -/
def byteHex (b : Nat) : List Char :=
  [Char.ofNat 37, hexDigitUpper (b / 16), hexDigitUpper (b % 16)]

/-- UTF-8 bytes of a code point. -/
def utf8BytesOfNat (n : Nat) : List Nat :=
  if n < 0x80 then [n]
  else if n < 0x800 then [0xc0 + n / 0x40, 0x80 + n % 0x40]
  else if n < 0x10000 then
    [0xe0 + n / 0x1000, 0x80 + (n / 0x40) % 0x40, 0x80 + n % 0x40]
  else
    [0xf0 + n / 0x40000, 0x80 + (n / 0x1000) % 0x40,
     0x80 + (n / 0x40) % 0x40, 0x80 + n % 0x40]

/-- Characters `quote_plus` never encodes: ASCII alphanumerics and `_.-~`. -/
def quotePlusSafe (c : Char) : Bool :=
  let n := c.toNat
  inRange 0x41 0x5a n || inRange 0x61 0x7a n || inRange 0x30 0x39 n ||
  decide (n = 0x5f) || decide (n = 0x2e) || decide (n = 0x2d) ||
  decide (n = 0x7e)

/-- `quote_plus` applied to one character. -/
def quotePlusChar (c : Char) : List Char :=
  if quotePlusSafe c then [c]
  else if c == spaceChar then [Char.ofNat 43]
  else ((utf8BytesOfNat c.toNat).map byteHex).flatten

/-- `urllib.parse.quote_plus` on a string. -/
def quotePlus (s : String) : String :=
  String.mk ((s.data.map quotePlusChar).flatten)

/-! ## Data model (telegram_client.py, miniflux_client.py, config.py) -/

/-- `TelegramChannel` (telegram_client.py, lines 165-182). -/
structure TelegramChannel where
  id : Int
  username : Option String
  title : String
  is_private : Bool
  folder_name : Option String
  channel_hash : Option String := none
deriving DecidableEq, Repr

/-- `MinifluxCategory` (miniflux_client.py, lines 32-42). -/
structure MinifluxCategory where
  id : Int
  title : String
deriving DecidableEq, Repr

/-- `MinifluxFeed` (miniflux_client.py, lines 45-59). -/
structure MinifluxFeed where
  id : Int
  title : String
  feed_url : String
  category_id : Int
deriving DecidableEq, Repr

/-- The part of `SyncConfig` (config.py, lines 71-93) the synchronizer reads.
`folders` is the ordered folder-to-category mapping (Python dicts preserve
insertion order, which is the planner's priority order). -/
structure SyncConfig where
  folders : List (String × String)
  remove_absent_feeds : Bool := true
  private_feed_mode : String := "skip"
  validate_feeds : Bool := true
  keep_emojis_in_titles : Bool := false
  disable_title_updates : Bool := false
deriving DecidableEq, Repr

/-- `RssHubConfig` (config.py, lines 58-68). -/
structure RssHubConfig where
  base_url : String
deriving DecidableEq, Repr

/-- The slice of `Config` used by `TelefluxSyncer`. -/
structure Config where
  rsshub : RssHubConfig
  sync : SyncConfig
deriving DecidableEq, Repr

/-- `SyncAction` (sync.py, lines 122-144). -/
structure SyncAction where
  action : String
  channel_title : String
  feed_url : String
  category_name : String
  old_title : Option String := none
  old_category : Option String := none
deriving DecidableEq, Repr

/-- `SyncResult` (sync.py, lines 147-169). -/
structure SyncResult where
  added_feeds : List SyncAction
  removed_feeds : List SyncAction
  updated_titles : List SyncAction
  moved_feeds : List SyncAction
  errors : List String
  dry_run : Bool := false
deriving DecidableEq, Repr

/-! ## Association-list models of Python dicts -/

/-- First-binding-wins lookup in an association list.  Used for the planner's
`channel_assignments`, whose keys are unique because an entry is only inserted
when the key is absent. -/
def alookup {β : Type} : List (String × β) → String → Option β
  | [], _ => none
  | (k, v) :: rest, key => if k = key then some v else alookup rest key

/-- Last-binding-wins lookup: the semantics of a Python dict built by a
comprehension or by repeated assignment, as an association list in
construction order. -/
def dlookup {β : Type} (l : List (String × β)) (key : String) : Option β :=
  alookup l.reverse key

/-! ## URL construction and identity (sync.py, lines 195-295) -/

/-- `TelefluxSyncer._build_rss_url` (sync.py, lines 195-231). -/
def build_rss_url (cfg : Config) (channel : TelegramChannel) : String :=
  let base_url := cfg.rsshub.base_url
  if channel.is_private then
    if cfg.sync.private_feed_mode = "skip" then ""
    else
      let channel_identifier := toString channel.id.natAbs
      let url := base_url ++ "/telegram/channel/" ++ channel_identifier
      if optStrTruthy channel.channel_hash then
        url ++ "?" ++ "secret=" ++ quotePlus (channel.channel_hash.getD "")
      else url
  else
    if optStrTruthy channel.username then
      base_url ++ "/telegram/channel/" ++ pyLower (channel.username.getD "")
    else ""

/-- `TelefluxSyncer._normalize_url_for_comparison` (sync.py, lines 233-246). -/
def normalize_url_for_comparison (url : String) : String := pyLower url

/-- `TelefluxSyncer._is_telegram_feed` (sync.py, lines 279-295). -/
def is_telegram_feed (cfg : Config) (feed_url : String) : Bool :=
  let base_url := rstripSlash cfg.rsshub.base_url
  strStartsWith feed_url base_url && strContainsSub feed_url "/telegram/channel/"

/-- `TelefluxSyncer._filter_channels` (sync.py, lines 297-332): drop private
channels when `private_feed_mode` is `"skip"`. -/
def filter_channels (cfg : Config) (channels : List TelegramChannel) :
    List TelegramChannel :=
  if cfg.sync.private_feed_mode ≠ "skip" then channels
  else channels.filter (fun ch => !ch.is_private)

/-! ## Conflict-resolving planner (sync.py, lines 334-402) -/

/-- The value stored in `channel_assignments` for one feed URL:
`(category_name, folder_name, channel)`. -/
abbrev Assignment := String × String × TelegramChannel

/-- A conflict record of `_plan_synchronization` (sync.py, lines 383-391). -/
structure Conflict where
  channel : TelegramChannel
  existing_folder : String
  existing_category : String
  new_folder : String
  new_category : String
deriving DecidableEq, Repr

/-- The planner's running state: the insertion-ordered assignment map and the
list of conflicts. -/
structure PlanState where
  assignments : List (String × Assignment)
  conflicts : List Conflict
deriving DecidableEq, Repr

/-- Processing of one channel inside `_plan_synchronization`'s inner loop
(sync.py, lines 361-400). -/
def planChannel (cfg : Config) (folder_name category_name : String)
    (st : PlanState) (channel : TelegramChannel) : PlanState :=
  let feed_url := build_rss_url cfg channel
  if feed_url = "" then st
  else
    match alookup st.assignments feed_url with
    | some (existing_category, existing_folder, _existing_channel) =>
      { st with conflicts := st.conflicts ++
          [{ channel := channel, existing_folder := existing_folder,
             existing_category := existing_category, new_folder := folder_name,
             new_category := category_name }] }
    | none =>
      { st with assignments := st.assignments ++
          [(feed_url, (category_name, folder_name, channel))] }

/-- Processing of one configured folder: iterate the channels tagged with this
folder, in input order (sync.py, lines 355-360). -/
def planFolder (cfg : Config) (all_channels : List TelegramChannel)
    (st : PlanState) (fc : String × String) : PlanState :=
  (all_channels.filter (fun ch => ch.folder_name == some fc.1)).foldl
    (planChannel cfg fc.1 fc.2) st

/-- `TelefluxSyncer._plan_synchronization` (sync.py, lines 334-402): folders
are processed in configuration order; the first assignment of a feed URL wins
and later producers of the same URL add conflict records. -/
def plan_synchronization (cfg : Config) (all_channels : List TelegramChannel) :
    PlanState :=
  cfg.sync.folders.foldl (planFolder cfg all_channels) { assignments := [], conflicts := [] }

/-! ## Shared lookups of the diff (sync.py, lines 1206-1216 and 1286-1300) -/

/-- The managed ("telegram") destination feeds. -/
def telegramFeeds (cfg : Config) (all_feeds : List MinifluxFeed) :
    List MinifluxFeed :=
  all_feeds.filter (fun f => is_telegram_feed cfg f.feed_url)

/-- The `existing_feed_by_url` dict: normalized URL to feed, later feeds
overwriting earlier ones. -/
def existing_feed_by_url (tfeeds : List MinifluxFeed) :
    List (String × MinifluxFeed) :=
  tfeeds.map (fun f => (normalize_url_for_comparison f.feed_url, f))

/-- The `category_name_to_id` dict, later categories overwriting earlier. -/
def category_name_to_id (cats : List MinifluxCategory) : List (String × Int) :=
  cats.map (fun c => (c.title, c.id))

/-- The `category_id_to_name`-style lookup `_get_category_name_by_id`
(sync.py, lines 404-420): first category with the id, else a fallback text. -/
def get_category_name_by_id (cats : List MinifluxCategory) (category_id : Int) :
    String :=
  match cats.find? (fun c => c.id == category_id) with
  | some category => category.title
  | none => "Category " ++ toString category_id

/-- The effective feed title for a channel (sync.py, lines 1246-1251,
1336-1340 and 1391-1394). -/
def new_feed_title (cfg : Config) (channel : TelegramChannel) : String :=
  if cfg.sync.keep_emojis_in_titles then channel.title
  else remove_emojis channel.title

/-! ## The cheap pre-pass (sync.py, lines 1218-1276) -/

/-- Whether the pre-pass flags one planned assignment as requiring work
(sync.py, lines 1222-1254). -/
def assignmentNeedsChange (cfg : Config) (catmap : List (String × Int))
    (feedmap : List (String × MinifluxFeed)) (should_update_titles : Bool)
    (e : String × Assignment) : Bool :=
  let (feed_url, category_name, _folder_name, channel) := e
  match dlookup catmap category_name with
  | none => true
  | some target_category_id =>
    match dlookup feedmap (normalize_url_for_comparison feed_url) with
    | none => true
    | some existing_feed =>
      !(existing_feed.category_id == target_category_id) ||
      (should_update_titles &&
       !(new_feed_title cfg channel == existing_feed.title))

/-- Definitional unfolding of `assignmentNeedsChange` at a destructured
entry. -/
lemma assignmentNeedsChange_def (cfg : Config) (catmap : List (String × Int))
    (feedmap : List (String × MinifluxFeed)) (su : Bool) (u cat fol : String)
    (ch : TelegramChannel) :
    assignmentNeedsChange cfg catmap feedmap su (u, cat, fol, ch) =
      match dlookup catmap cat with
      | none => true
      | some tid =>
        match dlookup feedmap (normalize_url_for_comparison u) with
        | none => true
        | some f =>
          !(f.category_id == tid) ||
          (su && !(new_feed_title cfg ch == f.title)) := rfl

/-- Whether the pre-pass flags one managed destination feed for removal
(sync.py, lines 1269-1276): the feed sits in a configured category and its
normalized URL is not planned. -/
def feedNeedsRemoval (planned_urls : List String)
    (configured_category_ids : List Int) (f : MinifluxFeed) : Bool :=
  configured_category_ids.contains f.category_id &&
  !(planned_urls.contains (normalize_url_for_comparison f.feed_url))

/-- The normalized URLs of the plan (sync.py, lines 1258-1261, 1446-1449). -/
def plannedUrls (assignments : List (String × Assignment)) : List String :=
  assignments.map (fun e => normalize_url_for_comparison e.1)

/-- The ids of the destination categories configured as sync targets
(sync.py, lines 1262-1267, 1451-1458). -/
def configuredCategoryIds (cfg : Config) (cats : List MinifluxCategory) :
    List Int :=
  (cats.filter (fun c =>
    (cfg.sync.folders.map (fun fc => fc.2)).contains c.title)).map
    (fun c => c.id)

/-- The `changes_needed` pre-pass of `sync_folders` (sync.py, lines
1218-1276): the flag is raised by some planned assignment, or — only when no
assignment raised it and absent-feed removal is enabled — by some managed
feed to remove. -/
def changes_needed (cfg : Config) (assignments : List (String × Assignment))
    (tfeeds : List MinifluxFeed) (cats : List MinifluxCategory)
    (should_update_titles : Bool) : Bool :=
  if !(assignments.any (assignmentNeedsChange cfg (category_name_to_id cats)
        (existing_feed_by_url tfeeds) should_update_titles)) &&
      cfg.sync.remove_absent_feeds then
    tfeeds.any (feedNeedsRemoval (plannedUrls assignments)
      (configuredCategoryIds cfg cats))
  else
    assignments.any (assignmentNeedsChange cfg (category_name_to_id cats)
      (existing_feed_by_url tfeeds) should_update_titles)

/-! ## Stage 2: applying changes (sync.py, lines 1283-1490)

The destination server's own choices (ids of created categories and feeds,
the title Miniflux auto-detects for a newly created feed) are inputs of the
model. -/

/-- Server-chosen values for the run. -/
structure MinifluxEnv where
  fresh_cat_id : Nat → Int
  fresh_feed_id : Nat → Int
  auto_title : String → String

/-- The mirrored destination state plus the accumulated action lists. -/
structure ExecState where
  cache : List (String × Int)
  server_cats : List MinifluxCategory
  server_feeds : List MinifluxFeed
  cat_count : Nat
  feed_count : Nat
  added : List SyncAction
  moved : List SyncAction
  updated : List SyncAction
  removed : List SyncAction

/-- Effect of `update_feed_category` on the destination feed list. -/
def update_feed_category_model (feeds : List MinifluxFeed) (fid cid : Int) :
    List MinifluxFeed :=
  feeds.map (fun f => if f.id == fid then { f with category_id := cid } else f)

/-- Effect of `update_feed` (title update) on the destination feed list. -/
def update_feed_title_model (feeds : List MinifluxFeed) (fid : Int)
    (t : String) : List MinifluxFeed :=
  feeds.map (fun f => if f.id == fid then { f with title := t } else f)

/-- Effect of `delete_feed` on the destination feed list. -/
def delete_feed_model (feeds : List MinifluxFeed) (fid : Int) :
    List MinifluxFeed :=
  feeds.filter (fun f => !(f.id == fid))

/-- Final title of a feed created by `MinifluxClient.create_feed`
(miniflux_client.py, lines 256-286): the server first auto-detects a title;
the client then sets the custom title if it is truthy and different. -/
def create_feed_result_title (env : MinifluxEnv) (feed_url title : String) :
    String :=
  let auto := env.auto_title feed_url
  if !(title == "") && !(title == auto) then title else auto

/-- Resolve-or-create the target category (sync.py, lines 1309-1326): look
the name up in the running cache; in dry-run mode a missing category resolves
to the dummy id `-1`, in live mode it is created with a server-chosen fresh
id and the cache is extended. -/
def resolveCategory (env : MinifluxEnv) (dry_run : Bool) (st : ExecState)
    (category_name : String) : Int × ExecState :=
  match dlookup st.cache category_name with
  | some i => (i, st)
  | none =>
    if dry_run then (-1, st)
    else
      let i := env.fresh_cat_id st.cat_count
      (i, { st with
              cache := st.cache ++ [(category_name, i)],
              server_cats := st.server_cats ++
                [{ id := i, title := category_name }],
              cat_count := st.cat_count + 1 })

/-- The `move_category` action record (sync.py, lines 1358-1366); the old
category name is resolved against the current server categories. -/
def mkMoveAction (cats : List MinifluxCategory) (feed_url category_name : String)
    (channel : TelegramChannel) (existing_feed : MinifluxFeed) : SyncAction :=
  { action := "move_category", channel_title := channel.title,
    feed_url := feed_url, category_name := category_name,
    old_category := some (get_category_name_by_id cats
      existing_feed.category_id) }

/-- The `update_title` action record (sync.py, lines 1380-1386). -/
def mkUpdateAction (feed_url category_name : String)
    (channel : TelegramChannel) (existing_feed : MinifluxFeed) : SyncAction :=
  { action := "update_title", channel_title := channel.title,
    feed_url := feed_url, category_name := category_name,
    old_title := some existing_feed.title }

/-- The `add` action record (sync.py, lines 1408-1413). -/
def mkAddAction (feed_url category_name : String)
    (channel : TelegramChannel) : SyncAction :=
  { action := "add", channel_title := channel.title, feed_url := feed_url,
    category_name := category_name }

/-- The `remove` action record (sync.py, lines 1477-1484). -/
def mkRemoveAction (cats : List MinifluxCategory) (f : MinifluxFeed) :
    SyncAction :=
  { action := "remove", channel_title := f.title, feed_url := f.feed_url,
    category_name := get_category_name_by_id cats f.category_id }

/-- Move and title-update handling for a feed that already exists (sync.py,
lines 1332-1387). -/
def applyExisting (cfg : Config) (dry_run should_update_titles : Bool)
    (st : ExecState) (feed_url category_name : String)
    (channel : TelegramChannel) (target_category_id : Int)
    (existing_feed : MinifluxFeed) : ExecState :=
  let needs_move := !(existing_feed.category_id == target_category_id)
  let t := new_feed_title cfg channel
  let needs_title_update := should_update_titles && !(t == existing_feed.title)
  let st :=
    if needs_move then
      { st with
          server_feeds :=
            if dry_run then st.server_feeds
            else update_feed_category_model st.server_feeds existing_feed.id
              target_category_id,
          moved := st.moved ++
            [mkMoveAction st.server_cats feed_url category_name channel
              existing_feed] }
    else st
  if needs_title_update then
    { st with
        server_feeds :=
          if dry_run then st.server_feeds
          else update_feed_title_model st.server_feeds existing_feed.id t,
        updated := st.updated ++
          [mkUpdateAction feed_url category_name channel existing_feed] }
  else st

/-- The feed record a live `create_feed` call adds (miniflux_client.py,
lines 256-286): a server-chosen fresh id, the requested URL, the target
category, and the custom title unless it is falsy. -/
def mkCreatedFeed (env : MinifluxEnv) (feed_count : Nat)
    (feed_url feed_title : String) (target_category_id : Int) : MinifluxFeed :=
  { id := env.fresh_feed_id feed_count,
    title := create_feed_result_title env feed_url feed_title,
    feed_url := feed_url, category_id := target_category_id }

/-- Creation of a feed that does not exist yet (sync.py, lines 1389-1414). -/
def applyCreate (cfg : Config) (env : MinifluxEnv) (dry_run : Bool)
    (st : ExecState) (feed_url category_name : String)
    (channel : TelegramChannel) (target_category_id : Int) : ExecState :=
  let feed_title := new_feed_title cfg channel
  let st :=
    if dry_run then st
    else
      { st with
          server_feeds := st.server_feeds ++
            [mkCreatedFeed env st.feed_count feed_url feed_title
              target_category_id],
          feed_count := st.feed_count + 1 }
  { st with added := st.added ++ [mkAddAction feed_url category_name channel] }

/-- One iteration of the Stage-2 loop over planned assignments (sync.py,
lines 1302-1442), with every adapter mutation succeeding. -/
def applyAssignment (cfg : Config) (env : MinifluxEnv)
    (dry_run should_update_titles : Bool)
    (feedmap : List (String × MinifluxFeed)) (st : ExecState)
    (e : String × Assignment) : ExecState :=
  let (feed_url, category_name, _folder_name, channel) := e
  let resolved := resolveCategory env dry_run st category_name
  match dlookup feedmap (normalize_url_for_comparison feed_url) with
  | some existing_feed =>
    applyExisting cfg dry_run should_update_titles resolved.2 feed_url
      category_name channel resolved.1 existing_feed
  | none =>
    applyCreate cfg env dry_run resolved.2 feed_url category_name channel
      resolved.1

/-- Definitional unfolding of `applyAssignment` at a destructured entry. -/
lemma applyAssignment_def (cfg : Config) (env : MinifluxEnv)
    (dry_run should_update_titles : Bool)
    (feedmap : List (String × MinifluxFeed)) (st : ExecState) (u cat fol : String)
    (ch : TelegramChannel) :
    applyAssignment cfg env dry_run should_update_titles feedmap st
        (u, cat, fol, ch) =
      match dlookup feedmap (normalize_url_for_comparison u) with
      | some f =>
        applyExisting cfg dry_run should_update_titles
          (resolveCategory env dry_run st cat).2 u cat ch
          (resolveCategory env dry_run st cat).1 f
      | none =>
        applyCreate cfg env dry_run (resolveCategory env dry_run st cat).2
          u cat ch (resolveCategory env dry_run st cat).1 := rfl

/-- One iteration of the removal loop (sync.py, lines 1460-1490), for a feed
already classified for removal. -/
def removeFeedStep (dry_run : Bool) (st : ExecState) (f : MinifluxFeed) :
    ExecState :=
  { st with
      server_feeds :=
        if dry_run then st.server_feeds
        else delete_feed_model st.server_feeds f.id,
      removed := st.removed ++ [mkRemoveAction st.server_cats f] }

/-- The removal pass (sync.py, lines 1444-1490): only when
`remove_absent_feeds` is set, walk the managed snapshot feeds that sit in a
configured category and whose normalized URL is not planned. -/
def removalPass (cfg : Config) (dry_run : Bool)
    (assignments : List (String × Assignment)) (tfeeds : List MinifluxFeed)
    (all_categories : List MinifluxCategory) (st : ExecState) : ExecState :=
  if cfg.sync.remove_absent_feeds then
    (tfeeds.filter (feedNeedsRemoval (plannedUrls assignments)
      (configuredCategoryIds cfg all_categories))).foldl
      (removeFeedStep dry_run) st
  else st

/-- The initial Stage-2 state over the snapshot. -/
def stage2Init (all_existing_feeds : List MinifluxFeed)
    (all_categories : List MinifluxCategory) : ExecState :=
  { cache := category_name_to_id all_categories,
    server_cats := all_categories, server_feeds := all_existing_feeds,
    cat_count := 0, feed_count := 0,
    added := [], moved := [], updated := [], removed := [] }

/-- The whole Stage-2 apply pass over fixed snapshot inputs. -/
def stage2Run (cfg : Config) (env : MinifluxEnv)
    (dry_run should_update_titles : Bool)
    (assignments : List (String × Assignment))
    (all_existing_feeds : List MinifluxFeed)
    (all_categories : List MinifluxCategory) : ExecState :=
  removalPass cfg dry_run assignments (telegramFeeds cfg all_existing_feeds)
    all_categories
    (assignments.foldl
      (applyAssignment cfg env dry_run should_update_titles
        (existing_feed_by_url (telegramFeeds cfg all_existing_feeds)))
      (stage2Init all_existing_feeds all_categories))

/-! ## The run (sync.py, lines 1068-1517) -/

/-- The outcome of a run: the returned `SyncResult` together with the
destination state the run leaves behind. -/
structure RunOutput where
  result : SyncResult
  server_feeds : List MinifluxFeed
  server_cats : List MinifluxCategory

/-- The successful-fetch part of `sync_folders`: filter channels, plan,
run the pre-pass, and either skip Stage 2 or apply it. -/
def runSyncCore (cfg : Config) (env : MinifluxEnv) (dry_run : Bool)
    (channels_raw : List TelegramChannel)
    (all_existing_feeds : List MinifluxFeed)
    (all_categories : List MinifluxCategory) : RunOutput :=
  if !(changes_needed cfg
        (plan_synchronization cfg (filter_channels cfg channels_raw)).assignments
        (telegramFeeds cfg all_existing_feeds) all_categories
        (!cfg.sync.disable_title_updates)) then
    { result := { added_feeds := [], removed_feeds := [], updated_titles := [],
                  moved_feeds := [], errors := [], dry_run := dry_run },
      server_feeds := all_existing_feeds, server_cats := all_categories }
  else
    { result :=
        { added_feeds := (stage2Run cfg env dry_run
            (!cfg.sync.disable_title_updates)
            (plan_synchronization cfg (filter_channels cfg channels_raw)).assignments
            all_existing_feeds all_categories).added,
          removed_feeds := (stage2Run cfg env dry_run
            (!cfg.sync.disable_title_updates)
            (plan_synchronization cfg (filter_channels cfg channels_raw)).assignments
            all_existing_feeds all_categories).removed,
          updated_titles := (stage2Run cfg env dry_run
            (!cfg.sync.disable_title_updates)
            (plan_synchronization cfg (filter_channels cfg channels_raw)).assignments
            all_existing_feeds all_categories).updated,
          moved_feeds := (stage2Run cfg env dry_run
            (!cfg.sync.disable_title_updates)
            (plan_synchronization cfg (filter_channels cfg channels_raw)).assignments
            all_existing_feeds all_categories).moved,
          errors := [], dry_run := dry_run },
      server_feeds := (stage2Run cfg env dry_run
        (!cfg.sync.disable_title_updates)
        (plan_synchronization cfg (filter_channels cfg channels_raw)).assignments
        all_existing_feeds all_categories).server_feeds,
      server_cats := (stage2Run cfg env dry_run
        (!cfg.sync.disable_title_updates)
        (plan_synchronization cfg (filter_channels cfg channels_raw)).assignments
        all_existing_feeds all_categories).server_cats }

/-- `TelefluxSyncer.sync_folders` (sync.py, lines 1068-1517) with the three
Stage-1 adapter fetches as explicit fallible inputs: a failing fetch
terminates the run early with a single recorded error and empty action
lists (sync.py, lines 1113-1133 and 1157-1175). -/
def sync_folders (cfg : Config) (env : MinifluxEnv) (dry_run : Bool)
    (tg_result : Except String (List TelegramChannel))
    (feeds_result : Except String (List MinifluxFeed))
    (cats_result : Except String (List MinifluxCategory)) : SyncResult :=
  match tg_result with
  | Except.error e =>
    { added_feeds := [], removed_feeds := [], updated_titles := [],
      moved_feeds := [],
      errors := ["Failed to get channels from Telegram: " ++ e],
      dry_run := dry_run }
  | Except.ok channels =>
    match feeds_result with
    | Except.error e =>
      { added_feeds := [], removed_feeds := [], updated_titles := [],
        moved_feeds := [],
        errors := ["Failed to get initial data from Miniflux: " ++ e],
        dry_run := dry_run }
    | Except.ok feeds =>
      match cats_result with
      | Except.error e =>
        { added_feeds := [], removed_feeds := [], updated_titles := [],
          moved_feeds := [],
          errors := ["Failed to get initial data from Miniflux: " ++ e],
          dry_run := dry_run }
      | Except.ok cats =>
        (runSyncCore cfg env dry_run channels feeds cats).result

/-! ## `MinifluxClient.create_feed`, already-exists recovery
(miniflux_client.py, lines 288-348) -/

/-- The 400 already-exists branch of `create_feed`: walk the feed list and
reconcile the first feed whose `feed_url` equals the requested URL exactly
(move it, then update its title); when no feed matches, raise `ValueError`. -/
def create_feed_already_exists (existing_feeds : List MinifluxFeed)
    (feed_url : String) (category_id : Int) (title : Option String) :
    Except String MinifluxFeed :=
  match existing_feeds.find? (fun feed => feed.feed_url == feed_url) with
  | some feed =>
    let feed :=
      if !(feed.category_id == category_id) then
        { feed with category_id := category_id }
      else feed
    let feed :=
      if optStrTruthy title && !(title.getD "" == feed.title) then
        { feed with title := title.getD "" }
      else feed
    Except.ok feed
  | none =>
    Except.error ("Feed already exists but could not be found: " ++ feed_url)

/-! ## Lemmas about `subRuns`, `pyStrip` and `remove_emojis` -/

lemma subRuns_nil (p : Char → Bool) (b : Bool) : subRuns p b [] = [] := rfl

lemma subRuns_cons_neg (p : Char → Bool) {c : Char} (cs : List Char)
    (h : p c = false) (b : Bool) :
    subRuns p b (c :: cs) = c :: subRuns p false cs := by
  simp [subRuns, h]

lemma subRuns_cons_pos_true (p : Char → Bool) {c : Char} (cs : List Char)
    (h : p c = true) : subRuns p true (c :: cs) = subRuns p true cs := by
  simp [subRuns, h]

lemma subRuns_cons_pos_false (p : Char → Bool) {c : Char} (cs : List Char)
    (h : p c = true) :
    subRuns p false (c :: cs) = spaceChar :: subRuns p true cs := by
  simp [subRuns, h]

/-- A list without characters of the class is fixed by `subRuns`. -/
lemma subRuns_id_of_not_mem (p : Char → Bool) :
    ∀ (l : List Char), (∀ c ∈ l, p c = false) → ∀ b, subRuns p b l = l
  | [], _, _ => rfl
  | c :: cs, h, b => by
    have hc : p c = false := h c (List.mem_cons_self c cs)
    rw [subRuns_cons_neg p cs hc b,
      subRuns_id_of_not_mem p cs (fun d hd => h d (List.mem_cons_of_mem c hd)) false]

/-- Every character of the output is the replacement space or an original
character outside the class. -/
lemma mem_subRuns (p : Char → Bool) :
    ∀ (l : List Char) (b : Bool) (c : Char), c ∈ subRuns p b l →
      c = spaceChar ∨ (c ∈ l ∧ p c = false)
  | [], b, c, h => by simp [subRuns] at h
  | d :: ds, b, c, h => by
    by_cases hd : p d = true
    · cases b with
      | true =>
        rw [subRuns_cons_pos_true p ds hd] at h
        rcases mem_subRuns p ds true c h with h1 | ⟨h2, h3⟩
        · exact Or.inl h1
        · exact Or.inr ⟨List.mem_cons_of_mem d h2, h3⟩
      | false =>
        rw [subRuns_cons_pos_false p ds hd] at h
        rcases List.mem_cons.mp h with h1 | h1
        · exact Or.inl h1
        · rcases mem_subRuns p ds true c h1 with h2 | ⟨h2, h3⟩
          · exact Or.inl h2
          · exact Or.inr ⟨List.mem_cons_of_mem d h2, h3⟩
    · have hd' : p d = false := by simpa using hd
      rw [subRuns_cons_neg p ds hd' b] at h
      rcases List.mem_cons.mp h with h1 | h1
      · subst h1; exact Or.inr ⟨List.mem_cons_self c ds, hd'⟩
      · rcases mem_subRuns p ds false c h1 with h2 | ⟨h2, h3⟩
        · exact Or.inl h2
        · exact Or.inr ⟨List.mem_cons_of_mem d h2, h3⟩

/-- In run-continuation mode the next emitted character is outside the
class. -/
lemma head_subRuns_true (p : Char → Bool) :
    ∀ (l : List Char) (c : Char), (subRuns p true l).head? = some c →
      p c = false
  | [], c, h => by simp [subRuns] at h
  | d :: ds, c, h => by
    by_cases hd : p d = true
    · rw [subRuns_cons_pos_true p ds hd] at h
      exact head_subRuns_true p ds c h
    · have hd' : p d = false := by simpa using hd
      rw [subRuns_cons_neg p ds hd' true] at h
      simp at h
      subst h; exact hd'

/-- No two adjacent characters of the output both belong to the class. -/
lemma chain'_subRuns (p : Char → Bool) :
    ∀ (l : List Char) (b : Bool),
      List.Chain' (fun a c => ¬(p a = true ∧ p c = true)) (subRuns p b l)
  | [], _ => by simp [subRuns]
  | d :: ds, b => by
    by_cases hd : p d = true
    · cases b with
      | true =>
        rw [subRuns_cons_pos_true p ds hd]
        exact chain'_subRuns p ds true
      | false =>
        rw [subRuns_cons_pos_false p ds hd]
        refine List.chain'_cons'.mpr ⟨?_, chain'_subRuns p ds true⟩
        intro y hy
        have : p y = false := head_subRuns_true p ds y hy
        simp [this]
    · have hd' : p d = false := by simpa using hd
      rw [subRuns_cons_neg p ds hd' b]
      refine List.chain'_cons'.mpr ⟨?_, chain'_subRuns p ds false⟩
      intro y _
      simp [hd']

/-- `subRuns` is the identity on a list whose class characters are all the
replacement space and never adjacent. -/
lemma subRuns_id_of_sep (p : Char → Bool) :
    ∀ (l : List Char), (∀ c ∈ l, p c = true → c = spaceChar) →
      List.Chain' (fun a c => ¬(p a = true ∧ p c = true)) l →
      subRuns p false l = l
  | [], _, _ => rfl
  | c :: cs, hsp, hch => by
    by_cases hc : p c = true
    · have hcsp : c = spaceChar := hsp c (List.mem_cons_self c cs) hc
      rw [subRuns_cons_pos_false p cs hc, ← hcsp]
      congr 1
      cases cs with
      | nil => rfl
      | cons d ds =>
        have hd : p d = false := by
          have := (List.chain'_cons'.mp hch).1 d rfl
          by_contra hcon
          simp at hcon
          exact this ⟨hc, hcon⟩
        rw [subRuns_cons_neg p ds hd true, ← subRuns_cons_neg p ds hd false]
        exact subRuns_id_of_sep p (d :: ds)
          (fun e he hp => hsp e (List.mem_cons_of_mem c he) hp)
          (List.chain'_cons'.mp hch).2
    · have hc' : p c = false := by simpa using hc
      rw [subRuns_cons_neg p cs hc' false]
      congr 1
      exact subRuns_id_of_sep p cs
        (fun e he hp => hsp e (List.mem_cons_of_mem c he) hp)
        (List.chain'_cons'.mp hch).2

lemma dropWhile_head_not (p : Char → Bool) :
    ∀ (l : List Char) (c : Char), (l.dropWhile p).head? = some c →
      p c = false
  | [], c, h => by simp [List.dropWhile] at h
  | d :: ds, c, h => by
    by_cases hd : p d = true
    · rw [List.dropWhile_cons_of_pos hd] at h
      exact dropWhile_head_not p ds c h
    · have hd' : p d = false := by simpa using hd
      rw [List.dropWhile_cons_of_neg (by simp [hd'])] at h
      simp at h
      subst h; exact hd'

lemma mem_dropWhile (p : Char → Bool) :
    ∀ (l : List Char) (c : Char), c ∈ l.dropWhile p → c ∈ l
  | [], c, h => by simp [List.dropWhile] at h
  | d :: ds, c, h => by
    by_cases hd : p d = true
    · rw [List.dropWhile_cons_of_pos hd] at h
      exact List.mem_cons_of_mem d (mem_dropWhile p ds c h)
    · rw [List.dropWhile_cons_of_neg (by simpa using hd)] at h
      exact h

lemma chain'_dropWhile {R : Char → Char → Prop} (p : Char → Bool) :
    ∀ (l : List Char), List.Chain' R l → List.Chain' R (l.dropWhile p)
  | [], h => by simp [List.dropWhile]
  | d :: ds, h => by
    by_cases hd : p d = true
    · rw [List.dropWhile_cons_of_pos hd]
      exact chain'_dropWhile p ds (List.chain'_cons'.mp h).2
    · rwa [List.dropWhile_cons_of_neg (by simpa using hd)]

lemma mem_pyStrip (l : List Char) (c : Char) (h : c ∈ pyStrip l) : c ∈ l := by
  unfold pyStrip at h
  rw [List.mem_reverse] at h
  have h2 := mem_dropWhile isPySpace _ c h
  rw [List.mem_reverse] at h2
  exact mem_dropWhile isPySpace l c h2

lemma chain'_pyStrip {R : Char → Char → Prop} (l : List Char)
    (h : List.Chain' R l) : List.Chain' R (pyStrip l) := by
  unfold pyStrip
  rw [List.chain'_reverse]
  refine chain'_dropWhile isPySpace _ ?_
  rw [List.chain'_reverse]
  refine List.Chain'.imp ?_ (chain'_dropWhile isPySpace l h)
  intro a b hab
  exact hab

/-- When `dropWhile` leaves something, the last element is unchanged. -/
lemma getLast?_dropWhile (p : Char → Bool) :
    ∀ (m : List Char) (c : Char), (m.dropWhile p).getLast? = some c →
      m.getLast? = some c
  | [], c, h => by simp [List.dropWhile] at h
  | d :: ds, c, h => by
    by_cases hd : p d = true
    · rw [List.dropWhile_cons_of_pos hd] at h
      have h2 := getLast?_dropWhile p ds c h
      have hne : ds ≠ [] := by
        intro hnil
        rw [hnil] at h2
        simp at h2
      cases ds with
      | nil => exact absurd rfl hne
      | cons e es => rw [List.getLast?_cons_cons]; exact h2
    · rwa [List.dropWhile_cons_of_neg (by simpa using hd)] at h

lemma head_pyStrip (l : List Char) (c : Char)
    (h : (pyStrip l).head? = some c) : isPySpace c = false := by
  unfold pyStrip at h
  rw [List.head?_reverse] at h
  have h2 := getLast?_dropWhile isPySpace (l.dropWhile isPySpace).reverse c h
  rw [List.getLast?_reverse] at h2
  exact dropWhile_head_not isPySpace l c h2

lemma getLast_pyStrip (l : List Char) (c : Char)
    (h : (pyStrip l).getLast? = some c) : isPySpace c = false := by
  unfold pyStrip at h
  rw [List.getLast?_reverse] at h
  exact dropWhile_head_not isPySpace _ c h

lemma dropWhile_id (p : Char → Bool) (l : List Char)
    (h : ∀ c, l.head? = some c → p c = false) : l.dropWhile p = l := by
  cases l with
  | nil => rfl
  | cons c cs => rw [List.dropWhile_cons_of_neg (by simp [h c rfl])]

lemma pyStrip_id (l : List Char)
    (hh : ∀ c, l.head? = some c → isPySpace c = false)
    (hl : ∀ c, l.getLast? = some c → isPySpace c = false) :
    pyStrip l = l := by
  unfold pyStrip
  rw [dropWhile_id isPySpace l hh]
  rw [dropWhile_id isPySpace l.reverse
    (fun c hc => hl c (by rwa [List.head?_reverse] at hc))]
  exact List.reverse_reverse l

/-- The shape of `remove_emojis` output: no emoji and no invisible formatting
characters, every whitespace character is a plain space, no two adjacent
whitespace characters, and no leading or trailing whitespace. -/
def CleanedChars (l : List Char) : Prop :=
  (∀ c ∈ l, isEmojiChar c = false ∧ isInvisibleChar c = false ∧
    (isPySpace c = true → c = spaceChar)) ∧
  List.Chain' (fun a c => ¬(isPySpace a = true ∧ isPySpace c = true)) l ∧
  (∀ c, l.head? = some c → isPySpace c = false) ∧
  (∀ c, l.getLast? = some c → isPySpace c = false)

lemma remove_emojis_cleaned (x : String) (hx : ¬ x = "") :
    CleanedChars (remove_emojis x).data := by
  unfold remove_emojis
  rw [if_neg hx]
  show CleanedChars (pyStrip (subRuns isPySpace false
    (subRuns isInvisibleChar false (subRuns isEmojiChar false x.data))))
  refine ⟨?_, ?_, ?_, ?_⟩
  · intro c hc
    have hc3 := mem_pyStrip _ c hc
    rcases mem_subRuns isPySpace _ false c hc3 with h1 | ⟨h2, h3⟩
    · subst h1; exact ⟨by decide, by decide, fun _ => rfl⟩
    · rcases mem_subRuns isInvisibleChar _ false c h2 with h4 | ⟨h5, h6⟩
      · subst h4; exact ⟨by decide, by decide, fun _ => rfl⟩
      · rcases mem_subRuns isEmojiChar _ false c h5 with h7 | ⟨_, h9⟩
        · subst h7; exact ⟨by decide, h6, fun _ => rfl⟩
        · exact ⟨h9, h6, fun hsp => absurd hsp (by simp [h3])⟩
  · exact chain'_pyStrip _ (chain'_subRuns isPySpace _ false)
  · exact fun c => head_pyStrip _ c
  · exact fun c => getLast_pyStrip _ c

lemma remove_emojis_fixed (y : String) (h : CleanedChars y.data) :
    remove_emojis y = y := by
  by_cases hy : y = ""
  · rw [hy]; rfl
  · obtain ⟨hmem, hch, hh, hl⟩ := h
    unfold remove_emojis
    rw [if_neg hy]
    show String.mk (pyStrip (subRuns isPySpace false
      (subRuns isInvisibleChar false (subRuns isEmojiChar false y.data)))) = y
    rw [subRuns_id_of_not_mem isEmojiChar y.data
      (fun c hc => (hmem c hc).1) false]
    rw [subRuns_id_of_not_mem isInvisibleChar y.data
      (fun c hc => (hmem c hc).2.1) false]
    rw [subRuns_id_of_sep isPySpace y.data
      (fun c hc hp => (hmem c hc).2.2 hp) hch]
    rw [pyStrip_id y.data hh hl]

/-- C9.  Title sanitizer idempotence and totality: for every string x,
`remove_emojis (remove_emojis x) = remove_emojis x`, and
`remove_emojis "" = ""`. -/
theorem remove_emojis_idempotent_total :
    (∀ x : String, remove_emojis (remove_emojis x) = remove_emojis x) ∧
    remove_emojis "" = "" := by
  constructor
  · intro x
    by_cases hx : x = ""
    · rw [hx]; rfl
    · exact remove_emojis_fixed (remove_emojis x) (remove_emojis_cleaned x hx)
  · rfl

/-! ## C7: the `_build_rss_url` specification -/

/-- Concrete configuration in secret mode, for counterexamples and
witnesses. -/
def cfgC7 : Config :=
  { rsshub := { base_url := "http://rsshub.example" },
    sync := { folders := [("Tech", "Tech")], private_feed_mode := "secret" } }

/-- A private channel whose access secret contains a space. -/
def chC7 : TelegramChannel :=
  { id := -987654, username := none, title := "P", is_private := true,
    folder_name := some "Tech", channel_hash := some "a b" }

/-- C7, counterexample: for a private channel in secret mode whose access
secret contains a space, `_build_rss_url` does not return
`{baseUrl}/telegram/channel/{abs(id)}?secret={accessSecret}` with the secret
verbatim; the secret is urlencoded, so the space becomes `+`. -/
theorem build_rss_url_secret_not_verbatim :
    chC7.is_private = true ∧ cfgC7.sync.private_feed_mode = "secret" ∧
    chC7.channel_hash = some "a b" ∧
    build_rss_url cfgC7 chC7 ≠
      "http://rsshub.example/telegram/channel/987654?secret=a b" ∧
    build_rss_url cfgC7 chC7 =
      "http://rsshub.example/telegram/channel/987654?secret=a+b" := by
  refine ⟨rfl, rfl, rfl, ?_, ?_⟩ <;> decide

/-- The claim's case analysis of `_build_rss_url`, amended only in that the
access secret appears urlencoded (`quote_plus`, as `urlencode` does) in the
query string.  The branch for a private channel in a mode other than
`"secret"` or `"skip"` is outside the claim (configuration validation rejects
such modes). -/
def build_rss_url_spec (cfg : Config) (channel : TelegramChannel) : String :=
  let base := cfg.rsshub.base_url
  if channel.is_private then
    if cfg.sync.private_feed_mode = "skip" then ""
    else if cfg.sync.private_feed_mode = "secret" then
      if optStrTruthy channel.channel_hash then
        base ++ "/telegram/channel/" ++ toString channel.id.natAbs ++
          "?secret=" ++ quotePlus (channel.channel_hash.getD "")
      else base ++ "/telegram/channel/" ++ toString channel.id.natAbs
    else ""
  else
    if optStrTruthy channel.username then
      base ++ "/telegram/channel/" ++ pyLower (channel.username.getD "")
    else ""

/-- C7, amended: for every channel and every valid private-feed mode,
`_build_rss_url` returns empty for a private channel in skip mode; for a
private channel in secret mode it returns
`{baseUrl}/telegram/channel/{abs(id)}?secret={urlencoded accessSecret}` when
the secret is present (truthy) and the same URL without the query string
otherwise; it returns empty for a public channel without a (truthy) handle;
and otherwise `{baseUrl}/telegram/channel/{lowercase(handle)}`.  The function
is pure and deterministic in the channel and the configuration. -/
theorem build_rss_url_cases (cfg : Config) (channel : TelegramChannel)
    (hmode : cfg.sync.private_feed_mode = "secret" ∨
      cfg.sync.private_feed_mode = "skip") :
    build_rss_url cfg channel = build_rss_url_spec cfg channel := by
  have hq : ∀ s : String, s ++ "?" ++ "secret=" = s ++ "?secret=" := by
    intro s
    rw [String.append_assoc]
    congr 1
  unfold build_rss_url build_rss_url_spec
  rcases hmode with h | h <;> rw [h] <;> simp [hq]

/-- Witness for C7's amended theorem at a concrete secret-mode input. -/
theorem build_rss_url_cases_witness :
    (cfgC7.sync.private_feed_mode = "secret" ∨
      cfgC7.sync.private_feed_mode = "skip") ∧
    build_rss_url cfgC7 chC7 = build_rss_url_spec cfgC7 chC7 :=
  ⟨Or.inl rfl, build_rss_url_cases cfgC7 chC7 (Or.inl rfl)⟩

/-! ## C8: Stage-1 total-failure atomicity -/

/-- C8: if fetching the source channels or fetching the destination
feeds/categories fails, `sync_folders` terminates the run early and returns a
`SyncResult` whose four action lists are empty and whose errors list contains
exactly one entry. -/
theorem stage1_failure_atomic (cfg : Config) (env : MinifluxEnv)
    (dry_run : Bool) (tg_result : Except String (List TelegramChannel))
    (feeds_result : Except String (List MinifluxFeed))
    (cats_result : Except String (List MinifluxCategory))
    (h : (∃ e, tg_result = Except.error e) ∨
         (∃ e, feeds_result = Except.error e) ∨
         (∃ e, cats_result = Except.error e)) :
    (sync_folders cfg env dry_run tg_result feeds_result
        cats_result).added_feeds = [] ∧
    (sync_folders cfg env dry_run tg_result feeds_result
        cats_result).removed_feeds = [] ∧
    (sync_folders cfg env dry_run tg_result feeds_result
        cats_result).updated_titles = [] ∧
    (sync_folders cfg env dry_run tg_result feeds_result
        cats_result).moved_feeds = [] ∧
    (sync_folders cfg env dry_run tg_result feeds_result
        cats_result).errors.length = 1 := by
  cases tg_result with
  | error e => simp [sync_folders]
  | ok channels =>
    cases feeds_result with
    | error e => simp [sync_folders]
    | ok feeds =>
      cases cats_result with
      | error e => simp [sync_folders]
      | ok cats => rcases h with ⟨e, he⟩ | ⟨e, he⟩ | ⟨e, he⟩ <;> simp at he

/-- A minimal configuration for witnesses. -/
def sampleConfig : Config :=
  { rsshub := { base_url := "http://x" }, sync := { folders := [] } }

/-- A minimal server environment for witnesses. -/
def sampleEnv : MinifluxEnv :=
  { fresh_cat_id := fun k => 1000 + Int.ofNat k,
    fresh_feed_id := fun k => 2000 + Int.ofNat k,
    auto_title := fun _ => "AUTO" }

/-- Witness for C8 at a concrete failing Telegram fetch. -/
theorem stage1_failure_atomic_witness :
    ((∃ e, (Except.error "boom" : Except String (List TelegramChannel)) =
        Except.error e) ∨
     (∃ e, (Except.ok [] : Except String (List MinifluxFeed)) =
        Except.error e) ∨
     (∃ e, (Except.ok [] : Except String (List MinifluxCategory)) =
        Except.error e)) ∧
    (sync_folders sampleConfig sampleEnv false (Except.error "boom")
        (Except.ok []) (Except.ok [])).added_feeds = [] ∧
    (sync_folders sampleConfig sampleEnv false (Except.error "boom")
        (Except.ok []) (Except.ok [])).removed_feeds = [] ∧
    (sync_folders sampleConfig sampleEnv false (Except.error "boom")
        (Except.ok []) (Except.ok [])).updated_titles = [] ∧
    (sync_folders sampleConfig sampleEnv false (Except.error "boom")
        (Except.ok []) (Except.ok [])).moved_feeds = [] ∧
    (sync_folders sampleConfig sampleEnv false (Except.error "boom")
        (Except.ok []) (Except.ok [])).errors.length = 1 :=
  ⟨Or.inl ⟨"boom", rfl⟩,
   stage1_failure_atomic sampleConfig sampleEnv false (Except.error "boom")
     (Except.ok []) (Except.ok []) (Or.inl ⟨"boom", rfl⟩)⟩

/-! ## C10: exact-match lookup in the already-exists recovery -/

/-- C10: the already-exists recovery of `create_feed` locates the existing
feed by exact, case-sensitive URL equality; when the destination holds the
feed only under a URL differing in letter case (equal after
`_normalize_url_for_comparison`), the lookup finds nothing and the branch
raises `ValueError` instead of reconciling. -/
theorem create_feed_already_exists_case_sensitive
    (feeds : List MinifluxFeed) (feed_url : String) (category_id : Int)
    (title : Option String)
    (hexact : ∀ f ∈ feeds, f.feed_url ≠ feed_url)
    (_hcase : ∃ f ∈ feeds, normalize_url_for_comparison f.feed_url =
      normalize_url_for_comparison feed_url) :
    create_feed_already_exists feeds feed_url category_id title =
      Except.error ("Feed already exists but could not be found: " ++
        feed_url) := by
  unfold create_feed_already_exists
  have hnone : feeds.find? (fun feed => feed.feed_url == feed_url) = none :=
    List.find?_eq_none.mpr (fun f hf => by simp [hexact f hf])
  rw [hnone]

/-- A destination feed stored under a mixed-case URL. -/
def feedC10 : MinifluxFeed :=
  { id := 1, title := "T",
    feed_url := "http://x/telegram/channel/ABC", category_id := 2 }

/-- Witness for C10 at a concrete case-variant URL. -/
theorem create_feed_already_exists_case_sensitive_witness :
    (∀ f ∈ [feedC10], f.feed_url ≠ "http://x/telegram/channel/abc") ∧
    (∃ f ∈ [feedC10], normalize_url_for_comparison f.feed_url =
      normalize_url_for_comparison "http://x/telegram/channel/abc") ∧
    create_feed_already_exists [feedC10] "http://x/telegram/channel/abc" 3
        (some "N") =
      Except.error ("Feed already exists but could not be found: " ++
        "http://x/telegram/channel/abc") :=
  ⟨by decide, by decide,
   create_feed_already_exists_case_sensitive [feedC10]
     "http://x/telegram/channel/abc" 3 (some "N") (by decide) (by decide)⟩

/-! ## C2: planner conflict determinism -/

lemma alookup_append_some {β : Type} :
    ∀ (l : List (String × β)) (l' : List (String × β)) (k : String)
      (v : β), alookup l k = some v → alookup (l ++ l') k = some v
  | [], _, _, _, h => by simp [alookup] at h
  | (k', w) :: rest, l', k, v, h => by
    by_cases hk : k' = k
    · simp [alookup, hk] at h ⊢
      exact h
    · simp [alookup, hk] at h ⊢
      exact alookup_append_some rest l' k v h

lemma alookup_append_none {β : Type} :
    ∀ (l : List (String × β)) (l' : List (String × β)) (k : String),
      alookup l k = none → alookup (l ++ l') k = alookup l' k
  | [], _, _, _ => rfl
  | (k', w) :: rest, l', k, h => by
    by_cases hk : k' = k
    · simp [alookup, hk] at h
    · simp [alookup, hk] at h ⊢
      exact alookup_append_none rest l' k h

lemma alookup_append_single_ne {β : Type} (l : List (String × β))
    (k' k : String) (v : β) (h : k' ≠ k) :
    alookup (l ++ [(k', v)]) k = alookup l k := by
  cases hl : alookup l k with
  | some w => exact alookup_append_some l [(k', v)] k w hl
  | none =>
    rw [alookup_append_none l [(k', v)] k hl]
    simp [alookup, h]

/-- The conflict records concerning one feed URL. -/
def conflictsFor (cfg : Config) (u : String) (cs : List Conflict) :
    List Conflict :=
  cs.filter (fun c => build_rss_url cfg c.channel == u)

/-- The channels of one folder that produce a given feed URL: the
prioritized inputs of the planner for that URL. -/
def producers (cfg : Config) (chs : List TelegramChannel) (folder u : String) :
    List TelegramChannel :=
  (chs.filter (fun ch => ch.folder_name == some folder)).filter
    (fun ch => build_rss_url cfg ch == u)

lemma planChannel_ne (cfg : Config) (f c : String) (st : PlanState)
    (ch : TelegramChannel) (u : String) (h : build_rss_url cfg ch ≠ u) :
    alookup (planChannel cfg f c st ch).assignments u =
      alookup st.assignments u ∧
    conflictsFor cfg u (planChannel cfg f c st ch).conflicts =
      conflictsFor cfg u st.conflicts := by
  unfold planChannel
  by_cases he : build_rss_url cfg ch = ""
  · rw [if_pos he]
    exact ⟨rfl, rfl⟩
  · rw [if_neg he]
    cases hl : alookup st.assignments (build_rss_url cfg ch) with
    | some v =>
      obtain ⟨ec, ef, och⟩ := v
      refine ⟨rfl, ?_⟩
      unfold conflictsFor
      rw [List.filter_append]
      simp [h]
    | none =>
      refine ⟨?_, rfl⟩
      exact alookup_append_single_ne st.assignments (build_rss_url cfg ch) u
        (c, f, ch) h

lemma planChannel_eq_none (cfg : Config) (f c : String) (st : PlanState)
    (ch : TelegramChannel) (u : String) (hu : build_rss_url cfg ch = u)
    (hne : u ≠ "") (hnone : alookup st.assignments u = none) :
    alookup (planChannel cfg f c st ch).assignments u = some (c, f, ch) ∧
    conflictsFor cfg u (planChannel cfg f c st ch).conflicts =
      conflictsFor cfg u st.conflicts := by
  unfold planChannel
  rw [hu, if_neg hne, hnone]
  refine ⟨?_, rfl⟩
  rw [alookup_append_none st.assignments [(u, (c, f, ch))] u hnone]
  simp [alookup]

lemma planChannel_eq_some (cfg : Config) (f c : String) (st : PlanState)
    (ch : TelegramChannel) (u ec ef : String) (och : TelegramChannel)
    (hu : build_rss_url cfg ch = u) (hne : u ≠ "")
    (hsome : alookup st.assignments u = some (ec, ef, och)) :
    alookup (planChannel cfg f c st ch).assignments u = some (ec, ef, och) ∧
    conflictsFor cfg u (planChannel cfg f c st ch).conflicts =
      conflictsFor cfg u st.conflicts ++
        [{ channel := ch, existing_folder := ef, existing_category := ec,
           new_folder := f, new_category := c }] := by
  unfold planChannel
  rw [hu, if_neg hne, hsome]
  refine ⟨hsome, ?_⟩
  unfold conflictsFor
  rw [List.filter_append]
  simp [hu]

/-- Channels that do not produce the URL leave its planner entry and its
conflicts unchanged. -/
lemma planFold_no_u (cfg : Config) (f c u : String) :
    ∀ (cs : List TelegramChannel) (st : PlanState),
      (∀ ch ∈ cs, build_rss_url cfg ch ≠ u) →
      alookup ((cs.foldl (planChannel cfg f c) st)).assignments u =
        alookup st.assignments u ∧
      conflictsFor cfg u ((cs.foldl (planChannel cfg f c) st)).conflicts =
        conflictsFor cfg u st.conflicts
  | [], st, _ => ⟨rfl, rfl⟩
  | ch :: cs, st, h => by
    have hch := planChannel_ne cfg f c st ch u (h ch (List.mem_cons_self ch cs))
    have hrest := planFold_no_u cfg f c u cs (planChannel cfg f c st ch)
      (fun e he => h e (List.mem_cons_of_mem ch he))
    rw [List.foldl_cons]
    exact ⟨hch.1 ▸ hrest.1, hch.2 ▸ hrest.2⟩

/-- An established planner assignment is never overwritten. -/
lemma planFold_mono_some (cfg : Config) (f c u : String) (v : Assignment) :
    ∀ (cs : List TelegramChannel) (st : PlanState),
      alookup st.assignments u = some v →
      alookup ((cs.foldl (planChannel cfg f c) st)).assignments u = some v
  | [], _, h => h
  | ch :: cs, st, h => by
    rw [List.foldl_cons]
    refine planFold_mono_some cfg f c u v cs (planChannel cfg f c st ch) ?_
    by_cases hu : build_rss_url cfg ch = u
    · by_cases hne : u = ""
      · unfold planChannel
        rw [hu, if_pos hne]
        exact h
      · obtain ⟨ec, ef, och⟩ := v
        exact (planChannel_eq_some cfg f c st ch u ec ef och hu hne h).1
    · exact (planChannel_ne cfg f c st ch u hu).1 ▸ h

/-- Splitting a list whose filter is a singleton. -/
lemma filter_eq_singleton {α : Type} (q : α → Bool) :
    ∀ (l : List α) (a : α), l.filter q = [a] →
      ∃ l1 l2, l = l1 ++ a :: l2 ∧ (∀ x ∈ l1, q x = false) ∧ q a = true ∧
        (∀ x ∈ l2, q x = false)
  | [], a, h => by simp at h
  | c :: cs, a, h => by
    by_cases hc : q c = true
    · rw [List.filter_cons_of_pos hc] at h
      have hca : c = a := by
        have := List.head_eq_of_cons_eq h
        exact this
      have hcs : cs.filter q = [] := List.tail_eq_of_cons_eq h
      refine ⟨[], cs, by rw [hca]; rfl, by simp, hca ▸ hc, ?_⟩
      intro x hx
      by_contra hb
      have hxq : q x = true := by simpa using hb
      have : x ∈ cs.filter q := List.mem_filter.mpr ⟨hx, hxq⟩
      rw [hcs] at this
      simp at this
    · have hc' : q c = false := by simpa using hc
      rw [List.filter_cons_of_neg (by simp [hc'])] at h
      obtain ⟨l1, l2, hsplit, h1, ha, h2⟩ := filter_eq_singleton q cs a h
      exact ⟨c :: l1, l2, by rw [hsplit]; rfl, by
        intro x hx
        rcases List.mem_cons.mp hx with hx | hx
        · exact hx ▸ hc'
        · exact h1 x hx, ha, h2⟩

lemma bool_eq_false_of_ne {a b : String} (h : (a == b) = false) : a ≠ b := by
  intro hab
  rw [hab] at h
  simp at h

/-- A folder none of whose channels produce the URL leaves its entry and its
conflicts unchanged. -/
lemma planFolder_no_producer (cfg : Config) (chs : List TelegramChannel)
    (u : String) (fc : String × String) (st : PlanState)
    (h : producers cfg chs fc.1 u = []) :
    alookup (planFolder cfg chs st fc).assignments u =
      alookup st.assignments u ∧
    conflictsFor cfg u (planFolder cfg chs st fc).conflicts =
      conflictsFor cfg u st.conflicts := by
  unfold planFolder
  refine planFold_no_u cfg fc.1 fc.2 u _ st ?_
  intro ch hch
  have hf : (build_rss_url cfg ch == u) = false := by
    by_contra hb
    have hq : (build_rss_url cfg ch == u) = true := by simpa using hb
    have : ch ∈ producers cfg chs fc.1 u :=
      List.mem_filter.mpr ⟨hch, hq⟩
    rw [h] at this
    simp at this
  exact bool_eq_false_of_ne hf

/-- A folder with exactly one producer of an unassigned URL installs that
producer's assignment and creates no conflict for the URL. -/
lemma planFolder_first (cfg : Config) (chs : List TelegramChannel)
    (u : String) (fc : String × String) (st : PlanState)
    (ch : TelegramChannel) (hne : u ≠ "")
    (hprod : producers cfg chs fc.1 u = [ch])
    (hnone : alookup st.assignments u = none) :
    alookup (planFolder cfg chs st fc).assignments u =
      some (fc.2, fc.1, ch) ∧
    conflictsFor cfg u (planFolder cfg chs st fc).conflicts =
      conflictsFor cfg u st.conflicts := by
  obtain ⟨l1, l2, hsplit, h1, ha, h2⟩ :=
    filter_eq_singleton (fun ch => build_rss_url cfg ch == u) _ ch hprod
  have hau : build_rss_url cfg ch = u := by simpa using ha
  unfold planFolder
  rw [hsplit, List.foldl_append, List.foldl_cons]
  have hxs := planFold_no_u cfg fc.1 fc.2 u l1 st
    (fun e he => bool_eq_false_of_ne (h1 e he))
  have hch := planChannel_eq_none cfg fc.1 fc.2
    (l1.foldl (planChannel cfg fc.1 fc.2) st) ch u hau hne
    (hxs.1.trans hnone)
  have hys := planFold_no_u cfg fc.1 fc.2 u l2
    (planChannel cfg fc.1 fc.2 (l1.foldl (planChannel cfg fc.1 fc.2) st) ch)
    (fun e he => bool_eq_false_of_ne (h2 e he))
  exact ⟨hys.1.trans hch.1, (hys.2.trans hch.2).trans hxs.2⟩

/-- A folder with exactly one producer of an already-assigned URL keeps the
assignment and adds exactly one conflict naming the stored folder and
category. -/
lemma planFolder_conflict (cfg : Config) (chs : List TelegramChannel)
    (u ec ef : String) (och : TelegramChannel) (fc : String × String)
    (st : PlanState) (ch : TelegramChannel) (hne : u ≠ "")
    (hprod : producers cfg chs fc.1 u = [ch])
    (hsome : alookup st.assignments u = some (ec, ef, och)) :
    alookup (planFolder cfg chs st fc).assignments u = some (ec, ef, och) ∧
    conflictsFor cfg u (planFolder cfg chs st fc).conflicts =
      conflictsFor cfg u st.conflicts ++
        [{ channel := ch, existing_folder := ef, existing_category := ec,
           new_folder := fc.1, new_category := fc.2 }] := by
  obtain ⟨l1, l2, hsplit, h1, ha, h2⟩ :=
    filter_eq_singleton (fun ch => build_rss_url cfg ch == u) _ ch hprod
  have hau : build_rss_url cfg ch = u := by simpa using ha
  unfold planFolder
  rw [hsplit, List.foldl_append, List.foldl_cons]
  have hxs := planFold_no_u cfg fc.1 fc.2 u l1 st
    (fun e he => bool_eq_false_of_ne (h1 e he))
  have hch := planChannel_eq_some cfg fc.1 fc.2
    (l1.foldl (planChannel cfg fc.1 fc.2) st) ch u ec ef och hau hne
    (hxs.1.trans hsome)
  have hys := planFold_no_u cfg fc.1 fc.2 u l2
    (planChannel cfg fc.1 fc.2 (l1.foldl (planChannel cfg fc.1 fc.2) st) ch)
    (fun e he => bool_eq_false_of_ne (h2 e he))
  refine ⟨hys.1.trans hch.1, ?_⟩
  rw [hys.2, hch.2, hxs.2]

/-- Folders without producers of the URL leave its entry and conflicts
unchanged. -/
lemma planFolders_no_producer (cfg : Config) (chs : List TelegramChannel)
    (u : String) :
    ∀ (fs : List (String × String)) (st : PlanState),
      (∀ fc ∈ fs, producers cfg chs fc.1 u = []) →
      alookup ((fs.foldl (planFolder cfg chs) st)).assignments u =
        alookup st.assignments u ∧
      conflictsFor cfg u ((fs.foldl (planFolder cfg chs) st)).conflicts =
        conflictsFor cfg u st.conflicts
  | [], st, _ => ⟨rfl, rfl⟩
  | fc :: fs, st, h => by
    have hfc := planFolder_no_producer cfg chs u fc st
      (h fc (List.mem_cons_self fc fs))
    have hrest := planFolders_no_producer cfg chs u fs (planFolder cfg chs st fc)
      (fun e he => h e (List.mem_cons_of_mem fc he))
    rw [List.foldl_cons]
    exact ⟨hfc.1 ▸ hrest.1, hfc.2 ▸ hrest.2⟩

/-- C2.  Conflict determinism: when a feed URL is producible exactly once
from folder F1 (configured first, mapping to category A) and exactly once
from folder F2 (configured later, mapping to B), and from no other configured
folder, the planner assigns the URL to A with F1's channel — the first-seen
assignment is never overwritten — and produces exactly one conflict record
`{existing_folder := F1, existing_category := A, new_folder := F2,
new_category := B}`, regardless of the ordering of channels inside the input
channel list. -/
theorem planner_conflict_determinism (cfg : Config)
    (chs : List TelegramChannel) (u F1 A F2 B : String)
    (ch1 ch2 : TelegramChannel) (pre mid post : List (String × String))
    (hfolders : cfg.sync.folders = pre ++ (F1, A) :: mid ++ (F2, B) :: post)
    (hne : u ≠ "")
    (h1 : producers cfg chs F1 u = [ch1])
    (h2 : producers cfg chs F2 u = [ch2])
    (hpre : ∀ fc ∈ pre, producers cfg chs fc.1 u = [])
    (hmid : ∀ fc ∈ mid, producers cfg chs fc.1 u = [])
    (hpost : ∀ fc ∈ post, producers cfg chs fc.1 u = []) :
    alookup (plan_synchronization cfg chs).assignments u =
      some (A, F1, ch1) ∧
    conflictsFor cfg u (plan_synchronization cfg chs).conflicts =
      [{ channel := ch2, existing_folder := F1, existing_category := A,
         new_folder := F2, new_category := B }] := by
  unfold plan_synchronization
  rw [hfolders]
  rw [List.foldl_append, List.foldl_cons, List.foldl_append, List.foldl_cons]
  set st0 : PlanState := { assignments := [], conflicts := [] } with hst0
  have hpre' := planFolders_no_producer cfg chs u pre st0 hpre
  have hF1 := planFolder_first cfg chs u (F1, A)
    (pre.foldl (planFolder cfg chs) st0) ch1 hne h1
    (hpre'.1.trans (by simp [hst0, alookup]))
  have hmid' := planFolders_no_producer cfg chs u mid
    (planFolder cfg chs (pre.foldl (planFolder cfg chs) st0) (F1, A)) hmid
  have hF2 := planFolder_conflict cfg chs u A F1 ch1 (F2, B)
    (mid.foldl (planFolder cfg chs)
      (planFolder cfg chs (pre.foldl (planFolder cfg chs) st0) (F1, A)))
    ch2 hne h2 (hmid'.1.trans hF1.1)
  have hpost' := planFolders_no_producer cfg chs u post
    (planFolder cfg chs
      (mid.foldl (planFolder cfg chs)
        (planFolder cfg chs (pre.foldl (planFolder cfg chs) st0) (F1, A)))
      (F2, B)) hpost
  constructor
  · exact hpost'.1.trans hF2.1
  · rw [hpost'.2, hF2.2, hmid'.2, hF1.2, hpre'.2]
    simp [hst0, conflictsFor]

/-- Two folders mapping to two categories, for the C2 witness. -/
def cfgC2 : Config :=
  { rsshub := { base_url := "http://x" },
    sync := { folders := [("A", "Alpha"), ("B", "Beta")] } }

/-- The shared channel as seen from folder A. -/
def chC2a : TelegramChannel :=
  { id := 1, username := some "shared", title := "S", is_private := false,
    folder_name := some "A" }

/-- The shared channel as seen from folder B. -/
def chC2b : TelegramChannel :=
  { id := 1, username := some "shared", title := "S", is_private := false,
    folder_name := some "B" }

/-- Witness for C2 at a concrete two-folder conflict, with the folder-B copy
listed first in the input. -/
theorem planner_conflict_determinism_witness :
    (cfgC2.sync.folders = [] ++ ("A", "Alpha") :: [] ++ ("B", "Beta") :: []) ∧
    ("http://x/telegram/channel/shared" ≠ "") ∧
    (producers cfgC2 [chC2b, chC2a] "A" "http://x/telegram/channel/shared" =
      [chC2a]) ∧
    (producers cfgC2 [chC2b, chC2a] "B" "http://x/telegram/channel/shared" =
      [chC2b]) ∧
    (alookup (plan_synchronization cfgC2 [chC2b, chC2a]).assignments
        "http://x/telegram/channel/shared" = some ("Alpha", "A", chC2a) ∧
     conflictsFor cfgC2 "http://x/telegram/channel/shared"
        (plan_synchronization cfgC2 [chC2b, chC2a]).conflicts =
       [{ channel := chC2b, existing_folder := "A",
          existing_category := "Alpha", new_folder := "B",
          new_category := "Beta" }]) :=
  ⟨rfl, by decide, by decide, by decide,
   planner_conflict_determinism cfgC2 [chC2b, chC2a]
     "http://x/telegram/channel/shared" "A" "Alpha" "B" "Beta" chC2a chC2b
     [] [] [] rfl (by decide) (by decide) (by decide)
     (by intro fc hfc; simp at hfc) (by intro fc hfc; simp at hfc)
     (by intro fc hfc; simp at hfc)⟩

/-! ## Association-list lemmas for `dlookup` -/

lemma alookup_mem {β : Type} :
    ∀ (l : List (String × β)) (k : String) (v : β),
      alookup l k = some v → (k, v) ∈ l
  | [], _, _, h => by simp [alookup] at h
  | (k', w) :: rest, k, v, h => by
    by_cases hk : k' = k
    · simp [alookup, hk] at h
      simp [hk, h]
    · simp [alookup, hk] at h
      exact List.mem_cons_of_mem _ (alookup_mem rest k v h)

lemma alookup_none_iff {β : Type} :
    ∀ (l : List (String × β)) (k : String),
      alookup l k = none ↔ ∀ p ∈ l, p.1 ≠ k
  | [], k => by simp [alookup]
  | (k', w) :: rest, k => by
    by_cases hk : k' = k
    · simp [alookup, hk]
    · simp [alookup, hk, alookup_none_iff rest k]

lemma dlookup_mem {β : Type} (l : List (String × β)) (k : String) (v : β)
    (h : dlookup l k = some v) : (k, v) ∈ l := by
  unfold dlookup at h
  have := alookup_mem l.reverse k v h
  rwa [List.mem_reverse] at this

lemma dlookup_none_iff {β : Type} (l : List (String × β)) (k : String) :
    dlookup l k = none ↔ ∀ p ∈ l, p.1 ≠ k := by
  unfold dlookup
  rw [alookup_none_iff]
  constructor
  · intro h p hp
    exact h p (List.mem_reverse.mpr hp)
  · intro h p hp
    exact h p (List.mem_reverse.mp hp)

lemma dlookup_append {β : Type} (l l' : List (String × β)) (k : String) :
    dlookup (l ++ l') k =
      match dlookup l' k with
      | some v => some v
      | none => dlookup l k := by
  unfold dlookup
  rw [List.reverse_append]
  cases h : alookup l'.reverse k with
  | some v => rw [alookup_append_some l'.reverse l.reverse k v h]
  | none => rw [alookup_append_none l'.reverse l.reverse k h]

lemma dlookup_append_single {β : Type} (l : List (String × β))
    (n k : String) (v : β) :
    dlookup (l ++ [(n, v)]) k = if n = k then some v else dlookup l k := by
  rw [dlookup_append]
  by_cases hk : n = k <;> simp [dlookup, alookup, hk]

/-- A hit in the `existing_feed_by_url` dict is a managed feed with the
looked-up normalized URL. -/
lemma feedmap_some (tfeeds : List MinifluxFeed) (k : String)
    (f : MinifluxFeed)
    (h : dlookup (existing_feed_by_url tfeeds) k = some f) :
    f ∈ tfeeds ∧ normalize_url_for_comparison f.feed_url = k := by
  have hm := dlookup_mem _ _ _ h
  unfold existing_feed_by_url at hm
  rw [List.mem_map] at hm
  obtain ⟨g, hg, hgf⟩ := hm
  have hg2 : g = f := congrArg Prod.snd hgf
  subst hg2
  exact ⟨hg, congrArg Prod.fst hgf⟩

/-- A miss in the `existing_feed_by_url` dict means no managed feed has the
looked-up normalized URL. -/
lemma feedmap_none (tfeeds : List MinifluxFeed) (k : String)
    (h : dlookup (existing_feed_by_url tfeeds) k = none) :
    ∀ f ∈ tfeeds, normalize_url_for_comparison f.feed_url ≠ k := by
  intro f hf
  have := (dlookup_none_iff _ _).mp h
    (normalize_url_for_comparison f.feed_url, f)
    (by unfold existing_feed_by_url; exact List.mem_map.mpr ⟨f, hf, rfl⟩)
  simpa using this

/-! ## Field lemmas for the Stage-2 step functions -/

lemma resolveCategory_some (env : MinifluxEnv) (dry : Bool) (st : ExecState)
    (n : String) (i : Int) (h : dlookup st.cache n = some i) :
    resolveCategory env dry st n = (i, st) := by
  unfold resolveCategory
  rw [h]

lemma resolveCategory_none_dry (env : MinifluxEnv) (st : ExecState)
    (n : String) (h : dlookup st.cache n = none) :
    resolveCategory env true st n = (-1, st) := by
  unfold resolveCategory
  rw [h]
  rfl

lemma resolveCategory_none_live (env : MinifluxEnv) (st : ExecState)
    (n : String) (h : dlookup st.cache n = none) :
    resolveCategory env false st n =
      (env.fresh_cat_id st.cat_count,
       { st with
           cache := st.cache ++ [(n, env.fresh_cat_id st.cat_count)],
           server_cats := st.server_cats ++
             [{ id := env.fresh_cat_id st.cat_count, title := n }],
           cat_count := st.cat_count + 1 }) := by
  unfold resolveCategory
  rw [h]
  rfl

lemma resolveCategory_fields (env : MinifluxEnv) (dry : Bool)
    (st : ExecState) (n : String) :
    (resolveCategory env dry st n).2.added = st.added ∧
    (resolveCategory env dry st n).2.moved = st.moved ∧
    (resolveCategory env dry st n).2.updated = st.updated ∧
    (resolveCategory env dry st n).2.removed = st.removed ∧
    (resolveCategory env dry st n).2.server_feeds = st.server_feeds ∧
    (resolveCategory env dry st n).2.feed_count = st.feed_count := by
  unfold resolveCategory
  cases dlookup st.cache n with
  | some i => exact ⟨rfl, rfl, rfl, rfl, rfl, rfl⟩
  | none => cases dry <;> exact ⟨rfl, rfl, rfl, rfl, rfl, rfl⟩

lemma applyExisting_spec (cfg : Config) (dry su : Bool) (st : ExecState)
    (u cat : String) (ch : TelegramChannel) (tid : Int)
    (f : MinifluxFeed) :
    (applyExisting cfg dry su st u cat ch tid f).added = st.added ∧
    (applyExisting cfg dry su st u cat ch tid f).removed = st.removed ∧
    (applyExisting cfg dry su st u cat ch tid f).cache = st.cache ∧
    (applyExisting cfg dry su st u cat ch tid f).server_cats =
      st.server_cats ∧
    (applyExisting cfg dry su st u cat ch tid f).cat_count = st.cat_count ∧
    (applyExisting cfg dry su st u cat ch tid f).feed_count = st.feed_count ∧
    (applyExisting cfg dry su st u cat ch tid f).moved = st.moved ++
      (if f.category_id == tid then []
       else [mkMoveAction st.server_cats u cat ch f]) ∧
    (applyExisting cfg dry su st u cat ch tid f).updated = st.updated ++
      (if su && !(new_feed_title cfg ch == f.title) then
        [mkUpdateAction u cat ch f]
       else []) := by
  unfold applyExisting
  cases hm : (f.category_id == tid) <;>
    cases ht : (su && !(new_feed_title cfg ch == f.title)) <;>
      simp [hm, ht]

lemma applyExisting_server_feeds_dry (cfg : Config) (su : Bool)
    (st : ExecState) (u cat : String) (ch : TelegramChannel) (tid : Int)
    (f : MinifluxFeed) :
    (applyExisting cfg true su st u cat ch tid f).server_feeds =
      st.server_feeds := by
  unfold applyExisting
  cases hm : (f.category_id == tid) <;>
    cases ht : (su && !(new_feed_title cfg ch == f.title)) <;>
      simp [hm, ht]

/-- The net effect of the move/title mutations on the live feed list. -/
def existingFeedsEffect (cfg : Config) (su : Bool)
    (feeds : List MinifluxFeed) (ch : TelegramChannel) (tid : Int)
    (f : MinifluxFeed) : List MinifluxFeed :=
  let s1 := if f.category_id == tid then feeds
    else update_feed_category_model feeds f.id tid
  if su && !(new_feed_title cfg ch == f.title) then
    update_feed_title_model s1 f.id (new_feed_title cfg ch)
  else s1

lemma applyExisting_server_feeds_live (cfg : Config) (su : Bool)
    (st : ExecState) (u cat : String) (ch : TelegramChannel) (tid : Int)
    (f : MinifluxFeed) :
    (applyExisting cfg false su st u cat ch tid f).server_feeds =
      existingFeedsEffect cfg su st.server_feeds ch tid f := by
  unfold applyExisting existingFeedsEffect
  cases hm : (f.category_id == tid) <;>
    cases ht : (su && !(new_feed_title cfg ch == f.title)) <;>
      simp [hm, ht]

lemma applyCreate_spec (cfg : Config) (env : MinifluxEnv) (dry : Bool)
    (st : ExecState) (u cat : String) (ch : TelegramChannel) (tid : Int) :
    (applyCreate cfg env dry st u cat ch tid).added =
      st.added ++ [mkAddAction u cat ch] ∧
    (applyCreate cfg env dry st u cat ch tid).moved = st.moved ∧
    (applyCreate cfg env dry st u cat ch tid).updated = st.updated ∧
    (applyCreate cfg env dry st u cat ch tid).removed = st.removed ∧
    (applyCreate cfg env dry st u cat ch tid).cache = st.cache ∧
    (applyCreate cfg env dry st u cat ch tid).server_cats =
      st.server_cats ∧
    (applyCreate cfg env dry st u cat ch tid).cat_count = st.cat_count := by
  unfold applyCreate
  cases dry <;> simp

lemma applyCreate_server_feeds_dry (cfg : Config) (env : MinifluxEnv)
    (st : ExecState) (u cat : String) (ch : TelegramChannel) (tid : Int) :
    (applyCreate cfg env true st u cat ch tid).server_feeds =
      st.server_feeds ∧
    (applyCreate cfg env true st u cat ch tid).feed_count = st.feed_count := by
  unfold applyCreate
  simp

lemma applyCreate_server_feeds_live (cfg : Config) (env : MinifluxEnv)
    (st : ExecState) (u cat : String) (ch : TelegramChannel) (tid : Int) :
    (applyCreate cfg env false st u cat ch tid).server_feeds =
      st.server_feeds ++
        [mkCreatedFeed env st.feed_count u (new_feed_title cfg ch) tid] ∧
    (applyCreate cfg env false st u cat ch tid).feed_count =
      st.feed_count + 1 := by
  unfold applyCreate
  simp

lemma removeFeedStep_spec (dry : Bool) (st : ExecState) (f : MinifluxFeed) :
    (removeFeedStep dry st f).added = st.added ∧
    (removeFeedStep dry st f).moved = st.moved ∧
    (removeFeedStep dry st f).updated = st.updated ∧
    (removeFeedStep dry st f).cache = st.cache ∧
    (removeFeedStep dry st f).server_cats = st.server_cats ∧
    (removeFeedStep dry st f).cat_count = st.cat_count ∧
    (removeFeedStep dry st f).feed_count = st.feed_count ∧
    (removeFeedStep dry st f).removed =
      st.removed ++ [mkRemoveAction st.server_cats f] ∧
    (removeFeedStep dry st f).server_feeds =
      (if dry then st.server_feeds
       else delete_feed_model st.server_feeds f.id) := by
  unfold removeFeedStep
  exact ⟨rfl, rfl, rfl, rfl, rfl, rfl, rfl, rfl, rfl⟩

/-- The removal fold: it only appends `remove` records (one per classified
feed, naming the server categories, which it never changes) and deletes the
classified feeds in live mode. -/
lemma removalFold_spec (dry : Bool) :
    ∀ (fs : List MinifluxFeed) (st : ExecState),
      ((fs.foldl (removeFeedStep dry) st).added = st.added ∧
       (fs.foldl (removeFeedStep dry) st).moved = st.moved ∧
       (fs.foldl (removeFeedStep dry) st).updated = st.updated ∧
       (fs.foldl (removeFeedStep dry) st).cache = st.cache ∧
       (fs.foldl (removeFeedStep dry) st).server_cats = st.server_cats ∧
       (fs.foldl (removeFeedStep dry) st).cat_count = st.cat_count ∧
       (fs.foldl (removeFeedStep dry) st).feed_count = st.feed_count) ∧
      (fs.foldl (removeFeedStep dry) st).removed =
        st.removed ++ fs.map (mkRemoveAction st.server_cats) ∧
      (fs.foldl (removeFeedStep dry) st).server_feeds =
        fs.foldl (fun l d => if dry then l else delete_feed_model l d.id)
          st.server_feeds
  | [], st => by simp
  | f :: fs, st => by
    have hstep := removeFeedStep_spec dry st f
    have hrest := removalFold_spec dry fs (removeFeedStep dry st f)
    rw [List.foldl_cons, List.foldl_cons]
    obtain ⟨⟨ha, hm, hu, hc, hsc, hcc, hfc⟩, hr, hsf⟩ := hrest
    refine ⟨⟨?_, ?_, ?_, ?_, ?_, ?_, ?_⟩, ?_, ?_⟩
    · rw [ha, hstep.1]
    · rw [hm, hstep.2.1]
    · rw [hu, hstep.2.2.1]
    · rw [hc, hstep.2.2.2.1]
    · rw [hsc, hstep.2.2.2.2.1]
    · rw [hcc, hstep.2.2.2.2.2.1]
    · rw [hfc, hstep.2.2.2.2.2.2.1]
    · rw [hr, hstep.2.2.2.2.2.2.2.1, hstep.2.2.2.2.1]
      simp
    · rw [hsf, hstep.2.2.2.2.2.2.2.2]

/-! ## The Stage-2 fold against the pre-pass classification -/

/-- The total number of classified actions accumulated so far. -/
def actionCount (st : ExecState) : Nat :=
  st.added.length + st.moved.length + st.updated.length + st.removed.length

/-- Invariant of the Stage-2 category cache: the initial
`category_name_to_id` dict extended only by live-created categories, whose
names were absent from the dict and whose server-chosen ids collide with no
managed feed's category id. -/
def CacheInv (catmap : List (String × Int)) (tfeeds : List MinifluxFeed)
    (st : ExecState) : Prop :=
  ∃ cp, st.cache = catmap ++ cp ∧
    ∀ q ∈ cp, dlookup catmap q.1 = none ∧ ∀ f ∈ tfeeds, q.2 ≠ f.category_id

/-- Server-chosen category ids never collide with a managed feed's category
id (real destinations hand out fresh ids). -/
def EnvOK (env : MinifluxEnv) (tfeeds : List MinifluxFeed) : Prop :=
  ∀ k, ∀ f ∈ tfeeds, env.fresh_cat_id k ≠ f.category_id

/-- No managed feed sits in the dry-run dummy category `-1` (real
destinations hand out nonnegative ids). -/
def FeedsOK (tfeeds : List MinifluxFeed) : Prop :=
  ∀ f ∈ tfeeds, f.category_id ≠ -1

lemma cacheInv_lookup_some {catmap : List (String × Int)}
    {tfeeds : List MinifluxFeed} {st : ExecState}
    (hinv : CacheInv catmap tfeeds st) (cat : String) (i : Int)
    (h : dlookup catmap cat = some i) : dlookup st.cache cat = some i := by
  obtain ⟨cp, hcache, hcp⟩ := hinv
  rw [hcache, dlookup_append]
  have hnone : dlookup cp cat = none := by
    rw [dlookup_none_iff]
    intro q hq hqc
    have := (hcp q hq).1
    rw [hqc, h] at this
    simp at this
  rw [hnone, h]

lemma cacheInv_lookup_none {catmap : List (String × Int)}
    {tfeeds : List MinifluxFeed} {st : ExecState}
    (hinv : CacheInv catmap tfeeds st) (cat : String)
    (h : dlookup catmap cat = none) :
    dlookup st.cache cat = none ∨
    ∃ j, dlookup st.cache cat = some j ∧ ∀ f ∈ tfeeds, j ≠ f.category_id := by
  obtain ⟨cp, hcache, hcp⟩ := hinv
  rw [hcache, dlookup_append]
  cases hc : dlookup cp cat with
  | none => rw [h]; exact Or.inl rfl
  | some j =>
    refine Or.inr ⟨j, rfl, ?_⟩
    exact (hcp (cat, j) (dlookup_mem cp cat j hc)).2

lemma applyAssignment_cacheInv (cfg : Config) (env : MinifluxEnv)
    (dry su : Bool) (catmap : List (String × Int))
    (tfeeds : List MinifluxFeed) (st : ExecState) (e : String × Assignment)
    (henv : EnvOK env tfeeds) (hinv : CacheInv catmap tfeeds st) :
    CacheInv catmap tfeeds
      (applyAssignment cfg env dry su (existing_feed_by_url tfeeds) st e) := by
  obtain ⟨u, cat, fol, ch⟩ := e
  rw [applyAssignment_def]
  have hres : CacheInv catmap tfeeds (resolveCategory env dry st cat).2 := by
    unfold resolveCategory
    cases hc : dlookup st.cache cat with
    | some i => exact hinv
    | none =>
      cases dry with
      | true => exact hinv
      | false =>
        obtain ⟨cp, hcache, hcp⟩ := hinv
        refine ⟨cp ++ [(cat, env.fresh_cat_id st.cat_count)], ?_, ?_⟩
        · show st.cache ++ _ = catmap ++ (cp ++ _)
          rw [hcache, List.append_assoc]
        · intro q hq
          rcases List.mem_append.mp hq with hq | hq
          · exact hcp q hq
          · have hq1 : q = (cat, env.fresh_cat_id st.cat_count) := by
              simpa using hq
            subst hq1
            constructor
            · have := hc
              rw [hcache, dlookup_append] at this
              cases hcpl : dlookup cp cat with
              | none => rw [hcpl] at this; exact this
              | some j => rw [hcpl] at this; simp at this
            · exact fun f hf => henv st.cat_count f hf
  cases hf : dlookup (existing_feed_by_url tfeeds)
      (normalize_url_for_comparison u) with
  | some f =>
    obtain ⟨cp, hcache, hcp⟩ := hres
    exact ⟨cp, ((applyExisting_spec cfg dry su _ u cat ch _ f).2.2.1).trans
      hcache, hcp⟩
  | none =>
    obtain ⟨cp, hcache, hcp⟩ := hres
    exact ⟨cp, ((applyCreate_spec cfg env dry _ u cat ch _).2.2.2.2.1).trans
      hcache, hcp⟩

lemma applyAssignment_removed (cfg : Config) (env : MinifluxEnv)
    (dry su : Bool) (fm : List (String × MinifluxFeed)) (st : ExecState)
    (e : String × Assignment) :
    (applyAssignment cfg env dry su fm st e).removed = st.removed := by
  obtain ⟨u, cat, fol, ch⟩ := e
  rw [applyAssignment_def]
  have hres := (resolveCategory_fields env dry st cat).2.2.2.1
  cases hf : dlookup fm (normalize_url_for_comparison u) with
  | some f =>
    exact ((applyExisting_spec cfg dry su _ u cat ch _ f).2.1).trans hres
  | none =>
    exact ((applyCreate_spec cfg env dry _ u cat ch _).2.2.2.1).trans hres

lemma applyAssignment_count_mono (cfg : Config) (env : MinifluxEnv)
    (dry su : Bool) (fm : List (String × MinifluxFeed)) (st : ExecState)
    (e : String × Assignment) :
    actionCount st ≤ actionCount (applyAssignment cfg env dry su fm st e) := by
  obtain ⟨u, cat, fol, ch⟩ := e
  rw [applyAssignment_def]
  unfold actionCount
  have hres := resolveCategory_fields env dry st cat
  cases hf : dlookup fm (normalize_url_for_comparison u) with
  | some f =>
    have hs := applyExisting_spec cfg dry su (resolveCategory env dry st cat).2
      u cat ch (resolveCategory env dry st cat).1 f
    rw [hs.1, hs.2.1, hs.2.2.2.2.2.2.1, hs.2.2.2.2.2.2.2, hres.1, hres.2.1,
      hres.2.2.1, hres.2.2.2.1]
    simp only [List.length_append]
    omega
  | none =>
    have hs := applyCreate_spec cfg env dry (resolveCategory env dry st cat).2
      u cat ch (resolveCategory env dry st cat).1
    rw [hs.1, hs.2.1, hs.2.2.1, hs.2.2.2.1, hres.1, hres.2.1, hres.2.2.1,
      hres.2.2.2.1]
    simp only [List.length_append]
    omega

lemma applyFold_count_mono (cfg : Config) (env : MinifluxEnv) (dry su : Bool)
    (fm : List (String × MinifluxFeed)) :
    ∀ (es : List (String × Assignment)) (st : ExecState),
      actionCount st ≤
        actionCount (es.foldl (applyAssignment cfg env dry su fm) st)
  | [], _ => le_refl _
  | e :: es, st => by
    rw [List.foldl_cons]
    exact le_trans (applyAssignment_count_mono cfg env dry su fm st e)
      (applyFold_count_mono cfg env dry su fm es _)

lemma applyFold_cacheInv (cfg : Config) (env : MinifluxEnv) (dry su : Bool)
    (catmap : List (String × Int)) (tfeeds : List MinifluxFeed)
    (henv : EnvOK env tfeeds) :
    ∀ (es : List (String × Assignment)) (st : ExecState),
      CacheInv catmap tfeeds st →
      CacheInv catmap tfeeds
        (es.foldl (applyAssignment cfg env dry su
          (existing_feed_by_url tfeeds)) st)
  | [], _, h => h
  | e :: es, st, h => by
    rw [List.foldl_cons]
    exact applyFold_cacheInv cfg env dry su catmap tfeeds henv es _
      (applyAssignment_cacheInv cfg env dry su catmap tfeeds st e henv h)

lemma applyFold_removed (cfg : Config) (env : MinifluxEnv) (dry su : Bool)
    (fm : List (String × MinifluxFeed)) :
    ∀ (es : List (String × Assignment)) (st : ExecState),
      (es.foldl (applyAssignment cfg env dry su fm) st).removed =
        st.removed
  | [], _ => rfl
  | e :: es, st => by
    rw [List.foldl_cons,
      applyFold_removed cfg env dry su fm es _,
      applyAssignment_removed cfg env dry su fm st e]

/-- A pre-pass trigger makes the Stage-2 step classify at least one
action. -/
lemma applyAssignment_trigger (cfg : Config) (env : MinifluxEnv)
    (dry su : Bool) (catmap : List (String × Int))
    (tfeeds : List MinifluxFeed) (st : ExecState) (e : String × Assignment)
    (henv : EnvOK env tfeeds) (hfeeds : FeedsOK tfeeds)
    (hinv : CacheInv catmap tfeeds st)
    (htrig : assignmentNeedsChange cfg catmap (existing_feed_by_url tfeeds)
      su e = true) :
    actionCount st <
      actionCount (applyAssignment cfg env dry su
        (existing_feed_by_url tfeeds) st e) := by
  obtain ⟨u, cat, fol, ch⟩ := e
  rw [assignmentNeedsChange_def] at htrig
  rw [applyAssignment_def]
  unfold actionCount
  cases hcm : dlookup catmap cat with
  | none =>
    -- the target category is missing from the snapshot: in Stage 2 the
    -- resolved id is the dummy -1, a fresh id, or an id created earlier in
    -- the run, none of which is any managed feed's category id
    have hres := resolveCategory_fields env dry st cat
    have htid : ∀ f ∈ tfeeds,
        ((resolveCategory env dry st cat).1 == f.category_id) = false := by
      intro f hf
      rcases cacheInv_lookup_none hinv cat hcm with hc | ⟨j, hc, hj⟩
      · unfold resolveCategory
        rw [hc]
        cases dry with
        | true => simpa using (hfeeds f hf).symm
        | false => simpa using (henv st.cat_count f hf)
      · rw [resolveCategory_some env dry st cat j hc]
        simpa using hj f hf
    cases hf : dlookup (existing_feed_by_url tfeeds)
        (normalize_url_for_comparison u) with
    | some f =>
      have hmem := (feedmap_some tfeeds _ f hf).1
      have hs := applyExisting_spec cfg dry su
        (resolveCategory env dry st cat).2 u cat ch
        (resolveCategory env dry st cat).1 f
      have hmv : (f.category_id == (resolveCategory env dry st cat).1) =
          false := by
        have h1 := htid f hmem
        simp only [beq_eq_false_iff_ne] at h1 ⊢
        exact Ne.symm h1
      rw [hs.1, hs.2.1, hs.2.2.2.2.2.2.1, hs.2.2.2.2.2.2.2, hres.1,
        hres.2.1, hres.2.2.1, hres.2.2.2.1, hmv]
      simp only [Bool.false_eq_true, if_false, List.length_append,
        List.length_cons, List.length_nil]
      have hub := List.Sublist.length_le
        (List.nil_sublist (if (su && !(new_feed_title cfg ch == f.title)) then
          [mkUpdateAction u cat ch f] else []))
      omega
    | none =>
      have hs := applyCreate_spec cfg env dry
        (resolveCategory env dry st cat).2 u cat ch
        (resolveCategory env dry st cat).1
      rw [hs.1, hs.2.1, hs.2.2.1, hs.2.2.2.1, hres.1, hres.2.1, hres.2.2.1,
        hres.2.2.2.1]
      simp only [List.length_append, List.length_cons, List.length_nil]
      omega
  | some i =>
    have hcache : dlookup st.cache cat = some i :=
      cacheInv_lookup_some hinv cat i hcm
    rw [resolveCategory_some env dry st cat i hcache]
    rw [hcm] at htrig
    cases hf : dlookup (existing_feed_by_url tfeeds)
        (normalize_url_for_comparison u) with
    | some f =>
      rw [hf] at htrig
      have hs := applyExisting_spec cfg dry su st u cat ch i f
      rw [hs.1, hs.2.1, hs.2.2.2.2.2.2.1, hs.2.2.2.2.2.2.2]
      simp only [List.length_append]
      rcases Bool.or_eq_true_iff.mp htrig with h1 | h1
      · have hc : (f.category_id == i) = false := by
          cases hv : (f.category_id == i)
          · rfl
          · rw [hv] at h1; simp at h1
        rw [hc]
        simp only [Bool.false_eq_true, if_false, List.length_append,
          List.length_cons, List.length_nil]
        omega
      · rw [h1]
        simp only [if_true, List.length_append, List.length_cons,
          List.length_nil]
        cases hv : (f.category_id == i) <;>
          simp only [hv, Bool.false_eq_true, if_false, if_true,
            List.length_cons, List.length_nil] <;> omega
    | none =>
      rw [hf] at htrig
      have hs := applyCreate_spec cfg env dry st u cat ch i
      rw [hs.1, hs.2.1, hs.2.2.1, hs.2.2.2.1]
      simp only [List.length_append, List.length_cons, List.length_nil]
      omega

lemma applyExisting_noop (cfg : Config) (dry su : Bool) (st : ExecState)
    (u cat : String) (ch : TelegramChannel) (tid : Int) (f : MinifluxFeed)
    (hm : (f.category_id == tid) = true)
    (ht : (su && !(new_feed_title cfg ch == f.title)) = false) :
    applyExisting cfg dry su st u cat ch tid f = st := by
  unfold applyExisting
  simp [hm, ht]

/-- An assignment the pre-pass classifies as fine is a no-op for Stage 2
run over the unextended cache. -/
lemma applyAssignment_noop (cfg : Config) (env : MinifluxEnv) (dry su : Bool)
    (catmap : List (String × Int)) (tfeeds : List MinifluxFeed)
    (st : ExecState) (e : String × Assignment) (hcache : st.cache = catmap)
    (hfalse : assignmentNeedsChange cfg catmap (existing_feed_by_url tfeeds)
      su e = false) :
    applyAssignment cfg env dry su (existing_feed_by_url tfeeds) st e = st := by
  obtain ⟨u, cat, fol, ch⟩ := e
  rw [assignmentNeedsChange_def] at hfalse
  rw [applyAssignment_def]
  cases hcm : dlookup catmap cat with
  | none => rw [hcm] at hfalse; simp at hfalse
  | some i =>
    rw [hcm] at hfalse
    cases hf : dlookup (existing_feed_by_url tfeeds)
        (normalize_url_for_comparison u) with
    | none => rw [hf] at hfalse; simp at hfalse
    | some f =>
      rw [hf] at hfalse
      have hboth := Bool.or_eq_false_iff.mp hfalse
      have hm : (f.category_id == i) = true := by
        have h1 := hboth.1
        cases hv : (f.category_id == i)
        · rw [hv] at h1; simp at h1
        · rfl
      rw [resolveCategory_some env dry st cat i (by rw [hcache]; exact hcm)]
      exact applyExisting_noop cfg dry su st u cat ch i f hm hboth.2

lemma applyFold_noop (cfg : Config) (env : MinifluxEnv) (dry su : Bool)
    (catmap : List (String × Int)) (tfeeds : List MinifluxFeed) :
    ∀ (es : List (String × Assignment)) (st : ExecState),
      st.cache = catmap →
      (∀ e ∈ es, assignmentNeedsChange cfg catmap
        (existing_feed_by_url tfeeds) su e = false) →
      es.foldl (applyAssignment cfg env dry su
        (existing_feed_by_url tfeeds)) st = st
  | [], _, _, _ => rfl
  | e :: es, st, hcache, h => by
    rw [List.foldl_cons,
      applyAssignment_noop cfg env dry su catmap tfeeds st e hcache
        (h e (List.mem_cons_self e es))]
    exact applyFold_noop cfg env dry su catmap tfeeds es st hcache
      (fun x hx => h x (List.mem_cons_of_mem e hx))

lemma removalPass_count_mono (cfg : Config) (dry : Bool)
    (assignments : List (String × Assignment)) (tfeeds : List MinifluxFeed)
    (cats : List MinifluxCategory) (st : ExecState) :
    actionCount st ≤ actionCount (removalPass cfg dry assignments tfeeds
      cats st) := by
  unfold removalPass
  by_cases hr : cfg.sync.remove_absent_feeds = true
  · rw [if_pos hr]
    have hs := removalFold_spec dry (tfeeds.filter
      (feedNeedsRemoval (plannedUrls assignments)
        (configuredCategoryIds cfg cats))) st
    unfold actionCount
    rw [hs.1.1, hs.1.2.1, hs.1.2.2.1, hs.2.1]
    simp only [List.length_append]
    omega
  · rw [if_neg hr]

/-- Direction one of the fast-path equivalence: when the pre-pass reports no
changes, the full Stage-2 pass leaves the initial state untouched — no
action is classified and no state is mutated. -/
lemma stage2_noop_of_not_changes (cfg : Config) (env : MinifluxEnv)
    (dry su : Bool) (assignments : List (String × Assignment))
    (all_feeds : List MinifluxFeed) (cats : List MinifluxCategory)
    (h : changes_needed cfg assignments (telegramFeeds cfg all_feeds) cats
      su = false) :
    stage2Run cfg env dry su assignments all_feeds cats =
      stage2Init all_feeds cats := by
  unfold changes_needed at h
  have hc1 : assignments.any (assignmentNeedsChange cfg
      (category_name_to_id cats)
      (existing_feed_by_url (telegramFeeds cfg all_feeds)) su) = false := by
    cases hc : assignments.any (assignmentNeedsChange cfg
        (category_name_to_id cats)
        (existing_feed_by_url (telegramFeeds cfg all_feeds)) su) with
    | false => rfl
    | true => rw [hc] at h; simp at h
  rw [hc1] at h
  have hall : ∀ e ∈ assignments, assignmentNeedsChange cfg
      (category_name_to_id cats)
      (existing_feed_by_url (telegramFeeds cfg all_feeds)) su e = false := by
    intro e he
    have := List.any_eq_false.mp hc1 e he
    simpa using this
  unfold stage2Run
  rw [applyFold_noop cfg env dry su (category_name_to_id cats)
    (telegramFeeds cfg all_feeds) assignments
    (stage2Init all_feeds cats) rfl hall]
  unfold removalPass
  by_cases hr : cfg.sync.remove_absent_feeds = true
  · rw [if_pos hr]
    rw [hr] at h
    simp at h
    have hfilter : (telegramFeeds cfg all_feeds).filter
        (feedNeedsRemoval (plannedUrls assignments)
          (configuredCategoryIds cfg cats)) = [] := by
      rw [List.filter_eq_nil_iff]
      intro f hf
      have := h f hf
      simpa using this
    rw [hfilter]
    rfl
  · rw [if_neg hr]

/-- Direction two of the fast-path equivalence: when the pre-pass reports
changes, the full Stage-2 pass classifies at least one action. -/
lemma stage2_action_of_changes (cfg : Config) (env : MinifluxEnv)
    (dry su : Bool) (assignments : List (String × Assignment))
    (all_feeds : List MinifluxFeed) (cats : List MinifluxCategory)
    (henv : EnvOK env (telegramFeeds cfg all_feeds))
    (hfeeds : FeedsOK (telegramFeeds cfg all_feeds))
    (h : changes_needed cfg assignments (telegramFeeds cfg all_feeds) cats
      su = true) :
    0 < actionCount (stage2Run cfg env dry su assignments all_feeds cats) := by
  unfold changes_needed at h
  cases hc1 : assignments.any (assignmentNeedsChange cfg
      (category_name_to_id cats)
      (existing_feed_by_url (telegramFeeds cfg all_feeds)) su) with
  | true =>
    obtain ⟨e, he, htrig⟩ := List.any_eq_true.mp hc1
    obtain ⟨s, t, hst⟩ := List.append_of_mem he
    unfold stage2Run
    refine lt_of_lt_of_le ?_ (removalPass_count_mono cfg dry assignments
      (telegramFeeds cfg all_feeds) cats _)
    rw [hst, List.foldl_append, List.foldl_cons]
    refine lt_of_lt_of_le ?_ (applyFold_count_mono cfg env dry su _ t _)
    have hinv : CacheInv (category_name_to_id cats)
        (telegramFeeds cfg all_feeds)
        (s.foldl (applyAssignment cfg env dry su
          (existing_feed_by_url (telegramFeeds cfg all_feeds)))
          (stage2Init all_feeds cats)) := by
      refine applyFold_cacheInv cfg env dry su _ _ henv s _ ?_
      exact ⟨[], by simp [stage2Init], by simp⟩
    have htr := applyAssignment_trigger cfg env dry su
      (category_name_to_id cats) (telegramFeeds cfg all_feeds) _ e henv
      hfeeds hinv htrig
    have h0 : actionCount (stage2Init all_feeds cats) = 0 := by
      simp [stage2Init, actionCount]
    calc 0 ≤ actionCount (s.foldl (applyAssignment cfg env dry su
        (existing_feed_by_url (telegramFeeds cfg all_feeds)))
        (stage2Init all_feeds cats)) := Nat.zero_le _
    _ < _ := htr
  | false =>
    rw [hc1] at h
    simp only [Bool.not_false, Bool.true_and] at h
    by_cases hr : cfg.sync.remove_absent_feeds = true
    · rw [if_pos hr] at h
      obtain ⟨f, hf, hpred⟩ := List.any_eq_true.mp h
      unfold stage2Run removalPass
      rw [if_pos hr]
      have hs := removalFold_spec dry ((telegramFeeds cfg all_feeds).filter
        (feedNeedsRemoval (plannedUrls assignments)
          (configuredCategoryIds cfg cats)))
        (assignments.foldl (applyAssignment cfg env dry su
          (existing_feed_by_url (telegramFeeds cfg all_feeds)))
          (stage2Init all_feeds cats))
      unfold actionCount
      rw [hs.1.1, hs.1.2.1, hs.1.2.2.1, hs.2.1]
      have hmem : f ∈ (telegramFeeds cfg all_feeds).filter
          (feedNeedsRemoval (plannedUrls assignments)
            (configuredCategoryIds cfg cats)) :=
        List.mem_filter.mpr ⟨hf, hpred⟩
      have hne : ((telegramFeeds cfg all_feeds).filter
          (feedNeedsRemoval (plannedUrls assignments)
            (configuredCategoryIds cfg cats))).length ≠ 0 := by
        intro h0
        rw [List.length_eq_zero] at h0
        rw [h0] at hmem
        simp at hmem
      simp only [List.length_append, List.length_map]
      omega
    · rw [if_neg hr] at h
      simp at h

/-- C3.  Fast-path/full-diff equivalence: for every configuration,
assignment map, destination feed list and category list, the `changes_needed`
boolean of the pre-pass is false exactly when the full Stage-2 apply pass
over the same inputs classifies zero actions (no add, no move, no title
update, no remove), under the destination-id sanity assumptions that no
managed feed sits in the dry-run dummy category `-1` and server-chosen fresh
category ids never equal a managed feed's category id. -/
theorem fast_path_full_diff_equivalence (cfg : Config) (env : MinifluxEnv)
    (dry_run : Bool) (assignments : List (String × Assignment))
    (all_feeds : List MinifluxFeed) (cats : List MinifluxCategory)
    (henv : EnvOK env (telegramFeeds cfg all_feeds))
    (hfeeds : FeedsOK (telegramFeeds cfg all_feeds)) :
    changes_needed cfg assignments (telegramFeeds cfg all_feeds) cats
        (!cfg.sync.disable_title_updates) = false ↔
      ((stage2Run cfg env dry_run (!cfg.sync.disable_title_updates)
          assignments all_feeds cats).added = [] ∧
       (stage2Run cfg env dry_run (!cfg.sync.disable_title_updates)
          assignments all_feeds cats).moved = [] ∧
       (stage2Run cfg env dry_run (!cfg.sync.disable_title_updates)
          assignments all_feeds cats).updated = [] ∧
       (stage2Run cfg env dry_run (!cfg.sync.disable_title_updates)
          assignments all_feeds cats).removed = []) := by
  constructor
  · intro h
    rw [stage2_noop_of_not_changes cfg env dry_run
      (!cfg.sync.disable_title_updates) assignments all_feeds cats h]
    exact ⟨rfl, rfl, rfl, rfl⟩
  · intro hempty
    cases hcn : changes_needed cfg assignments (telegramFeeds cfg all_feeds)
        cats (!cfg.sync.disable_title_updates) with
    | false => rfl
    | true =>
      have hpos := stage2_action_of_changes cfg env dry_run
        (!cfg.sync.disable_title_updates) assignments all_feeds cats henv
        hfeeds hcn
      unfold actionCount at hpos
      rw [hempty.1, hempty.2.1, hempty.2.2.1, hempty.2.2.2] at hpos
      simp at hpos

/-- Witness for C3 at concrete empty inputs. -/
theorem fast_path_full_diff_equivalence_witness :
    EnvOK sampleEnv (telegramFeeds sampleConfig []) ∧
    FeedsOK (telegramFeeds sampleConfig []) ∧
    (changes_needed sampleConfig [] (telegramFeeds sampleConfig []) []
        (!sampleConfig.sync.disable_title_updates) = false ↔
      ((stage2Run sampleConfig sampleEnv false
          (!sampleConfig.sync.disable_title_updates) [] [] []).added = [] ∧
       (stage2Run sampleConfig sampleEnv false
          (!sampleConfig.sync.disable_title_updates) [] [] []).moved = [] ∧
       (stage2Run sampleConfig sampleEnv false
          (!sampleConfig.sync.disable_title_updates) [] [] []).updated = [] ∧
       (stage2Run sampleConfig sampleEnv false
          (!sampleConfig.sync.disable_title_updates) [] [] []).removed =
         [])) :=
  ⟨fun _ f hf => by simp [telegramFeeds] at hf,
   fun f hf => by simp [telegramFeeds] at hf,
   fast_path_full_diff_equivalence sampleConfig sampleEnv false [] [] []
     (fun _ f hf => by simp [telegramFeeds] at hf)
     (fun f hf => by simp [telegramFeeds] at hf)⟩

/-! ## C6: Add/Remove disjointness under case-insensitive identity -/

lemma removalPass_added (cfg : Config) (dry : Bool)
    (assignments : List (String × Assignment)) (tfeeds : List MinifluxFeed)
    (cats : List MinifluxCategory) (st : ExecState) :
    (removalPass cfg dry assignments tfeeds cats st).added = st.added := by
  unfold removalPass
  by_cases hr : cfg.sync.remove_absent_feeds = true
  · rw [if_pos hr]
    exact (removalFold_spec dry _ st).1.1
  · rw [if_neg hr]

/-- Every `add` action of the fold carries the URL of one of the processed
assignments. -/
lemma applyAssignment_added_urls (cfg : Config) (env : MinifluxEnv)
    (dry su : Bool) (fm : List (String × MinifluxFeed)) (st : ExecState)
    (e : String × Assignment) :
    ∀ a ∈ (applyAssignment cfg env dry su fm st e).added,
      a ∈ st.added ∨ a.feed_url = e.1 := by
  obtain ⟨u, cat, fol, ch⟩ := e
  rw [applyAssignment_def]
  cases hf : dlookup fm (normalize_url_for_comparison u) with
  | some f =>
    rw [(applyExisting_spec cfg dry su _ u cat ch _ f).1,
      (resolveCategory_fields env dry st cat).1]
    exact fun a ha => Or.inl ha
  | none =>
    rw [(applyCreate_spec cfg env dry _ u cat ch _).1,
      (resolveCategory_fields env dry st cat).1]
    intro a ha
    rcases List.mem_append.mp ha with ha | ha
    · exact Or.inl ha
    · right
      have : a = mkAddAction u cat ch := by simpa using ha
      rw [this]
      rfl

lemma applyFold_added_urls (cfg : Config) (env : MinifluxEnv) (dry su : Bool)
    (fm : List (String × MinifluxFeed)) :
    ∀ (es : List (String × Assignment)) (st : ExecState),
      ∀ a ∈ (es.foldl (applyAssignment cfg env dry su fm) st).added,
        a ∈ st.added ∨ ∃ e ∈ es, a.feed_url = e.1
  | [], _, a, ha => Or.inl ha
  | e :: es, st, a, ha => by
    rw [List.foldl_cons] at ha
    rcases applyFold_added_urls cfg env dry su fm es _ a ha with h | ⟨e', he', hu⟩
    · rcases applyAssignment_added_urls cfg env dry su fm st e a h with h2 | h2
      · exact Or.inl h2
      · exact Or.inr ⟨e, List.mem_cons_self e es, h2⟩
    · exact Or.inr ⟨e', List.mem_cons_of_mem e he', hu⟩

/-- The removed list of a Stage-2 pass, in closed form. -/
lemma stage2Run_removed (cfg : Config) (env : MinifluxEnv) (dry su : Bool)
    (assignments : List (String × Assignment))
    (all_feeds : List MinifluxFeed) (cats : List MinifluxCategory) :
    (stage2Run cfg env dry su assignments all_feeds cats).removed =
      if cfg.sync.remove_absent_feeds then
        ((telegramFeeds cfg all_feeds).filter
          (feedNeedsRemoval (plannedUrls assignments)
            (configuredCategoryIds cfg cats))).map
          (mkRemoveAction
            ((assignments.foldl (applyAssignment cfg env dry su
              (existing_feed_by_url (telegramFeeds cfg all_feeds)))
              (stage2Init all_feeds cats)).server_cats))
      else [] := by
  unfold stage2Run removalPass
  by_cases hr : cfg.sync.remove_absent_feeds = true
  · rw [if_pos hr, if_pos hr]
    rw [(removalFold_spec dry _ _).2.1]
    rw [applyFold_removed]
    rfl
  · rw [if_neg hr, if_neg hr]
    rw [applyFold_removed]
    rfl

/-- C6.  Add/Remove disjointness under case-insensitive identity: one run
never classifies both an Add and a Remove for URLs equal after
case-normalization; an added URL is planned, a removed URL is not. -/
theorem add_remove_disjoint (cfg : Config) (env : MinifluxEnv)
    (dry_run : Bool) (channels : List TelegramChannel)
    (feeds : List MinifluxFeed) (cats : List MinifluxCategory) :
    ∀ a ∈ (runSyncCore cfg env dry_run channels feeds cats).result.added_feeds,
    ∀ b ∈ (runSyncCore cfg env dry_run channels feeds
        cats).result.removed_feeds,
      normalize_url_for_comparison a.feed_url ≠
        normalize_url_for_comparison b.feed_url := by
  intro a ha b hb
  unfold runSyncCore at ha hb
  cases hch : changes_needed cfg
      (plan_synchronization cfg (filter_channels cfg channels)).assignments
      (telegramFeeds cfg feeds) cats (!cfg.sync.disable_title_updates) with
  | false =>
    rw [hch] at ha
    simp at ha
  | true =>
    rw [hch] at ha hb
    simp only [Bool.not_true, Bool.false_eq_true, if_false] at ha hb
    -- the added URL is one of the planned assignment URLs
    rw [show (stage2Run cfg env dry_run (!cfg.sync.disable_title_updates)
        (plan_synchronization cfg (filter_channels cfg channels)).assignments
        feeds cats) = removalPass cfg dry_run
        (plan_synchronization cfg (filter_channels cfg channels)).assignments
        (telegramFeeds cfg feeds) cats _ from rfl,
      removalPass_added] at ha
    rcases applyFold_added_urls cfg env dry_run
      (!cfg.sync.disable_title_updates)
      (existing_feed_by_url (telegramFeeds cfg feeds)) _ _ a ha with
      h0 | ⟨e, he, hu⟩
    · simp [stage2Init] at h0
    · -- the removed URL is not planned
      rw [stage2Run_removed] at hb
      by_cases hr : cfg.sync.remove_absent_feeds = true
      · rw [if_pos hr] at hb
        obtain ⟨f, hf, hbf⟩ := List.mem_map.mp hb
        have hpred := (List.mem_filter.mp hf).2
        unfold feedNeedsRemoval at hpred
        have hnp := ((Bool.and_eq_true _ _).mp hpred).2
        have hfurl : b.feed_url = f.feed_url := by rw [← hbf]; rfl
        intro heq
        have hmem : normalize_url_for_comparison a.feed_url ∈
            plannedUrls (plan_synchronization cfg
              (filter_channels cfg channels)).assignments := by
          unfold plannedUrls
          rw [hu]
          exact List.mem_map.mpr ⟨e, he, rfl⟩
        rw [heq, hfurl] at hmem
        rw [Bool.not_eq_true'] at hnp
        have helem := List.elem_eq_true_of_mem hmem
        rw [show (plannedUrls (plan_synchronization cfg
            (filter_channels cfg channels)).assignments).contains
            (normalize_url_for_comparison f.feed_url) =
          (plannedUrls (plan_synchronization cfg
            (filter_channels cfg channels)).assignments).elem
            (normalize_url_for_comparison f.feed_url) from rfl] at hnp
        rw [hnp] at helem
        simp at helem
      · rw [if_neg hr] at hb
        simp at hb

/-! ## C5: scoping of the removal pass -/

/-- The claim's characterization of the feeds classified for removal: a
destination feed is removed exactly when absent-feed removal is enabled, the
feed is managed (tool URL pattern), its case-normalized URL is not among the
case-normalized assignment keys, and its category is one of the configured
target categories. -/
def removeClassifiedSpec (cfg : Config)
    (assignments : List (String × Assignment))
    (all_feeds : List MinifluxFeed) (all_cats : List MinifluxCategory) :
    List MinifluxFeed :=
  if cfg.sync.remove_absent_feeds then
    all_feeds.filter (fun f =>
      is_telegram_feed cfg f.feed_url &&
      !((plannedUrls assignments).contains
        (normalize_url_for_comparison f.feed_url)) &&
      (configuredCategoryIds cfg all_cats).contains f.category_id)
  else []

lemma removeClassifiedSpec_eq_filter (cfg : Config)
    (assignments : List (String × Assignment))
    (all_feeds : List MinifluxFeed) (all_cats : List MinifluxCategory) :
    removeClassifiedSpec cfg assignments all_feeds all_cats =
      if cfg.sync.remove_absent_feeds then
        (telegramFeeds cfg all_feeds).filter
          (feedNeedsRemoval (plannedUrls assignments)
            (configuredCategoryIds cfg all_cats))
      else [] := by
  unfold removeClassifiedSpec telegramFeeds
  by_cases hr : cfg.sync.remove_absent_feeds = true
  · rw [if_pos hr, if_pos hr, List.filter_filter]
    apply List.filter_congr
    intro f _
    unfold feedNeedsRemoval
    cases h1 : is_telegram_feed cfg f.feed_url <;>
      cases h2 : (plannedUrls assignments).contains
        (normalize_url_for_comparison f.feed_url) <;>
      cases h3 : (configuredCategoryIds cfg all_cats).contains
        f.category_id <;> simp [h1, h2, h3]
  · rw [if_neg hr, if_neg hr]

/-- When the pre-pass reports no changes, no feed is classified for
removal. -/
lemma removeClassifiedSpec_nil_of_not_changes (cfg : Config)
    (assignments : List (String × Assignment))
    (all_feeds : List MinifluxFeed) (all_cats : List MinifluxCategory)
    (su : Bool)
    (h : changes_needed cfg assignments (telegramFeeds cfg all_feeds)
      all_cats su = false) :
    removeClassifiedSpec cfg assignments all_feeds all_cats = [] := by
  rw [removeClassifiedSpec_eq_filter]
  by_cases hr : cfg.sync.remove_absent_feeds = true
  · rw [if_pos hr]
    unfold changes_needed at h
    have hc1 : assignments.any (assignmentNeedsChange cfg
        (category_name_to_id all_cats)
        (existing_feed_by_url (telegramFeeds cfg all_feeds)) su) = false := by
      cases hc : assignments.any (assignmentNeedsChange cfg
          (category_name_to_id all_cats)
          (existing_feed_by_url (telegramFeeds cfg all_feeds)) su) with
      | false => rfl
      | true => rw [hc] at h; simp at h
    rw [hc1, hr] at h
    simp at h
    rw [List.filter_eq_nil_iff]
    intro f hf
    have := h f hf
    simpa using this
  · rw [if_neg hr]

lemma map_id_update_cat (l : List MinifluxFeed) (a b : Int) :
    (update_feed_category_model l a b).map (fun f => f.id) =
      l.map (fun f => f.id) := by
  unfold update_feed_category_model
  rw [List.map_map]
  apply List.map_congr_left
  intro f _
  simp only [Function.comp]
  split <;> rfl

lemma map_id_update_title (l : List MinifluxFeed) (a : Int) (t : String) :
    (update_feed_title_model l a t).map (fun f => f.id) =
      l.map (fun f => f.id) := by
  unfold update_feed_title_model
  rw [List.map_map]
  apply List.map_congr_left
  intro f _
  simp only [Function.comp]
  split <;> rfl

lemma existingFeedsEffect_ids (cfg : Config) (su : Bool)
    (l : List MinifluxFeed) (ch : TelegramChannel) (tid : Int)
    (f : MinifluxFeed) :
    (existingFeedsEffect cfg su l ch tid f).map (fun g => g.id) =
      l.map (fun g => g.id) := by
  unfold existingFeedsEffect
  by_cases h1 : (f.category_id == tid) = true <;>
    by_cases h2 : (su && !(new_feed_title cfg ch == f.title)) = true <;>
      simp [h1, h2, map_id_update_cat, map_id_update_title]

lemma applyAssignment_ids_superset (cfg : Config) (env : MinifluxEnv)
    (dry su : Bool) (fm : List (String × MinifluxFeed)) (st : ExecState)
    (e : String × Assignment) (i : Int)
    (h : i ∈ st.server_feeds.map (fun g => g.id)) :
    i ∈ (applyAssignment cfg env dry su fm st e).server_feeds.map
      (fun g => g.id) := by
  obtain ⟨u, cat, fol, ch⟩ := e
  rw [applyAssignment_def]
  have hres := (resolveCategory_fields env dry st cat).2.2.2.2.1
  cases hf : dlookup fm (normalize_url_for_comparison u) with
  | some f =>
    cases dry with
    | true =>
      rw [applyExisting_server_feeds_dry, hres]
      exact h
    | false =>
      rw [applyExisting_server_feeds_live, existingFeedsEffect_ids, hres]
      exact h
  | none =>
    cases dry with
    | true =>
      rw [(applyCreate_server_feeds_dry cfg env _ u cat ch _).1, hres]
      exact h
    | false =>
      rw [(applyCreate_server_feeds_live cfg env _ u cat ch _).1,
        List.map_append, hres]
      exact List.mem_append.mpr (Or.inl h)

lemma applyFold_ids_superset (cfg : Config) (env : MinifluxEnv)
    (dry su : Bool) (fm : List (String × MinifluxFeed)) :
    ∀ (es : List (String × Assignment)) (st : ExecState) (i : Int),
      i ∈ st.server_feeds.map (fun g => g.id) →
      i ∈ ((es.foldl (applyAssignment cfg env dry su fm) st)).server_feeds.map
        (fun g => g.id)
  | [], _, _, h => h
  | e :: es, st, i, h => by
    rw [List.foldl_cons]
    exact applyFold_ids_superset cfg env dry su fm es _ i
      (applyAssignment_ids_superset cfg env dry su fm st e i h)

lemma delete_fold_preserve (dry : Bool) :
    ∀ (fs : List MinifluxFeed) (l : List MinifluxFeed) (i : Int),
      i ∈ l.map (fun g => g.id) → (∀ d ∈ fs, d.id ≠ i) →
      i ∈ (fs.foldl (fun l d => if dry then l else delete_feed_model l d.id)
        l).map (fun g => g.id)
  | [], _, _, h, _ => h
  | d :: fs, l, i, h, hd => by
    rw [List.foldl_cons]
    refine delete_fold_preserve dry fs _ i ?_
      (fun x hx => hd x (List.mem_cons_of_mem d hx))
    cases dry with
    | true => simpa using h
    | false =>
      simp only [Bool.false_eq_true, if_false]
      obtain ⟨g, hg, hgi⟩ := List.mem_map.mp h
      refine List.mem_map.mpr ⟨g, ?_, hgi⟩
      unfold delete_feed_model
      refine List.mem_filter.mpr ⟨hg, ?_⟩
      have : g.id ≠ d.id := by
        rw [hgi]
        exact fun hc => hd d (List.mem_cons_self d fs) hc.symm
      simpa using this

/-- C5.  Remove scoping: a destination feed is classified as Remove exactly
when `remove_absent_feeds` is enabled, the feed is managed, its
case-normalized URL is not among the case-normalized assignment keys, and
its category is one of the configured target categories (first conjunct,
as an equality of projected action lists); and a feed outside that
classification is never deleted: its id survives in the destination state
(second conjunct). -/
theorem remove_scoping (cfg : Config) (env : MinifluxEnv) (dry_run : Bool)
    (channels : List TelegramChannel) (feeds : List MinifluxFeed)
    (cats : List MinifluxCategory)
    (hids : (feeds.map (fun f => f.id)).Nodup) :
    ((runSyncCore cfg env dry_run channels feeds
        cats).result.removed_feeds.map
        (fun a => (a.action, a.channel_title, a.feed_url)) =
      (removeClassifiedSpec cfg
        (plan_synchronization cfg (filter_channels cfg channels)).assignments
        feeds cats).map (fun f => ("remove", f.title, f.feed_url))) ∧
    (∀ f ∈ feeds, f ∉ removeClassifiedSpec cfg
        (plan_synchronization cfg (filter_channels cfg channels)).assignments
        feeds cats →
      f.id ∈ (runSyncCore cfg env dry_run channels feeds
        cats).server_feeds.map (fun g => g.id)) := by
  unfold runSyncCore
  cases hch : changes_needed cfg
      (plan_synchronization cfg (filter_channels cfg channels)).assignments
      (telegramFeeds cfg feeds) cats (!cfg.sync.disable_title_updates) with
  | false =>
    simp only [Bool.not_false, if_pos]
    constructor
    · rw [removeClassifiedSpec_nil_of_not_changes cfg _ feeds cats
        (!cfg.sync.disable_title_updates) hch]
      rfl
    · intro f hf _
      exact List.mem_map.mpr ⟨f, hf, rfl⟩
  | true =>
    simp only [Bool.not_true, Bool.false_eq_true, if_false]
    constructor
    · rw [stage2Run_removed, removeClassifiedSpec_eq_filter]
      by_cases hr : cfg.sync.remove_absent_feeds = true
      · rw [if_pos hr, if_pos hr, List.map_map]
        rfl
      · rw [if_neg hr, if_neg hr]
        rfl
    · intro f hf hnot
      unfold stage2Run removalPass
      by_cases hr : cfg.sync.remove_absent_feeds = true
      · rw [if_pos hr]
        rw [(removalFold_spec dry_run _ _).2.2]
        refine delete_fold_preserve dry_run _ _ f.id ?_ ?_
        · exact applyFold_ids_superset cfg env dry_run
            (!cfg.sync.disable_title_updates) _ _ _ f.id
            (List.mem_map.mpr ⟨f, hf, rfl⟩)
        · intro d hd
          have hdf : d ∈ feeds := by
            have := (List.mem_filter.mp hd).1
            exact (List.mem_filter.mp this).1
          intro hdi
          have hfd : d = f := List.inj_on_of_nodup_map hids hdf hf hdi
          apply hnot
          rw [removeClassifiedSpec_eq_filter, if_pos hr]
          rw [← hfd]
          exact hd
      · rw [if_neg hr]
        exact applyFold_ids_superset cfg env dry_run
          (!cfg.sync.disable_title_updates) _ _ _ f.id
          (List.mem_map.mpr ⟨f, hf, rfl⟩)

/-- A managed feed in an unconfigured category, for the C5 witness. -/
def feedC5 : MinifluxFeed :=
  { id := 8, title := "Other", feed_url := "http://x/telegram/channel/other",
    category_id := 99 }

/-- Witness for C5: with no configured folders and one managed feed in an
unconfigured category, nothing is classified for removal and the feed
survives. -/
theorem remove_scoping_witness :
    (([feedC5].map (fun f => f.id)).Nodup) ∧
    ((runSyncCore sampleConfig sampleEnv false [] [feedC5]
        []).result.removed_feeds.map
        (fun a => (a.action, a.channel_title, a.feed_url)) =
      (removeClassifiedSpec sampleConfig
        (plan_synchronization sampleConfig
          (filter_channels sampleConfig [])).assignments
        [feedC5] []).map (fun f => ("remove", f.title, f.feed_url))) ∧
    (∀ f ∈ [feedC5], f ∉ removeClassifiedSpec sampleConfig
        (plan_synchronization sampleConfig
          (filter_channels sampleConfig [])).assignments [feedC5] [] →
      f.id ∈ (runSyncCore sampleConfig sampleEnv false [] [feedC5]
        []).server_feeds.map (fun g => g.id)) :=
  ⟨by decide,
   (remove_scoping sampleConfig sampleEnv false [] [feedC5] []
     (by decide)).1,
   (remove_scoping sampleConfig sampleEnv false [] [feedC5] []
     (by decide)).2⟩

/-! ## C1: dry-run/live symmetry -/

lemma get_category_name_append (cats ext : List MinifluxCategory)
    (cid : Int) (h : ∀ c ∈ ext, c.id ≠ cid) :
    get_category_name_by_id (cats ++ ext) cid =
      get_category_name_by_id cats cid := by
  unfold get_category_name_by_id
  rw [List.find?_append]
  cases hc : cats.find? (fun c => c.id == cid) with
  | some c => rfl
  | none =>
    have hext : ext.find? (fun c => c.id == cid) = none := by
      rw [List.find?_eq_none]
      intro c hcm
      simpa using h c hcm
    rw [hext]
    rfl

lemma resolveCategory_dry_snd (env : MinifluxEnv) (d : ExecState)
    (cat : String) : (resolveCategory env true d cat).2 = d := by
  unfold resolveCategory
  cases dlookup d.cache cat <;> rfl

/-- Simulation between a dry-run Stage-2 state and the live Stage-2 state
after the same processed prefix: equal action lists; the dry state never
mutates the cache or the categories; the live state has only appended
categories whose server-chosen ids avoid every managed feed's category
id. -/
def DryLiveSim (cats : List MinifluxCategory) (tfeeds : List MinifluxFeed)
    (catmap : List (String × Int)) (d l : ExecState) : Prop :=
  d.added = l.added ∧ d.moved = l.moved ∧ d.updated = l.updated ∧
  d.removed = l.removed ∧ d.cache = catmap ∧ d.server_cats = cats ∧
  (∃ ext, l.server_cats = cats ++ ext ∧
    ∀ c ∈ ext, ∀ f ∈ tfeeds, c.id ≠ f.category_id) ∧
  CacheInv catmap tfeeds l

lemma applyAssignment_dry_live (cfg : Config) (env : MinifluxEnv)
    (su : Bool) (cats : List MinifluxCategory)
    (tfeeds : List MinifluxFeed) (catmap : List (String × Int))
    (d l : ExecState) (e : String × Assignment)
    (hfeeds : FeedsOK tfeeds) (henv : EnvOK env tfeeds)
    (hsim : DryLiveSim cats tfeeds catmap d l) :
    DryLiveSim cats tfeeds catmap
      (applyAssignment cfg env true su (existing_feed_by_url tfeeds) d e)
      (applyAssignment cfg env false su (existing_feed_by_url tfeeds) l e) := by
  obtain ⟨u, cat, fol, ch⟩ := e
  obtain ⟨ha, hm, hu2, hr2, hdc, hdsc, ⟨ext, hlsc, hext⟩, hlinv⟩ := hsim
  rw [applyAssignment_def, applyAssignment_def]
  -- resolve the category on both sides
  have hkey : ∀ (tid_d tid_l : Int) (l' : ExecState),
      (resolveCategory env true d cat) = (tid_d, d) →
      (resolveCategory env false l cat) = (tid_l, l') →
      DryLiveSim cats tfeeds catmap d l' →
      (tid_d = tid_l ∨
        (∀ f ∈ tfeeds, f.category_id ≠ tid_d ∧ f.category_id ≠ tid_l)) →
      DryLiveSim cats tfeeds catmap
        (match dlookup (existing_feed_by_url tfeeds)
            (normalize_url_for_comparison u) with
          | some f => applyExisting cfg true su
              (resolveCategory env true d cat).2 u cat ch
              (resolveCategory env true d cat).1 f
          | none => applyCreate cfg env true
              (resolveCategory env true d cat).2 u cat ch
              (resolveCategory env true d cat).1)
        (match dlookup (existing_feed_by_url tfeeds)
            (normalize_url_for_comparison u) with
          | some f => applyExisting cfg false su
              (resolveCategory env false l cat).2 u cat ch
              (resolveCategory env false l cat).1 f
          | none => applyCreate cfg env false
              (resolveCategory env false l cat).2 u cat ch
              (resolveCategory env false l cat).1) := by
    intro tid_d tid_l l' hrd hrl hsim' htid
    obtain ⟨ha', hm', hu2', hr2', hdc', hdsc', ⟨ext', hlsc', hext'⟩,
      hlinv'⟩ := hsim'
    rw [hrd, hrl]
    cases hf : dlookup (existing_feed_by_url tfeeds)
        (normalize_url_for_comparison u) with
    | some f =>
      have hfm := (feedmap_some tfeeds _ f hf).1
      have hbeq : (f.category_id == tid_d) = (f.category_id == tid_l) := by
        rcases htid with htid | htid
        · rw [htid]
        · have h1 : (f.category_id == tid_d) = false := by
            simp only [beq_eq_false_iff_ne]
            exact (htid f hfm).1
          have h2 : (f.category_id == tid_l) = false := by
            simp only [beq_eq_false_iff_ne]
            exact (htid f hfm).2
          rw [h1, h2]
      have hsd := applyExisting_spec cfg true su d u cat ch tid_d f
      have hsl := applyExisting_spec cfg false su l' u cat ch tid_l f
      have hname : mkMoveAction d.server_cats u cat ch f =
          mkMoveAction l'.server_cats u cat ch f := by
        unfold mkMoveAction
        rw [hdsc', hlsc', get_category_name_append cats ext' f.category_id
          (fun c hc => hext' c hc f hfm)]
      refine ⟨?_, ?_, ?_, ?_, ?_, ?_, ?_, ?_⟩
      · rw [hsd.1, hsl.1, ha']
      · rw [hsd.2.2.2.2.2.2.1, hsl.2.2.2.2.2.2.1, hm', hbeq, hname]
      · rw [hsd.2.2.2.2.2.2.2, hsl.2.2.2.2.2.2.2, hu2']
      · rw [hsd.2.1, hsl.2.1, hr2']
      · rw [hsd.2.2.1, hdc']
      · rw [hsd.2.2.2.1, hdsc']
      · exact ⟨ext', by rw [hsl.2.2.2.1, hlsc'], hext'⟩
      · obtain ⟨cp, hcp1, hcp2⟩ := hlinv'
        exact ⟨cp, by rw [hsl.2.2.1, hcp1], hcp2⟩
    | none =>
      have hsd := applyCreate_spec cfg env true d u cat ch tid_d
      have hsl := applyCreate_spec cfg env false l' u cat ch tid_l
      refine ⟨?_, ?_, ?_, ?_, ?_, ?_, ?_, ?_⟩
      · rw [hsd.1, hsl.1, ha']
      · rw [hsd.2.1, hsl.2.1, hm']
      · rw [hsd.2.2.1, hsl.2.2.1, hu2']
      · rw [hsd.2.2.2.1, hsl.2.2.2.1, hr2']
      · rw [hsd.2.2.2.2.1, hdc']
      · rw [hsd.2.2.2.2.2.1, hdsc']
      · exact ⟨ext', by rw [hsl.2.2.2.2.2.1, hlsc'], hext'⟩
      · obtain ⟨cp, hcp1, hcp2⟩ := hlinv'
        exact ⟨cp, by rw [hsl.2.2.2.2.1, hcp1], hcp2⟩
  cases hcm : dlookup catmap cat with
  | some i =>
    have hrd : resolveCategory env true d cat = (i, d) :=
      resolveCategory_some env true d cat i (by rw [hdc]; exact hcm)
    have hrl : resolveCategory env false l cat = (i, l) :=
      resolveCategory_some env false l cat i
        (cacheInv_lookup_some hlinv cat i hcm)
    exact hkey i i l hrd hrl
      ⟨ha, hm, hu2, hr2, hdc, hdsc, ⟨ext, hlsc, hext⟩, hlinv⟩ (Or.inl rfl)
  | none =>
    have hrd : resolveCategory env true d cat = (-1, d) := by
      apply resolveCategory_none_dry
      rw [hdc]
      exact hcm
    rcases cacheInv_lookup_none hlinv cat hcm with hlc | ⟨j, hlc, hj⟩
    · have hrl := resolveCategory_none_live env l cat hlc
      refine hkey (-1) (env.fresh_cat_id l.cat_count) _ hrd hrl ?_ ?_
      · refine ⟨ha, hm, hu2, hr2, hdc, hdsc, ?_, ?_⟩
        · refine ⟨ext ++
            [MinifluxCategory.mk (env.fresh_cat_id l.cat_count) cat],
            ?_, ?_⟩
          · show l.server_cats ++ _ = cats ++ _
            rw [hlsc, List.append_assoc]
          · intro c hc f hfm
            rcases List.mem_append.mp hc with hc | hc
            · exact hext c hc f hfm
            · have hcc : c = MinifluxCategory.mk
                  (env.fresh_cat_id l.cat_count) cat := by simpa using hc
              rw [hcc]
              exact henv l.cat_count f hfm
        · obtain ⟨cp, hcp1, hcp2⟩ := hlinv
          refine ⟨cp ++ [(cat, env.fresh_cat_id l.cat_count)], ?_, ?_⟩
          · show l.cache ++ _ = catmap ++ _
            rw [hcp1, List.append_assoc]
          · intro q hq
            rcases List.mem_append.mp hq with hq | hq
            · exact hcp2 q hq
            · have : q = (cat, env.fresh_cat_id l.cat_count) := by
                simpa using hq
              rw [this]
              exact ⟨hcm, fun f hfm => henv l.cat_count f hfm⟩
      · right
        intro f hfm
        exact ⟨hfeeds f hfm, fun hc => henv l.cat_count f hfm hc.symm⟩
    · have hrl : resolveCategory env false l cat = (j, l) :=
        resolveCategory_some env false l cat j hlc
      refine hkey (-1) j l hrd hrl
        ⟨ha, hm, hu2, hr2, hdc, hdsc, ⟨ext, hlsc, hext⟩, hlinv⟩ ?_
      right
      intro f hfm
      exact ⟨fun hc => hfeeds f hfm hc, fun hc => hj f hfm hc.symm⟩

lemma applyFold_dry_live (cfg : Config) (env : MinifluxEnv) (su : Bool)
    (cats : List MinifluxCategory) (tfeeds : List MinifluxFeed)
    (catmap : List (String × Int)) (hfeeds : FeedsOK tfeeds)
    (henv : EnvOK env tfeeds) :
    ∀ (es : List (String × Assignment)) (d l : ExecState),
      DryLiveSim cats tfeeds catmap d l →
      DryLiveSim cats tfeeds catmap
        (es.foldl (applyAssignment cfg env true su
          (existing_feed_by_url tfeeds)) d)
        (es.foldl (applyAssignment cfg env false su
          (existing_feed_by_url tfeeds)) l)
  | [], _, _, h => h
  | e :: es, d, l, h => by
    rw [List.foldl_cons, List.foldl_cons]
    exact applyFold_dry_live cfg env su cats tfeeds catmap hfeeds henv es _ _
      (applyAssignment_dry_live cfg env su cats tfeeds catmap d l e hfeeds
        henv h)

/-- The four action lists of a dry Stage-2 pass equal those of a live
Stage-2 pass on the same snapshot. -/
lemma stage2Run_dry_live (cfg : Config) (env : MinifluxEnv) (su : Bool)
    (assignments : List (String × Assignment))
    (all_feeds : List MinifluxFeed) (cats : List MinifluxCategory)
    (hfeeds : FeedsOK (telegramFeeds cfg all_feeds))
    (henv : EnvOK env (telegramFeeds cfg all_feeds)) :
    (stage2Run cfg env true su assignments all_feeds cats).added =
      (stage2Run cfg env false su assignments all_feeds cats).added ∧
    (stage2Run cfg env true su assignments all_feeds cats).moved =
      (stage2Run cfg env false su assignments all_feeds cats).moved ∧
    (stage2Run cfg env true su assignments all_feeds cats).updated =
      (stage2Run cfg env false su assignments all_feeds cats).updated ∧
    (stage2Run cfg env true su assignments all_feeds cats).removed =
      (stage2Run cfg env false su assignments all_feeds cats).removed := by
  have hsim0 : DryLiveSim cats (telegramFeeds cfg all_feeds)
      (category_name_to_id cats) (stage2Init all_feeds cats)
      (stage2Init all_feeds cats) := by
    refine ⟨rfl, rfl, rfl, rfl, rfl, rfl, ⟨[], by simp [stage2Init], by simp⟩,
      ⟨[], by simp [stage2Init], by simp⟩⟩
  have hsim := applyFold_dry_live cfg env su cats
    (telegramFeeds cfg all_feeds) (category_name_to_id cats) hfeeds henv
    assignments (stage2Init all_feeds cats) (stage2Init all_feeds cats) hsim0
  obtain ⟨ha, hm, hu2, hr2, hdc, hdsc, ⟨ext, hlsc, hext⟩, hlinv⟩ := hsim
  unfold stage2Run removalPass
  by_cases hr : cfg.sync.remove_absent_feeds = true
  · rw [if_pos hr, if_pos hr]
    have hsd := removalFold_spec true ((telegramFeeds cfg all_feeds).filter
      (feedNeedsRemoval (plannedUrls assignments)
        (configuredCategoryIds cfg cats)))
      (assignments.foldl (applyAssignment cfg env true su
        (existing_feed_by_url (telegramFeeds cfg all_feeds)))
        (stage2Init all_feeds cats))
    have hsl := removalFold_spec false ((telegramFeeds cfg all_feeds).filter
      (feedNeedsRemoval (plannedUrls assignments)
        (configuredCategoryIds cfg cats)))
      (assignments.foldl (applyAssignment cfg env false su
        (existing_feed_by_url (telegramFeeds cfg all_feeds)))
        (stage2Init all_feeds cats))
    refine ⟨?_, ?_, ?_, ?_⟩
    · rw [hsd.1.1, hsl.1.1, ha]
    · rw [hsd.1.2.1, hsl.1.2.1, hm]
    · rw [hsd.1.2.2.1, hsl.1.2.2.1, hu2]
    · rw [hsd.2.1, hsl.2.1, hr2, hdsc, hlsc]
      congr 1
      apply List.map_congr_left
      intro f hfm
      have hfm2 : f ∈ telegramFeeds cfg all_feeds :=
        (List.mem_filter.mp hfm).1
      unfold mkRemoveAction
      rw [get_category_name_append cats ext f.category_id
        (fun c hc => hext c hc f hfm2)]
  · rw [if_neg hr, if_neg hr]
    exact ⟨ha, hm, hu2, hr2⟩

/-- C1.  Dry-run/live symmetry: for a fixed configuration and fixed
snapshots of source channels, destination feeds and destination categories,
a dry run and a live run of `sync_folders` classify exactly the same
multiset of actions (kind, feed URL, category name, across the four action
lists); the modes differ only in whether the adapter mutations are issued.
Assumes adapter mutations succeed, no managed feed sits in the dry-run dummy
category `-1`, and server-chosen fresh category ids avoid the managed
feeds' category ids. -/
theorem dry_run_live_symmetry (cfg : Config) (env : MinifluxEnv)
    (channels : List TelegramChannel) (feeds : List MinifluxFeed)
    (cats : List MinifluxCategory)
    (hfeeds : FeedsOK (telegramFeeds cfg feeds))
    (henv : EnvOK env (telegramFeeds cfg feeds)) :
    Multiset.ofList
      ((((runSyncCore cfg env true channels feeds cats).result.added_feeds ++
         (runSyncCore cfg env true channels feeds cats).result.removed_feeds ++
         (runSyncCore cfg env true channels feeds cats).result.updated_titles ++
         (runSyncCore cfg env true channels feeds cats).result.moved_feeds)).map
        (fun a => (a.action, a.feed_url, a.category_name))) =
    Multiset.ofList
      ((((runSyncCore cfg env false channels feeds cats).result.added_feeds ++
         (runSyncCore cfg env false channels feeds cats).result.removed_feeds ++
         (runSyncCore cfg env false channels feeds cats).result.updated_titles ++
         (runSyncCore cfg env false channels feeds cats).result.moved_feeds)).map
        (fun a => (a.action, a.feed_url, a.category_name))) := by
  unfold runSyncCore
  cases hch : changes_needed cfg
      (plan_synchronization cfg (filter_channels cfg channels)).assignments
      (telegramFeeds cfg feeds) cats (!cfg.sync.disable_title_updates) with
  | false => simp
  | true =>
    simp only [Bool.not_true, Bool.false_eq_true, if_false]
    have hs := stage2Run_dry_live cfg env (!cfg.sync.disable_title_updates)
      (plan_synchronization cfg (filter_channels cfg channels)).assignments
      feeds cats hfeeds henv
    rw [hs.1, hs.2.1, hs.2.2.1, hs.2.2.2]

/-- Witness for C1 at a concrete input: one public channel, an empty
destination. -/
theorem dry_run_live_symmetry_witness :
    FeedsOK (telegramFeeds cfgC2 []) ∧ EnvOK sampleEnv (telegramFeeds cfgC2 []) ∧
    Multiset.ofList
      ((((runSyncCore cfgC2 sampleEnv true [chC2a] [] []).result.added_feeds ++
         (runSyncCore cfgC2 sampleEnv true [chC2a] [] []).result.removed_feeds ++
         (runSyncCore cfgC2 sampleEnv true [chC2a] [] []).result.updated_titles ++
         (runSyncCore cfgC2 sampleEnv true [chC2a] [] []).result.moved_feeds)).map
        (fun a => (a.action, a.feed_url, a.category_name))) =
    Multiset.ofList
      ((((runSyncCore cfgC2 sampleEnv false [chC2a] [] []).result.added_feeds ++
         (runSyncCore cfgC2 sampleEnv false [chC2a] [] []).result.removed_feeds ++
         (runSyncCore cfgC2 sampleEnv false [chC2a] [] []).result.updated_titles ++
         (runSyncCore cfgC2 sampleEnv false [chC2a] [] []).result.moved_feeds)).map
        (fun a => (a.action, a.feed_url, a.category_name))) :=
  ⟨fun f hf => by simp [telegramFeeds] at hf,
   fun _ f hf => by simp [telegramFeeds] at hf,
   dry_run_live_symmetry cfgC2 sampleEnv [chC2a] [] []
     (fun f hf => by simp [telegramFeeds] at hf)
     (fun _ f hf => by simp [telegramFeeds] at hf)⟩

/-! ## C4: planner+diff idempotence

`create_feed` skips the client-side title update when the custom title is
falsy (miniflux_client.py, lines 256-286, `if title and title != feed.title`),
so a channel whose effective feed title is empty keeps the server's
auto-detected title, and a second diff still requests a title update.  The
planner+diff pair is therefore idempotent only when every planned channel has
a nonempty effective title, alongside snapshot-hygiene assumptions. -/

/-- A truthy custom title survives `create_feed` verbatim. -/
lemma create_feed_result_title_of_ne (env : MinifluxEnv) (u t : String)
    (h : ¬ t = "") : create_feed_result_title env u t = t := by
  unfold create_feed_result_title
  by_cases ha : t = env.auto_title u
  · simp [ha]
  · simp [h, ha]

/-- A character list starts with itself before any continuation. -/
lemma startsWithCh_self_append : ∀ (p l : List Char),
    startsWithCh p (p ++ l) = true
  | [], _ => rfl
  | c :: p, l => by
    show (c == c && startsWithCh p (p ++ l)) = true
    rw [startsWithCh_self_append p l]
    simp

lemma containsSubCh_of_startsWith (pat : List Char) :
    ∀ l : List Char, startsWithCh pat l = true → containsSubCh pat l = true
  | [], h => h
  | c :: cs, h => by
    show (startsWithCh pat (c :: cs) || containsSubCh pat cs) = true
    rw [h]
    rfl

lemma containsSubCh_cons (pat : List Char) (c : Char) (l : List Char)
    (h : containsSubCh pat l = true) : containsSubCh pat (c :: l) = true := by
  show (startsWithCh pat (c :: l) || containsSubCh pat l) = true
  rw [h]
  simp

lemma containsSubCh_append_left (pat : List Char) :
    ∀ (a l : List Char), containsSubCh pat l = true →
      containsSubCh pat (a ++ l) = true
  | [], _, h => h
  | c :: a, l, h => by
    show containsSubCh pat (c :: (a ++ l)) = true
    exact containsSubCh_cons pat c (a ++ l)
      (containsSubCh_append_left pat a l h)

/-- `rstrip` only removes characters from the end: the result is a prefix. -/
lemma rstripSlash_prefix (s : String) :
    ∃ l, s.data = (rstripSlash s).data ++ l := by
  refine ⟨(s.data.reverse.takeWhile (fun c => c == Char.ofNat 47)).reverse, ?_⟩
  show s.data =
    (s.data.reverse.dropWhile (fun c => c == Char.ofNat 47)).reverse ++
      (s.data.reverse.takeWhile (fun c => c == Char.ofNat 47)).reverse
  calc s.data = s.data.reverse.reverse := (List.reverse_reverse _).symm
    _ = ((s.data.reverse.takeWhile (fun c => c == Char.ofNat 47)) ++
          (s.data.reverse.dropWhile (fun c => c == Char.ofNat 47))).reverse := by
        rw [List.takeWhile_append_dropWhile]
    _ = _ := List.reverse_append _ _

/-- Any URL of the shape the builder produces is recognized as managed. -/
lemma is_telegram_append (cfg : Config) (x : String) :
    is_telegram_feed cfg
      (cfg.rsshub.base_url ++ "/telegram/channel/" ++ x) = true := by
  obtain ⟨l2, hl2⟩ := rstripSlash_prefix cfg.rsshub.base_url
  unfold is_telegram_feed strStartsWith strContainsSub
  rw [Bool.and_eq_true]
  constructor
  · have hd : (cfg.rsshub.base_url ++ "/telegram/channel/" ++ x).data =
        (rstripSlash cfg.rsshub.base_url).data ++
          (l2 ++ (("/telegram/channel/" : String).data ++ x.data)) := by
      simp [hl2, List.append_assoc]
    rw [hd]
    exact startsWithCh_self_append _ _
  · have hd : (cfg.rsshub.base_url ++ "/telegram/channel/" ++ x).data =
        cfg.rsshub.base_url.data ++
          (("/telegram/channel/" : String).data ++ x.data) := by
      simp [List.append_assoc]
    rw [hd]
    exact containsSubCh_append_left _ _ _
      (containsSubCh_of_startsWith _ _ (startsWithCh_self_append _ _))

/-- Every nonempty URL the builder returns is recognized as managed. -/
lemma is_telegram_build (cfg : Config) (ch : TelegramChannel)
    (h : ¬ build_rss_url cfg ch = "") :
    is_telegram_feed cfg (build_rss_url cfg ch) = true := by
  by_cases hp : ch.is_private = true
  · by_cases hm : cfg.sync.private_feed_mode = "skip"
    · exact absurd (by simp [build_rss_url, hp, hm]) h
    · by_cases hh : optStrTruthy ch.channel_hash = true
      · have hb : build_rss_url cfg ch =
            cfg.rsshub.base_url ++ "/telegram/channel/" ++
              (toString ch.id.natAbs ++ "?" ++ "secret=" ++
                quotePlus (ch.channel_hash.getD "")) := by
          simp [build_rss_url, hp, hm, hh, String.append_assoc]
        rw [hb]
        exact is_telegram_append cfg _
      · have hb : build_rss_url cfg ch =
            cfg.rsshub.base_url ++ "/telegram/channel/" ++
              toString ch.id.natAbs := by
          simp [build_rss_url, hp, hm, hh]
        rw [hb]
        exact is_telegram_append cfg _
  · by_cases hu : optStrTruthy ch.username = true
    · have hb : build_rss_url cfg ch =
          cfg.rsshub.base_url ++ "/telegram/channel/" ++
            pyLower (ch.username.getD "") := by
        simp [build_rss_url, hp, hu]
      rw [hb]
      exact is_telegram_append cfg _
    · exact absurd (by simp [build_rss_url, hp, hu]) h

/-- The `existing_feed_by_url` lookup rebuilt over an arbitrary current feed
list: the last managed feed with the looked-up normalized URL wins. -/
def feedByUrl (cfg : Config) (feeds : List MinifluxFeed) (k : String) :
    Option MinifluxFeed :=
  dlookup (existing_feed_by_url (telegramFeeds cfg feeds)) k

lemma feedByUrl_some_mem (cfg : Config) (l : List MinifluxFeed) (k : String)
    (w : MinifluxFeed) (h : feedByUrl cfg l k = some w) :
    w ∈ l ∧ normalize_url_for_comparison w.feed_url = k := by
  unfold feedByUrl at h
  have hs := feedmap_some _ _ _ h
  exact ⟨List.mem_of_mem_filter hs.1, hs.2⟩

lemma telegramFeeds_map (cfg : Config) (φ : MinifluxFeed → MinifluxFeed)
    (hu : ∀ f, (φ f).feed_url = f.feed_url) :
    ∀ l : List MinifluxFeed,
      telegramFeeds cfg (l.map φ) = (telegramFeeds cfg l).map φ
  | [] => rfl
  | f :: l => by
    have ih := telegramFeeds_map cfg φ hu l
    unfold telegramFeeds at ih ⊢
    simp only [List.map_cons, List.filter_cons, hu f]
    cases ht : is_telegram_feed cfg f.feed_url <;> simp [ht, ih]

lemma alookup_feed_pairs_map (φ : MinifluxFeed → MinifluxFeed)
    (hu : ∀ f, (φ f).feed_url = f.feed_url) (k : String) :
    ∀ rl : List MinifluxFeed,
      alookup (rl.map
          (fun f => (normalize_url_for_comparison (φ f).feed_url, φ f))) k =
        Option.map φ (alookup (rl.map
          (fun f => (normalize_url_for_comparison f.feed_url, f))) k)
  | [] => rfl
  | f :: rl => by
    simp only [List.map_cons, alookup, hu f]
    by_cases hk : normalize_url_for_comparison f.feed_url = k
    · simp [hk]
    · simp only [hk, if_false]
      exact alookup_feed_pairs_map φ hu k rl

/-- Element-wise URL-preserving rewrites of the feed list leave the URL
lookup pointwise transformed. -/
lemma feedByUrl_map (cfg : Config) (φ : MinifluxFeed → MinifluxFeed)
    (hu : ∀ f, (φ f).feed_url = f.feed_url) (l : List MinifluxFeed)
    (k : String) :
    feedByUrl cfg (l.map φ) k = Option.map φ (feedByUrl cfg l k) := by
  unfold feedByUrl dlookup existing_feed_by_url
  rw [telegramFeeds_map cfg φ hu l, List.map_map, ← List.map_reverse,
    ← List.map_reverse]
  exact alookup_feed_pairs_map φ hu k (telegramFeeds cfg l).reverse

lemma feedByUrl_append_hit (cfg : Config) (l : List MinifluxFeed)
    (n : MinifluxFeed) (k : String)
    (ht : is_telegram_feed cfg n.feed_url = true)
    (hk : normalize_url_for_comparison n.feed_url = k) :
    feedByUrl cfg (l ++ [n]) k = some n := by
  unfold feedByUrl dlookup existing_feed_by_url telegramFeeds
  rw [List.filter_append]
  simp [ht, alookup, hk]

lemma feedByUrl_append_miss (cfg : Config) (l : List MinifluxFeed)
    (n : MinifluxFeed) (k : String)
    (hk : ¬ normalize_url_for_comparison n.feed_url = k) :
    feedByUrl cfg (l ++ [n]) k = feedByUrl cfg l k := by
  unfold feedByUrl dlookup existing_feed_by_url telegramFeeds
  rw [List.filter_append]
  cases ht : is_telegram_feed cfg n.feed_url with
  | false => simp [ht]
  | true => simp [ht, alookup, hk]

lemma alookup_feed_pairs_filter (q : MinifluxFeed → Bool) (k : String) :
    ∀ rl : List MinifluxFeed,
      (∀ f ∈ rl, normalize_url_for_comparison f.feed_url = k → q f = true) →
      alookup ((rl.filter q).map
          (fun f => (normalize_url_for_comparison f.feed_url, f))) k =
        alookup (rl.map
          (fun f => (normalize_url_for_comparison f.feed_url, f))) k
  | [], _ => rfl
  | f :: rl, hq => by
    have ih := alookup_feed_pairs_filter q k rl
      (fun g hg => hq g (List.mem_cons_of_mem f hg))
    by_cases hqf : q f = true
    · rw [List.filter_cons_of_pos hqf]
      simp only [List.map_cons, alookup]
      by_cases hk : normalize_url_for_comparison f.feed_url = k
      · simp [hk]
      · simp only [hk, if_false]
        exact ih
    · have hk : ¬ normalize_url_for_comparison f.feed_url = k :=
        fun hkk => hqf (hq f (List.mem_cons_self f rl) hkk)
      rw [List.filter_cons_of_neg hqf]
      simp only [List.map_cons, alookup, hk, if_false]
      exact ih

/-- Filtering away only feeds outside the looked-up URL group preserves the
lookup. -/
lemma feedByUrl_filter (cfg : Config) (q : MinifluxFeed → Bool)
    (l : List MinifluxFeed) (k : String)
    (hq : ∀ f ∈ l, normalize_url_for_comparison f.feed_url = k → q f = true) :
    feedByUrl cfg (l.filter q) k = feedByUrl cfg l k := by
  have hc : telegramFeeds cfg (l.filter q) = (telegramFeeds cfg l).filter q := by
    unfold telegramFeeds
    rw [List.filter_filter, List.filter_filter]
    apply List.filter_congr
    intro f _
    rw [Bool.and_comm]
  unfold feedByUrl dlookup existing_feed_by_url
  rw [hc, ← List.map_reverse, ← List.map_reverse, ← List.filter_reverse]
  exact alookup_feed_pairs_filter q k (telegramFeeds cfg l).reverse
    (fun f hf => hq f (List.mem_of_mem_filter (List.mem_reverse.mp hf)))

lemma feedByUrl_delete (cfg : Config) (l : List MinifluxFeed) (a : Int)
    (k : String)
    (h : ∀ f ∈ l, normalize_url_for_comparison f.feed_url = k → ¬ f.id = a) :
    feedByUrl cfg (delete_feed_model l a) k = feedByUrl cfg l k := by
  unfold delete_feed_model
  apply feedByUrl_filter
  intro f hf hk
  simpa using h f hf hk

lemma update_cat_mem (l : List MinifluxFeed) (a b : Int) :
    ∀ g ∈ update_feed_category_model l a b,
      ∃ x ∈ l, g.id = x.id ∧ g.feed_url = x.feed_url ∧
        (¬ x.id = a → g = x) := by
  intro g hg
  unfold update_feed_category_model at hg
  obtain ⟨x, hx, hgx⟩ := List.mem_map.mp hg
  by_cases hb : (x.id == a) = true
  · rw [if_pos hb] at hgx
    subst hgx
    exact ⟨x, hx, rfl, rfl, fun hne => absurd (by simpa using hb) hne⟩
  · rw [if_neg hb] at hgx
    subst hgx
    exact ⟨x, hx, rfl, rfl, fun _ => rfl⟩

lemma update_title_mem (l : List MinifluxFeed) (a : Int) (t : String) :
    ∀ g ∈ update_feed_title_model l a t,
      ∃ x ∈ l, g.id = x.id ∧ g.feed_url = x.feed_url ∧
        (¬ x.id = a → g = x) := by
  intro g hg
  unfold update_feed_title_model at hg
  obtain ⟨x, hx, hgx⟩ := List.mem_map.mp hg
  by_cases hb : (x.id == a) = true
  · rw [if_pos hb] at hgx
    subst hgx
    exact ⟨x, hx, rfl, rfl, fun hne => absurd (by simpa using hb) hne⟩
  · rw [if_neg hb] at hgx
    subst hgx
    exact ⟨x, hx, rfl, rfl, fun _ => rfl⟩

/-- Every feed the move/title mutations leave behind descends from a current
feed: the id and URL are kept, and feeds other than the matched one are kept
verbatim. -/
lemma existingFeedsEffect_mem (cfg : Config) (su : Bool)
    (l : List MinifluxFeed) (ch : TelegramChannel) (tid : Int)
    (f : MinifluxFeed) :
    ∀ g ∈ existingFeedsEffect cfg su l ch tid f,
      ∃ x ∈ l, g.id = x.id ∧ g.feed_url = x.feed_url ∧
        (¬ x.id = f.id → g = x) := by
  intro g hg
  unfold existingFeedsEffect at hg
  by_cases h2 : (su && !(new_feed_title cfg ch == f.title)) = true
  · rw [if_pos h2] at hg
    obtain ⟨y, hy, hid1, hurl1, hfix1⟩ := update_title_mem _ f.id _ g hg
    by_cases h1 : (f.category_id == tid) = true
    · rw [if_pos h1] at hy
      exact ⟨y, hy, hid1, hurl1, hfix1⟩
    · rw [if_neg h1] at hy
      obtain ⟨x, hx, hid2, hurl2, hfix2⟩ := update_cat_mem l f.id tid y hy
      refine ⟨x, hx, hid1.trans hid2, hurl1.trans hurl2, fun hne => ?_⟩
      have hyx := hfix2 hne
      have hyne : ¬ y.id = f.id := by rw [hid2]; exact hne
      rw [hfix1 hyne, hyx]
  · rw [if_neg h2] at hg
    by_cases h1 : (f.category_id == tid) = true
    · rw [if_pos h1] at hg
      exact ⟨g, hg, rfl, rfl, fun _ => rfl⟩
    · rw [if_neg h1] at hg
      exact update_cat_mem l f.id tid g hg

lemma feedByUrl_update_cat (cfg : Config) (l : List MinifluxFeed)
    (a b : Int) (k : String) :
    feedByUrl cfg (update_feed_category_model l a b) k =
      Option.map (fun f => if f.id == a then { f with category_id := b } else f)
        (feedByUrl cfg l k) := by
  unfold update_feed_category_model
  exact feedByUrl_map cfg _ (fun f => by split <;> rfl) l k

lemma feedByUrl_update_title (cfg : Config) (l : List MinifluxFeed)
    (a : Int) (t : String) (k : String) :
    feedByUrl cfg (update_feed_title_model l a t) k =
      Option.map (fun f => if f.id == a then { f with title := t } else f)
        (feedByUrl cfg l k) := by
  unfold update_feed_title_model
  exact feedByUrl_map cfg _ (fun f => by split <;> rfl) l k

lemma feedByUrl_update_cat_stable (cfg : Config) (l : List MinifluxFeed)
    (a b : Int) (k : String)
    (h : ∀ g ∈ l, normalize_url_for_comparison g.feed_url = k → ¬ g.id = a) :
    feedByUrl cfg (update_feed_category_model l a b) k = feedByUrl cfg l k := by
  rw [feedByUrl_update_cat]
  cases hw : feedByUrl cfg l k with
  | none => rfl
  | some w =>
    obtain ⟨hwl, hwk⟩ := feedByUrl_some_mem cfg l k w hw
    have hne : ¬ w.id = a := h w hwl hwk
    have hb : (w.id == a) = false := by simpa using hne
    simp [hb]
    exact fun hwa => absurd hwa hne

lemma feedByUrl_update_title_stable (cfg : Config) (l : List MinifluxFeed)
    (a : Int) (t : String) (k : String)
    (h : ∀ g ∈ l, normalize_url_for_comparison g.feed_url = k → ¬ g.id = a) :
    feedByUrl cfg (update_feed_title_model l a t) k = feedByUrl cfg l k := by
  rw [feedByUrl_update_title]
  cases hw : feedByUrl cfg l k with
  | none => rfl
  | some w =>
    obtain ⟨hwl, hwk⟩ := feedByUrl_some_mem cfg l k w hw
    have hne : ¬ w.id = a := h w hwl hwk
    have hb : (w.id == a) = false := by simpa using hne
    simp [hb]
    exact fun hwa => absurd hwa hne

/-- The move/title mutations at one matched feed leave the lookup untouched
at every URL group the matched feed does not belong to. -/
lemma feedByUrl_effect_stable (cfg : Config) (su : Bool)
    (l : List MinifluxFeed) (ch : TelegramChannel) (tid : Int)
    (f : MinifluxFeed) (k : String)
    (h : ∀ g ∈ l, normalize_url_for_comparison g.feed_url = k →
      ¬ g.id = f.id) :
    feedByUrl cfg (existingFeedsEffect cfg su l ch tid f) k =
      feedByUrl cfg l k := by
  unfold existingFeedsEffect
  have hmid : ∀ g ∈ update_feed_category_model l f.id tid,
      normalize_url_for_comparison g.feed_url = k → ¬ g.id = f.id := by
    intro g hg hk
    obtain ⟨x, hx, hid, hurl, _⟩ := update_cat_mem l f.id tid g hg
    rw [hid]
    exact h x hx (by rw [← hurl]; exact hk)
  by_cases h2 : (su && !(new_feed_title cfg ch == f.title)) = true
  · rw [if_pos h2]
    by_cases h1 : (f.category_id == tid) = true
    · rw [if_pos h1]
      exact feedByUrl_update_title_stable cfg l f.id _ k h
    · rw [if_neg h1]
      exact (feedByUrl_update_title_stable cfg _ f.id _ k hmid).trans
        (feedByUrl_update_cat_stable cfg l f.id tid k h)
  · rw [if_neg h2]
    by_cases h1 : (f.category_id == tid) = true
    · rw [if_pos h1]
    · rw [if_neg h1]
      exact feedByUrl_update_cat_stable cfg l f.id tid k h

/-- After the move/title mutations, the looked-up group's winner sits in the
target category, and carries the effective channel title whenever title
updates are enabled. -/
lemma feedByUrl_effect_target (cfg : Config) (su : Bool)
    (l : List MinifluxFeed) (ch : TelegramChannel) (tid : Int)
    (f : MinifluxFeed) (k : String)
    (hw : feedByUrl cfg l k = some f) :
    ∃ g, feedByUrl cfg (existingFeedsEffect cfg su l ch tid f) k = some g ∧
      g.category_id = tid ∧
      (su = true → g.title = new_feed_title cfg ch) := by
  unfold existingFeedsEffect
  by_cases h2 : (su && !(new_feed_title cfg ch == f.title)) = true
  · rw [if_pos h2]
    by_cases h1 : (f.category_id == tid) = true
    · rw [if_pos h1]
      refine ⟨{ f with title := new_feed_title cfg ch }, ?_, by simpa using h1,
        fun _ => rfl⟩
      rw [feedByUrl_update_title, hw]
      simp
    · rw [if_neg h1]
      refine ⟨{ { f with category_id := tid } with
          title := new_feed_title cfg ch }, ?_, rfl, fun _ => rfl⟩
      rw [feedByUrl_update_title, feedByUrl_update_cat, hw]
      simp
  · rw [if_neg h2]
    by_cases h1 : (f.category_id == tid) = true
    · rw [if_pos h1]
      refine ⟨f, hw, by simpa using h1, fun hsu => ?_⟩
      rw [hsu] at h2
      simp at h2
      exact h2.symm
    · rw [if_neg h1]
      refine ⟨{ f with category_id := tid }, ?_, rfl, fun hsu => ?_⟩
      · rw [feedByUrl_update_cat, hw]
        simp
      · rw [hsu] at h2
        simp at h2
        exact h2.symm

lemma delete_fold_mem :
    ∀ (fs l : List MinifluxFeed) (g : MinifluxFeed),
      g ∈ fs.foldl (fun l d => delete_feed_model l d.id) l →
      g ∈ l ∧ ∀ d ∈ fs, ¬ g.id = d.id
  | [], _, g, h => ⟨h, fun d hd => absurd hd (List.not_mem_nil d)⟩
  | d :: fs, l, g, h => by
    rw [List.foldl_cons] at h
    obtain ⟨h1, h2⟩ := delete_fold_mem fs _ g h
    unfold delete_feed_model at h1
    have hm := List.mem_filter.mp h1
    refine ⟨hm.1, fun d2 hd2 => ?_⟩
    rcases List.mem_cons.mp hd2 with heq | hmem
    · subst heq
      simpa using hm.2
    · exact h2 d2 hmem

lemma delete_fold_lookup (cfg : Config) :
    ∀ (fs l : List MinifluxFeed) (k : String),
      (∀ d ∈ fs, ∀ g ∈ l,
        normalize_url_for_comparison g.feed_url = k → ¬ g.id = d.id) →
      feedByUrl cfg (fs.foldl (fun l d => delete_feed_model l d.id) l) k =
        feedByUrl cfg l k
  | [], _, _, _ => rfl
  | d :: fs, l, k, h => by
    rw [List.foldl_cons]
    have h1 : feedByUrl cfg (delete_feed_model l d.id) k = feedByUrl cfg l k :=
      feedByUrl_delete cfg l d.id k
        (fun g hg hk => h d (List.mem_cons_self d fs) g hg hk)
    refine (delete_fold_lookup cfg fs _ k ?_).trans h1
    intro d2 hd2 g hg hk
    exact h d2 (List.mem_cons_of_mem d hd2) g
      (List.mem_of_mem_filter hg) hk

lemma planChannel_key (cfg : Config) (fol cat : String) (st : PlanState)
    (ch : TelegramChannel) :
    ∀ e ∈ (planChannel cfg fol cat st ch).assignments,
      e ∈ st.assignments ∨ (∃ c, e.1 = build_rss_url cfg c) ∧ ¬ e.1 = "" := by
  intro e he
  unfold planChannel at he
  by_cases hu : build_rss_url cfg ch = ""
  · rw [if_pos hu] at he
    exact Or.inl he
  · rw [if_neg hu] at he
    cases ha : alookup st.assignments (build_rss_url cfg ch) with
    | some v =>
      obtain ⟨v1, v2, v3⟩ := v
      rw [ha] at he
      exact Or.inl he
    | none =>
      rw [ha] at he
      rcases List.mem_append.mp he with hl | hr
      · exact Or.inl hl
      · have : e = (build_rss_url cfg ch, (cat, fol, ch)) := by simpa using hr
        subst this
        exact Or.inr ⟨⟨ch, rfl⟩, hu⟩

lemma planFoldChannels_key (cfg : Config) (fol cat : String) :
    ∀ (chs : List TelegramChannel) (st : PlanState),
      ∀ e ∈ (chs.foldl (planChannel cfg fol cat) st).assignments,
        e ∈ st.assignments ∨ (∃ c, e.1 = build_rss_url cfg c) ∧ ¬ e.1 = ""
  | [], _, _, he => Or.inl he
  | ch :: chs, st, e, he => by
    rw [List.foldl_cons] at he
    rcases planFoldChannels_key cfg fol cat chs _ e he with hl | hr
    · exact planChannel_key cfg fol cat st ch e hl
    · exact Or.inr hr

lemma planFolders_key (cfg : Config) (chs : List TelegramChannel) :
    ∀ (fcs : List (String × String)) (st : PlanState),
      ∀ e ∈ (fcs.foldl (planFolder cfg chs) st).assignments,
        e ∈ st.assignments ∨ (∃ c, e.1 = build_rss_url cfg c) ∧ ¬ e.1 = ""
  | [], _, _, he => Or.inl he
  | fc :: fcs, st, e, he => by
    rw [List.foldl_cons] at he
    rcases planFolders_key cfg chs fcs _ e he with hl | hr
    · exact planFoldChannels_key cfg fc.1 fc.2 _ st e hl
    · exact Or.inr hr

/-- Every planned feed URL is a nonempty URL the builder produced, so the
diff recognizes it as managed. -/
lemma plan_key_telegram (cfg : Config) (chs : List TelegramChannel) :
    ∀ e ∈ (plan_synchronization cfg chs).assignments,
      is_telegram_feed cfg e.1 = true := by
  intro e he
  rcases planFolders_key cfg chs cfg.sync.folders _ e he with hl | hr
  · exact absurd hl (List.not_mem_nil e)
  · obtain ⟨⟨c, hc⟩, hne⟩ := hr
    rw [hc]
    exact is_telegram_build cfg c (by rw [← hc]; exact hne)

/-- The Stage-2 fold invariant of the idempotence argument, over the
processed prefix `P` and the unprocessed suffix `Q` of the planned
assignments: the categories are the snapshot plus live-created extras (with
the cache in lock-step), ids still determine normalized URLs, every
processed assignment's target category resolves and its URL group's winner
sits there (with the effective title when title updates are enabled), the
URL groups of unprocessed assignments are untouched, and feeds outside every
planned URL group are untouched snapshot feeds. -/
def S2Inv (cfg : Config) (su : Bool) (feeds : List MinifluxFeed)
    (cats : List MinifluxCategory) (P Q : List (String × Assignment))
    (st : ExecState) : Prop :=
  (∃ ext, st.server_cats = cats ++ ext ∧
     st.cache = category_name_to_id (cats ++ ext) ∧
     ∀ c ∈ ext, ∀ f ∈ telegramFeeds cfg feeds, ¬ c.id = f.category_id) ∧
  (∀ g ∈ st.server_feeds, ∀ f ∈ feeds, g.id = f.id →
     normalize_url_for_comparison g.feed_url =
       normalize_url_for_comparison f.feed_url) ∧
  (∀ d ∈ P, ∃ t, dlookup st.cache d.2.1 = some t ∧
     ∃ g, feedByUrl cfg st.server_feeds
         (normalize_url_for_comparison d.1) = some g ∧
       g.category_id = t ∧
       (su = true → g.title = new_feed_title cfg d.2.2.2)) ∧
  (∀ d ∈ Q, feedByUrl cfg st.server_feeds
      (normalize_url_for_comparison d.1) =
    dlookup (existing_feed_by_url (telegramFeeds cfg feeds))
      (normalize_url_for_comparison d.1)) ∧
  (∀ g ∈ st.server_feeds,
     (∀ d ∈ P, ¬ normalize_url_for_comparison d.1 =
        normalize_url_for_comparison g.feed_url) →
     (∀ d ∈ Q, ¬ normalize_url_for_comparison d.1 =
        normalize_url_for_comparison g.feed_url) →
     g ∈ feeds)

/-- What a live category resolution guarantees: feeds and counters are kept,
the category/cache pair stays in the extended-snapshot shape, the requested
name now resolves to the returned id, and resolved bindings persist. -/
lemma resolve_post (cfg : Config) (env : MinifluxEnv)
    (feeds : List MinifluxFeed) (cats : List MinifluxCategory)
    (henv : EnvOK env (telegramFeeds cfg feeds)) (st : ExecState)
    (cat : String) (ext : List MinifluxCategory)
    (hsc : st.server_cats = cats ++ ext)
    (hca : st.cache = category_name_to_id (cats ++ ext))
    (hext : ∀ c ∈ ext, ∀ f ∈ telegramFeeds cfg feeds,
      ¬ c.id = f.category_id) :
    ∃ ext2,
      (resolveCategory env false st cat).2.server_feeds = st.server_feeds ∧
      (resolveCategory env false st cat).2.feed_count = st.feed_count ∧
      (resolveCategory env false st cat).2.server_cats = cats ++ ext2 ∧
      (resolveCategory env false st cat).2.cache =
        category_name_to_id (cats ++ ext2) ∧
      (∀ c ∈ ext2, ∀ f ∈ telegramFeeds cfg feeds, ¬ c.id = f.category_id) ∧
      dlookup (resolveCategory env false st cat).2.cache cat =
        some (resolveCategory env false st cat).1 ∧
      (∀ n t, dlookup st.cache n = some t →
        dlookup (resolveCategory env false st cat).2.cache n = some t) := by
  cases hcc : dlookup st.cache cat with
  | some j =>
    rw [resolveCategory_some env false st cat j hcc]
    exact ⟨ext, rfl, rfl, hsc, hca, hext, hcc, fun n t h => h⟩
  | none =>
    rw [resolveCategory_none_live env st cat hcc]
    refine ⟨ext ++ [{ id := env.fresh_cat_id st.cat_count, title := cat }],
      rfl, rfl, ?_, ?_, ?_, ?_, ?_⟩
    · show st.server_cats ++ _ = cats ++ _
      rw [hsc, List.append_assoc]
    · show st.cache ++ [(cat, env.fresh_cat_id st.cat_count)] =
        category_name_to_id (cats ++ (ext ++
          [{ id := env.fresh_cat_id st.cat_count, title := cat }]))
      rw [hca, ← List.append_assoc]
      simp [category_name_to_id]
    · intro c hc f hf
      rcases List.mem_append.mp hc with hold | hnew
      · exact hext c hold f hf
      · have : c = { id := env.fresh_cat_id st.cat_count, title := cat } := by
          simpa using hnew
        subst this
        exact henv st.cat_count f hf
    · show dlookup (st.cache ++ [(cat, env.fresh_cat_id st.cat_count)]) cat =
        some (env.fresh_cat_id st.cat_count)
      rw [dlookup_append_single, if_pos rfl]
    · intro n t h
      show dlookup (st.cache ++ [(cat, env.fresh_cat_id st.cat_count)]) n =
        some t
      rw [dlookup_append_single]
      by_cases hn : cat = n
      · subst hn
        rw [hcc] at h
        exact absurd h (by simp)
      · rw [if_neg hn]
        exact h

/-- One live Stage-2 iteration preserves the invariant, moving the processed
assignment from the suffix to the prefix. -/
lemma s2inv_step (cfg : Config) (env : MinifluxEnv) (su : Bool)
    (feeds : List MinifluxFeed) (cats : List MinifluxCategory)
    (henv : EnvOK env (telegramFeeds cfg feeds))
    (hfresh : ∀ k, ∀ f ∈ feeds, ¬ env.fresh_feed_id k = f.id)
    (P Q : List (String × Assignment)) (u cat fol : String)
    (ch : TelegramChannel) (st : ExecState)
    (htel : is_telegram_feed cfg u = true)
    (htit : ¬ new_feed_title cfg ch = "")
    (hP : ∀ d ∈ P, ¬ normalize_url_for_comparison d.1 =
      normalize_url_for_comparison u)
    (hQ : ∀ d ∈ Q, ¬ normalize_url_for_comparison d.1 =
      normalize_url_for_comparison u)
    (hinv : S2Inv cfg su feeds cats P ((u, cat, fol, ch) :: Q) st) :
    S2Inv cfg su feeds cats (P ++ [(u, cat, fol, ch)]) Q
      (applyAssignment cfg env false su
        (existing_feed_by_url (telegramFeeds cfg feeds)) st
        (u, cat, fol, ch)) := by
  obtain ⟨⟨ext, hsc, hca, hext⟩, hI2, hI34, hI5, hI6⟩ := hinv
  obtain ⟨ext2, hrsf, hrfc, hrsc, hrca, hrext, hrcat, hrkeep⟩ :=
    resolve_post cfg env feeds cats henv st cat ext hsc hca hext
  have hkey : feedByUrl cfg st.server_feeds
      (normalize_url_for_comparison u) =
    dlookup (existing_feed_by_url (telegramFeeds cfg feeds))
      (normalize_url_for_comparison u) :=
    hI5 (u, cat, fol, ch) (List.mem_cons_self _ _)
  rw [applyAssignment_def]
  cases hf : dlookup (existing_feed_by_url (telegramFeeds cfg feeds))
      (normalize_url_for_comparison u) with
  | some f =>
    have hff := feedmap_some _ _ _ hf
    have hffeeds : f ∈ feeds := List.mem_of_mem_filter hff.1
    have hgrp : ∀ k2, ¬ k2 = normalize_url_for_comparison u →
        ∀ g ∈ st.server_feeds,
          normalize_url_for_comparison g.feed_url = k2 → ¬ g.id = f.id := by
      intro k2 hk2 g hg hgk heq
      have h1 := hI2 g hg f hffeeds heq
      rw [hgk, hff.2] at h1
      exact hk2 h1
    have hspec := applyExisting_spec cfg false su
      (resolveCategory env false st cat).2 u cat ch
      (resolveCategory env false st cat).1 f
    have hsf := applyExisting_server_feeds_live cfg su
      (resolveCategory env false st cat).2 u cat ch
      (resolveCategory env false st cat).1 f
    rw [hrsf] at hsf
    refine ⟨⟨ext2, ?_, ?_, hrext⟩, ?_, ?_, ?_, ?_⟩
    · rw [hspec.2.2.2.1, hrsc]
    · rw [hspec.2.2.1, hrca]
    · intro g hg f0 hf0 hgid
      rw [hsf] at hg
      obtain ⟨x, hx, hid, hurl, _⟩ :=
        existingFeedsEffect_mem cfg su st.server_feeds ch
          (resolveCategory env false st cat).1 f g hg
      rw [hurl]
      exact hI2 x hx f0 hf0 (by rw [← hid]; exact hgid)
    · intro d hd
      rcases List.mem_append.mp hd with hdP | hdE
      · obtain ⟨t, hct, g, hwd, hgc, hgt⟩ := hI34 d hdP
        refine ⟨t, ?_, g, ?_, hgc, hgt⟩
        · rw [hspec.2.2.1]
          exact hrkeep d.2.1 t hct
        · rw [hsf, feedByUrl_effect_stable cfg su st.server_feeds ch
            (resolveCategory env false st cat).1 f
            (normalize_url_for_comparison d.1) (hgrp _ (hP d hdP))]
          exact hwd
      · have hde : d = (u, cat, fol, ch) := by simpa using hdE
        subst hde
        have hwk : feedByUrl cfg st.server_feeds
            (normalize_url_for_comparison u) = some f := by
          rw [hkey, hf]
        obtain ⟨g, hwg, hgc, hgt⟩ :=
          feedByUrl_effect_target cfg su st.server_feeds ch
            (resolveCategory env false st cat).1 f
            (normalize_url_for_comparison u) hwk
        refine ⟨(resolveCategory env false st cat).1, ?_, g, ?_, hgc, hgt⟩
        · rw [hspec.2.2.1]
          exact hrcat
        · rw [hsf]
          exact hwg
    · intro d hd
      rw [hsf, feedByUrl_effect_stable cfg su st.server_feeds ch
        (resolveCategory env false st cat).1 f
        (normalize_url_for_comparison d.1) (hgrp _ (hQ d hd))]
      exact hI5 d (List.mem_cons_of_mem _ hd)
    · intro g hg hPe hQ2
      rw [hsf] at hg
      obtain ⟨x, hx, hid, hurl, hfix⟩ :=
        existingFeedsEffect_mem cfg su st.server_feeds ch
          (resolveCategory env false st cat).1 f g hg
      have hgu : ¬ normalize_url_for_comparison u =
          normalize_url_for_comparison g.feed_url :=
        hPe (u, cat, fol, ch)
          (List.mem_append.mpr (Or.inr (List.mem_singleton.mpr rfl)))
      have hxne : ¬ x.id = f.id := by
        intro hxf
        have h1 := hI2 x hx f hffeeds hxf
        have h2 : normalize_url_for_comparison g.feed_url =
            normalize_url_for_comparison u := by
          rw [hurl, h1, hff.2]
        exact hgu h2.symm
      rw [hfix hxne]
      refine hI6 x hx ?_ ?_
      · intro d hd
        have h3 := hPe d (List.mem_append.mpr (Or.inl hd))
        rw [hurl] at h3
        exact h3
      · intro d hd
        rcases List.mem_cons.mp hd with heq | hmem
        · subst heq
          rw [hurl] at hgu
          exact hgu
        · have h3 := hQ2 d hmem
          rw [hurl] at h3
          exact h3
  | none =>
    have hcs := applyCreate_spec cfg env false
      (resolveCategory env false st cat).2 u cat ch
      (resolveCategory env false st cat).1
    have hcl := applyCreate_server_feeds_live cfg env
      (resolveCategory env false st cat).2 u cat ch
      (resolveCategory env false st cat).1
    rw [hrsf, hrfc] at hcl
    refine ⟨⟨ext2, ?_, ?_, hrext⟩, ?_, ?_, ?_, ?_⟩
    · rw [hcs.2.2.2.2.2.1, hrsc]
    · rw [hcs.2.2.2.2.1, hrca]
    · intro g hg f0 hf0 hgid
      rw [hcl.1] at hg
      rcases List.mem_append.mp hg with hold | hnew
      · exact hI2 g hold f0 hf0 hgid
      · have hgn : g = mkCreatedFeed env st.feed_count u
            (new_feed_title cfg ch) (resolveCategory env false st cat).1 := by
          simpa using hnew
        subst hgn
        exact absurd hgid (hfresh st.feed_count f0 hf0)
    · intro d hd
      rcases List.mem_append.mp hd with hdP | hdE
      · obtain ⟨t, hct, g, hwd, hgc, hgt⟩ := hI34 d hdP
        refine ⟨t, ?_, g, ?_, hgc, hgt⟩
        · rw [hcs.2.2.2.2.1]
          exact hrkeep d.2.1 t hct
        · have hmiss := feedByUrl_append_miss cfg st.server_feeds
            (mkCreatedFeed env st.feed_count u (new_feed_title cfg ch)
              (resolveCategory env false st cat).1)
            (normalize_url_for_comparison d.1)
            (fun hc => hP d hdP hc.symm)
          rw [hcl.1, hmiss]
          exact hwd
      · have hde : d = (u, cat, fol, ch) := by simpa using hdE
        subst hde
        refine ⟨(resolveCategory env false st cat).1, ?_,
          mkCreatedFeed env st.feed_count u (new_feed_title cfg ch)
            (resolveCategory env false st cat).1, ?_, rfl, fun _ => ?_⟩
        · rw [hcs.2.2.2.2.1]
          exact hrcat
        · rw [hcl.1]
          exact feedByUrl_append_hit cfg st.server_feeds _ _ htel rfl
        · exact create_feed_result_title_of_ne env u _ htit
    · intro d hd
      have hmiss := feedByUrl_append_miss cfg st.server_feeds
        (mkCreatedFeed env st.feed_count u (new_feed_title cfg ch)
          (resolveCategory env false st cat).1)
        (normalize_url_for_comparison d.1)
        (fun hc => hQ d hd hc.symm)
      rw [hcl.1, hmiss]
      exact hI5 d (List.mem_cons_of_mem _ hd)
    · intro g hg hPe hQ2
      rw [hcl.1] at hg
      rcases List.mem_append.mp hg with hold | hnew
      · refine hI6 g hold ?_ ?_
        · intro d hd
          exact hPe d (List.mem_append.mpr (Or.inl hd))
        · intro d hd
          rcases List.mem_cons.mp hd with heq | hmem
          · subst heq
            exact hPe (u, cat, fol, ch)
              (List.mem_append.mpr (Or.inr (List.mem_singleton.mpr rfl)))
          · exact hQ2 d hmem
      · have hgn : g = mkCreatedFeed env st.feed_count u
            (new_feed_title cfg ch) (resolveCategory env false st cat).1 := by
          simpa using hnew
        subst hgn
        exact absurd rfl (hPe (u, cat, fol, ch)
          (List.mem_append.mpr (Or.inr (List.mem_singleton.mpr rfl))))

/-- The invariant carried across the whole live Stage-2 fold. -/
lemma s2inv_fold (cfg : Config) (env : MinifluxEnv) (su : Bool)
    (feeds : List MinifluxFeed) (cats : List MinifluxCategory)
    (henv : EnvOK env (telegramFeeds cfg feeds))
    (hfresh : ∀ k, ∀ f ∈ feeds, ¬ env.fresh_feed_id k = f.id) :
    ∀ (Q P : List (String × Assignment)) (st : ExecState),
      ((P ++ Q).map (fun d => normalize_url_for_comparison d.1)).Nodup →
      (∀ d ∈ Q, is_telegram_feed cfg d.1 = true) →
      (∀ d ∈ Q, ¬ new_feed_title cfg d.2.2.2 = "") →
      S2Inv cfg su feeds cats P Q st →
      S2Inv cfg su feeds cats (P ++ Q) []
        (Q.foldl (applyAssignment cfg env false su
          (existing_feed_by_url (telegramFeeds cfg feeds))) st)
  | [], P, st, _, _, _, hinv => by simpa using hinv
  | e :: Q, P, st, hnd, htel, htit, hinv => by
    obtain ⟨u, cat, fol, ch⟩ := e
    have hnd2 := hnd
    rw [List.map_append, List.map_cons] at hnd2
    obtain ⟨hndP, hndC, hdisj⟩ := List.nodup_append.mp hnd2
    have hP : ∀ d ∈ P, ¬ normalize_url_for_comparison d.1 =
        normalize_url_for_comparison u := by
      intro d hd hc
      exact hdisj (List.mem_map.mpr ⟨d, hd, rfl⟩)
        (by rw [hc]; exact List.mem_cons_self _ _)
    have hQ : ∀ d ∈ Q, ¬ normalize_url_for_comparison d.1 =
        normalize_url_for_comparison u := by
      intro d hd hc
      exact (List.nodup_cons.mp hndC).1 (List.mem_map.mpr ⟨d, hd, hc⟩)
    rw [List.foldl_cons]
    have hstep := s2inv_step cfg env su feeds cats henv hfresh P Q u cat fol
      ch st (htel _ (List.mem_cons_self _ _)) (htit _ (List.mem_cons_self _ _))
      hP hQ hinv
    have hconc := s2inv_fold cfg env su feeds cats henv hfresh Q
      (P ++ [(u, cat, fol, ch)]) _
      (by rw [List.append_assoc, List.singleton_append]; exact hnd)
      (fun d hd => htel d (List.mem_cons_of_mem _ hd))
      (fun d hd => htit d (List.mem_cons_of_mem _ hd)) hstep
    rw [List.append_assoc, List.singleton_append] at hconc
    exact hconc

/-- With the invariant at the end of the fold, no planned assignment raises
the pre-pass flag against the final destination state. -/
lemma second_any_false (cfg : Config) (su : Bool)
    (A : List (String × Assignment)) (cats ext : List MinifluxCategory)
    (L2 : List MinifluxFeed) (C2 : List MinifluxCategory) (st : ExecState)
    (hca : st.cache = category_name_to_id (cats ++ ext))
    (hC2 : C2 = cats ++ ext)
    (hstab : ∀ e ∈ A, feedByUrl cfg L2 (normalize_url_for_comparison e.1) =
      feedByUrl cfg st.server_feeds (normalize_url_for_comparison e.1))
    (hI34 : ∀ d ∈ A, ∃ t, dlookup st.cache d.2.1 = some t ∧
      ∃ g, feedByUrl cfg st.server_feeds
          (normalize_url_for_comparison d.1) = some g ∧
        g.category_id = t ∧
        (su = true → g.title = new_feed_title cfg d.2.2.2)) :
    A.any (assignmentNeedsChange cfg (category_name_to_id C2)
      (existing_feed_by_url (telegramFeeds cfg L2)) su) = false := by
  rw [List.any_eq_false]
  intro e he
  obtain ⟨u, cat, fol, ch⟩ := e
  obtain ⟨t, hct, g, hwg, hgc, hgt⟩ := hI34 (u, cat, fol, ch) he
  have hcat2 : dlookup (category_name_to_id C2) cat = some t := by
    rw [hC2, ← hca]
    exact hct
  have hfd2 : dlookup (existing_feed_by_url (telegramFeeds cfg L2))
      (normalize_url_for_comparison u) = some g := by
    show feedByUrl cfg L2 (normalize_url_for_comparison u) = some g
    rw [hstab (u, cat, fol, ch) he]
    exact hwg
  rw [assignmentNeedsChange_def, hcat2, hfd2]
  show ¬ (!(g.category_id == t) ||
    (su && !(new_feed_title cfg ch == g.title))) = true
  rw [hgc]
  cases hsu : su with
  | false => simp
  | true =>
    rw [hgt hsu]
    simp

/-- The heart of the amended idempotence claim: after a live Stage-2 pass,
the pre-pass over the resulting destination state is quiet. -/
lemma stage2_second_pass_quiet (cfg : Config) (env : MinifluxEnv) (su : Bool)
    (A : List (String × Assignment)) (feeds : List MinifluxFeed)
    (cats : List MinifluxCategory)
    (hids : (feeds.map (fun f => f.id)).Nodup)
    (hfresh : ∀ k, ∀ f ∈ feeds, ¬ env.fresh_feed_id k = f.id)
    (henv : EnvOK env (telegramFeeds cfg feeds))
    (hnorm : (A.map (fun d => normalize_url_for_comparison d.1)).Nodup)
    (htelA : ∀ d ∈ A, is_telegram_feed cfg d.1 = true)
    (htitle : ∀ d ∈ A, ¬ new_feed_title cfg d.2.2.2 = "") :
    changes_needed cfg A
      (telegramFeeds cfg
        (stage2Run cfg env false su A feeds cats).server_feeds)
      (stage2Run cfg env false su A feeds cats).server_cats su = false := by
  have hinv0 : S2Inv cfg su feeds cats [] A (stage2Init feeds cats) := by
    refine ⟨⟨[], by simp [stage2Init], by simp [stage2Init], by simp⟩, ?_,
      by simp, fun d hd => rfl, fun g hg _ _ => hg⟩
    intro g hg f0 hf0 heq
    have hgf := List.inj_on_of_nodup_map hids hg hf0 heq
    rw [hgf]
  have hfold := s2inv_fold cfg env su feeds cats henv hfresh A []
    (stage2Init feeds cats) (by simpa using hnorm) htelA htitle hinv0
  rw [List.nil_append] at hfold
  obtain ⟨⟨ext, hsc, hca, hext⟩, hI2, hI34, _, hI6⟩ := hfold
  by_cases hr : cfg.sync.remove_absent_feeds = true
  · have hpass : stage2Run cfg env false su A feeds cats =
        ((telegramFeeds cfg feeds).filter (feedNeedsRemoval (plannedUrls A)
          (configuredCategoryIds cfg cats))).foldl (removeFeedStep false)
          (A.foldl (applyAssignment cfg env false su
            (existing_feed_by_url (telegramFeeds cfg feeds)))
            (stage2Init feeds cats)) := by
      unfold stage2Run removalPass
      rw [if_pos hr]
    have hspec := removalFold_spec false
      ((telegramFeeds cfg feeds).filter (feedNeedsRemoval (plannedUrls A)
        (configuredCategoryIds cfg cats)))
      (A.foldl (applyAssignment cfg env false su
        (existing_feed_by_url (telegramFeeds cfg feeds)))
        (stage2Init feeds cats))
    have hfun : (fun (l : List MinifluxFeed) (d : MinifluxFeed) =>
        if false then l else delete_feed_model l d.id) =
        (fun l d => delete_feed_model l d.id) := by
      funext l d
      simp
    have hsfR : (stage2Run cfg env false su A feeds cats).server_feeds =
        ((telegramFeeds cfg feeds).filter (feedNeedsRemoval (plannedUrls A)
          (configuredCategoryIds cfg cats))).foldl
          (fun l d => delete_feed_model l d.id)
          (A.foldl (applyAssignment cfg env false su
            (existing_feed_by_url (telegramFeeds cfg feeds)))
            (stage2Init feeds cats)).server_feeds := by
      rw [hpass, hspec.2.2, hfun]
    have hcats2 : (stage2Run cfg env false su A feeds cats).server_cats =
        cats ++ ext := by
      rw [hpass, hspec.1.2.2.2.2.1, hsc]
    have hstab : ∀ e ∈ A,
        feedByUrl cfg (stage2Run cfg env false su A feeds cats).server_feeds
          (normalize_url_for_comparison e.1) =
        feedByUrl cfg (A.foldl (applyAssignment cfg env false su
            (existing_feed_by_url (telegramFeeds cfg feeds)))
            (stage2Init feeds cats)).server_feeds
          (normalize_url_for_comparison e.1) := by
      intro e he
      rw [hsfR]
      apply delete_fold_lookup
      intro d2 hd2 g hg hk heq
      have hd2tf : d2 ∈ telegramFeeds cfg feeds := List.mem_of_mem_filter hd2
      have hd2feeds : d2 ∈ feeds := List.mem_of_mem_filter hd2tf
      have h1 := hI2 g hg d2 hd2feeds heq
      have hd2p := (List.mem_filter.mp hd2).2
      unfold feedNeedsRemoval at hd2p
      have hmem : normalize_url_for_comparison d2.feed_url ∈ plannedUrls A := by
        show normalize_url_for_comparison d2.feed_url ∈
          A.map (fun d => normalize_url_for_comparison d.1)
        rw [← h1, hk]
        exact List.mem_map.mpr ⟨e, he, rfl⟩
      have hcont : (plannedUrls A).contains
          (normalize_url_for_comparison d2.feed_url) = true :=
        List.elem_eq_true_of_mem hmem
      rw [hcont] at hd2p
      simp at hd2p
    have hAny := second_any_false cfg su A cats ext
      (stage2Run cfg env false su A feeds cats).server_feeds
      (stage2Run cfg env false su A feeds cats).server_cats
      (A.foldl (applyAssignment cfg env false su
        (existing_feed_by_url (telegramFeeds cfg feeds)))
        (stage2Init feeds cats))
      hca hcats2 hstab hI34
    have hRem : (telegramFeeds cfg
        (stage2Run cfg env false su A feeds cats).server_feeds).any
        (feedNeedsRemoval (plannedUrls A)
          (configuredCategoryIds cfg
            (stage2Run cfg env false su A feeds cats).server_cats)) =
        false := by
      rw [List.any_eq_false]
      intro f2 hf2
      intro hneed
      have hf2t : is_telegram_feed cfg f2.feed_url = true :=
        (List.mem_filter.mp hf2).2
      have hf2s : f2 ∈ (stage2Run cfg env false su A feeds cats).server_feeds :=
        List.mem_of_mem_filter hf2
      rw [hsfR] at hf2s
      obtain ⟨hf2F, hf2ids⟩ := delete_fold_mem _ _ f2 hf2s
      unfold feedNeedsRemoval at hneed
      have hcontC := ((Bool.and_eq_true _ _).mp hneed).1
      have hcontP := ((Bool.and_eq_true _ _).mp hneed).2
      have hplF : (plannedUrls A).contains
          (normalize_url_for_comparison f2.feed_url) = false := by
        simpa using hcontP
      have hplanned : ∀ d ∈ A, ¬ normalize_url_for_comparison d.1 =
          normalize_url_for_comparison f2.feed_url := by
        intro d hd hc
        have hm : normalize_url_for_comparison f2.feed_url ∈ plannedUrls A := by
          show _ ∈ A.map (fun d => normalize_url_for_comparison d.1)
          exact List.mem_map.mpr ⟨d, hd, hc⟩
        have hcontr : (plannedUrls A).contains
            (normalize_url_for_comparison f2.feed_url) = true :=
          List.elem_eq_true_of_mem hm
        rw [hcontr] at hplF
        simp at hplF
      have hf2feeds : f2 ∈ feeds := hI6 f2 hf2F hplanned
        (fun d hd => absurd hd (List.not_mem_nil d))
      have hf2tf : f2 ∈ telegramFeeds cfg feeds :=
        List.mem_filter.mpr ⟨hf2feeds, hf2t⟩
      have hcid : f2.category_id ∈ configuredCategoryIds cfg
          (stage2Run cfg env false su A feeds cats).server_cats :=
        List.mem_of_elem_eq_true hcontC
      rw [hcats2] at hcid
      unfold configuredCategoryIds at hcid
      obtain ⟨c, hcmem, hcid2⟩ := List.mem_map.mp hcid
      have hcf := List.mem_filter.mp hcmem
      rcases List.mem_append.mp hcf.1 with hc1 | hc2
      · have hfn : feedNeedsRemoval (plannedUrls A)
            (configuredCategoryIds cfg cats) f2 = true := by
          unfold feedNeedsRemoval
          rw [hplF]
          have hcc : (configuredCategoryIds cfg cats).contains
              f2.category_id = true := by
            have hm2 : f2.category_id ∈ configuredCategoryIds cfg cats := by
              unfold configuredCategoryIds
              exact List.mem_map.mpr
                ⟨c, List.mem_filter.mpr ⟨hc1, hcf.2⟩, hcid2⟩
            exact List.elem_eq_true_of_mem hm2
          rw [hcc]
          rfl
        have hf2R : f2 ∈ (telegramFeeds cfg feeds).filter
            (feedNeedsRemoval (plannedUrls A)
              (configuredCategoryIds cfg cats)) :=
          List.mem_filter.mpr ⟨hf2tf, hfn⟩
        exact hf2ids f2 hf2R rfl
      · exact hext c hc2 f2 hf2tf hcid2
    unfold changes_needed
    rw [hAny, hRem]
    simp
  · have hpass : stage2Run cfg env false su A feeds cats =
        A.foldl (applyAssignment cfg env false su
          (existing_feed_by_url (telegramFeeds cfg feeds)))
          (stage2Init feeds cats) := by
      unfold stage2Run removalPass
      rw [if_neg hr]
    have hcats2 : (stage2Run cfg env false su A feeds cats).server_cats =
        cats ++ ext := by
      rw [hpass]
      exact hsc
    have hstab : ∀ e ∈ A,
        feedByUrl cfg (stage2Run cfg env false su A feeds cats).server_feeds
          (normalize_url_for_comparison e.1) =
        feedByUrl cfg (A.foldl (applyAssignment cfg env false su
            (existing_feed_by_url (telegramFeeds cfg feeds)))
            (stage2Init feeds cats)).server_feeds
          (normalize_url_for_comparison e.1) := by
      intro e he
      rw [hpass]
    have hAny := second_any_false cfg su A cats ext
      (stage2Run cfg env false su A feeds cats).server_feeds
      (stage2Run cfg env false su A feeds cats).server_cats
      (A.foldl (applyAssignment cfg env false su
        (existing_feed_by_url (telegramFeeds cfg feeds)))
        (stage2Init feeds cats))
      hca hcats2 hstab hI34
    unfold changes_needed
    rw [hAny]
    have hrf : cfg.sync.remove_absent_feeds = false := by
      revert hr
      cases cfg.sync.remove_absent_feeds <;> simp
    rw [hrf]
    simp

/-- A configuration with one folder mapped to category `"C"`, emoji removal
on, title updates on, absent-feed removal on. -/
def cfgC4 : Config :=
  { rsshub := { base_url := "http://x" },
    sync := { folders := [("F", "C")], remove_absent_feeds := true,
              private_feed_mode := "skip", validate_feeds := false,
              keep_emojis_in_titles := false,
              disable_title_updates := false } }

/-- A public channel whose title is a single emoji (U+1F525), so its
effective feed title is empty. -/
def chC4 : TelegramChannel :=
  { id := 1, username := some "a", title := String.mk [Char.ofNat 0x1f525],
    is_private := false, folder_name := some "F" }

/-- A destination whose server hands out fixed fresh ids and auto-detects
the title `"Auto"` for new feeds. -/
def envC4 : MinifluxEnv :=
  { fresh_cat_id := fun _ => 10, fresh_feed_id := fun _ => 20,
    auto_title := fun _ => "Auto" }

/-- C4, counterexample to the literal claim.  A channel titled by a single
emoji gets an empty effective feed title, `create_feed` skips the
client-side title update for a falsy title (miniflux_client.py, line 338),
so the created feed keeps the server's auto-detected title `"Auto"`; the
live run completes with no errors, yet the second planner+diff pass over
the unchanged source and the resulting destination still reports a needed
change (a title update from `"Auto"` to the empty effective title). -/
theorem planner_diff_not_idempotent_empty_title :
    (runSyncCore cfgC4 envC4 false [chC4] [] []).result.errors = [] ∧
    changes_needed cfgC4
      (plan_synchronization cfgC4 (filter_channels cfgC4 [chC4])).assignments
      (telegramFeeds cfgC4
        (runSyncCore cfgC4 envC4 false [chC4] [] []).server_feeds)
      (runSyncCore cfgC4 envC4 false [chC4] [] []).server_cats
      (!cfgC4.sync.disable_title_updates) = true := by
  constructor
  · rfl
  · rfl

/-- C4 (amended).  For a live run of the successful-fetch core of
`sync_folders` over a source snapshot whose planned assignments carry
pairwise case-distinct feed URLs and nonempty effective titles, against a
destination snapshot with pairwise distinct feed ids and a server handing
out genuinely fresh feed and category ids, the run completes with no errors
and running the planner and diff a second time against the unchanged source
and the resulting destination state yields an empty action set: the
`changes_needed` pre-pass evaluates to false, and a second Stage-2 pass
classifies no add, move, title-update or remove action. -/
theorem planner_diff_second_run_empty (cfg : Config) (env : MinifluxEnv)
    (channels : List TelegramChannel) (feeds : List MinifluxFeed)
    (cats : List MinifluxCategory)
    (hids : (feeds.map (fun f => f.id)).Nodup)
    (hfresh : ∀ k, ∀ f ∈ feeds, ¬ env.fresh_feed_id k = f.id)
    (henv : EnvOK env (telegramFeeds cfg feeds))
    (hnorm : ((plan_synchronization cfg
        (filter_channels cfg channels)).assignments.map
      (fun d => normalize_url_for_comparison d.1)).Nodup)
    (htitle : ∀ d ∈ (plan_synchronization cfg
        (filter_channels cfg channels)).assignments,
      ¬ new_feed_title cfg d.2.2.2 = "") :
    (runSyncCore cfg env false channels feeds cats).result.errors = [] ∧
    changes_needed cfg
      (plan_synchronization cfg (filter_channels cfg channels)).assignments
      (telegramFeeds cfg
        (runSyncCore cfg env false channels feeds cats).server_feeds)
      (runSyncCore cfg env false channels feeds cats).server_cats
      (!cfg.sync.disable_title_updates) = false ∧
    ∀ d2 : Bool,
      stage2Run cfg env d2 (!cfg.sync.disable_title_updates)
        (plan_synchronization cfg (filter_channels cfg channels)).assignments
        (runSyncCore cfg env false channels feeds cats).server_feeds
        (runSyncCore cfg env false channels feeds cats).server_cats =
      stage2Init (runSyncCore cfg env false channels feeds cats).server_feeds
        (runSyncCore cfg env false channels feeds cats).server_cats := by
  by_cases hch : changes_needed cfg
      (plan_synchronization cfg (filter_channels cfg channels)).assignments
      (telegramFeeds cfg feeds) cats (!cfg.sync.disable_title_updates) = true
  · simp only [runSyncCore, hch, Bool.not_true, Bool.false_eq_true, if_false]
    have hch2 := stage2_second_pass_quiet cfg env
      (!cfg.sync.disable_title_updates)
      (plan_synchronization cfg (filter_channels cfg channels)).assignments
      feeds cats hids hfresh henv hnorm
      (plan_key_telegram cfg (filter_channels cfg channels)) htitle
    exact ⟨by trivial, hch2, fun d2 => stage2_noop_of_not_changes cfg env d2
      (!cfg.sync.disable_title_updates)
      (plan_synchronization cfg (filter_channels cfg channels)).assignments
      (stage2Run cfg env false (!cfg.sync.disable_title_updates)
        (plan_synchronization cfg (filter_channels cfg channels)).assignments
        feeds cats).server_feeds
      (stage2Run cfg env false (!cfg.sync.disable_title_updates)
        (plan_synchronization cfg (filter_channels cfg channels)).assignments
        feeds cats).server_cats hch2⟩
  · have hch0 : changes_needed cfg
        (plan_synchronization cfg (filter_channels cfg channels)).assignments
        (telegramFeeds cfg feeds) cats
        (!cfg.sync.disable_title_updates) = false := by
      revert hch
      cases changes_needed cfg
        (plan_synchronization cfg (filter_channels cfg channels)).assignments
        (telegramFeeds cfg feeds) cats
        (!cfg.sync.disable_title_updates) <;> simp
    have hout : runSyncCore cfg env false channels feeds cats =
        RunOutput.mk (SyncResult.mk [] [] [] [] [] false) feeds cats := by
      unfold runSyncCore
      rw [hch0]
      rfl
    rw [hout]
    exact ⟨rfl, hch0, fun d2 => stage2_noop_of_not_changes cfg env d2
      (!cfg.sync.disable_title_updates)
      (plan_synchronization cfg (filter_channels cfg channels)).assignments
      feeds cats hch0⟩

/-- A public channel with an ordinary title, for the witness. -/
def chC4w : TelegramChannel :=
  { id := 2, username := some "b", title := "Chan", is_private := false,
    folder_name := some "F" }

/-- Witness for C4 at a concrete input: one plainly-titled public channel
against an empty destination. -/
theorem planner_diff_second_run_empty_witness :
    (([] : List MinifluxFeed).map (fun f => f.id)).Nodup ∧
    (∀ k, ∀ f ∈ ([] : List MinifluxFeed), ¬ envC4.fresh_feed_id k = f.id) ∧
    EnvOK envC4 (telegramFeeds cfgC4 []) ∧
    ((plan_synchronization cfgC4
        (filter_channels cfgC4 [chC4w])).assignments.map
      (fun d => normalize_url_for_comparison d.1)).Nodup ∧
    (∀ d ∈ (plan_synchronization cfgC4
        (filter_channels cfgC4 [chC4w])).assignments,
      ¬ new_feed_title cfgC4 d.2.2.2 = "") ∧
    ((runSyncCore cfgC4 envC4 false [chC4w] [] []).result.errors = [] ∧
     changes_needed cfgC4
       (plan_synchronization cfgC4
         (filter_channels cfgC4 [chC4w])).assignments
       (telegramFeeds cfgC4
         (runSyncCore cfgC4 envC4 false [chC4w] [] []).server_feeds)
       (runSyncCore cfgC4 envC4 false [chC4w] [] []).server_cats
       (!cfgC4.sync.disable_title_updates) = false ∧
     ∀ d2 : Bool,
       stage2Run cfgC4 envC4 d2 (!cfgC4.sync.disable_title_updates)
         (plan_synchronization cfgC4
           (filter_channels cfgC4 [chC4w])).assignments
         (runSyncCore cfgC4 envC4 false [chC4w] [] []).server_feeds
         (runSyncCore cfgC4 envC4 false [chC4w] [] []).server_cats =
       stage2Init (runSyncCore cfgC4 envC4 false [chC4w] [] []).server_feeds
         (runSyncCore cfgC4 envC4 false [chC4w] [] []).server_cats) :=
  ⟨by decide,
   fun _ f hf => absurd hf (List.not_mem_nil f),
   fun _ f hf => absurd hf (List.not_mem_nil f),
   by decide,
   by decide,
   planner_diff_second_run_empty cfgC4 envC4 [chC4w] [] [] (by decide)
     (fun _ f hf => absurd hf (List.not_mem_nil f))
     (fun _ f hf => absurd hf (List.not_mem_nil f))
     (by decide) (by decide)⟩

/-- A managed destination feed sitting in the configured category `"C"`
whose URL no channel produces. -/
def feedC6 : MinifluxFeed :=
  { id := 5, title := "Old", feed_url := "http://x/telegram/channel/old",
    category_id := 7 }

/-- The configured destination category. -/
def catC6 : MinifluxCategory := { id := 7, title := "C" }

/-- The add action the C6 witness run classifies. -/
def actC6a : SyncAction :=
  { action := "add", channel_title := "Chan",
    feed_url := "http://x/telegram/channel/b", category_name := "C" }

/-- The remove action the C6 witness run classifies. -/
def actC6r : SyncAction :=
  { action := "remove", channel_title := "Old",
    feed_url := "http://x/telegram/channel/old", category_name := "C" }

/-- Witness for C6 at a concrete input: a run that classifies one add and
one remove, whose normalized URLs the theorem separates. -/
theorem add_remove_disjoint_witness :
    actC6a ∈ (runSyncCore cfgC4 envC4 false [chC4w]
      [feedC6] [catC6]).result.added_feeds ∧
    actC6r ∈ (runSyncCore cfgC4 envC4 false [chC4w]
      [feedC6] [catC6]).result.removed_feeds ∧
    normalize_url_for_comparison actC6a.feed_url ≠
      normalize_url_for_comparison actC6r.feed_url :=
  ⟨by decide, by decide,
   add_remove_disjoint cfgC4 envC4 false [chC4w] [feedC6] [catC6]
     actC6a (by decide) actC6r (by decide)⟩

end Teleflux
